import Mathlib

/-! # SoftwareRasterizer: the week-3 pipeline of `Renderer.cpp`

A shallow embedding of `source/Renderer.cpp`:

* `float` values are exact rationals (`ℚ`); rounding is not modelled.  IEEE division does not
  trap, so `/` is the total division of `ℚ`; statements about a quotient carry the hypothesis
  that its divisor is non-zero.
* `std::vector` and the raw pixel arrays are lists.  An access outside the container is
  undefined behaviour in C++; every function that indexes returns an `Option`, and `none`
  stands for such an access.
* `int` values are integers (`ℤ`), `size_t` values are naturals with an explicit wrap at
  `2 ^ 64` where the source subtracts.
* Code that lives in headers which are not part of the sources (`Texture::Sample`, `Remap`,
  `ColorRGB::MaxToOne`, `SDL_MapRGB`, the `Matrix` operations) is a parameter, collected in
  `Externals`.
-/

namespace dae

/-! ## Data model -/

/-- Modelled from the spec: `Vector2` is declared in `Vector2.h`, which is not part of the
sources; the spec describes it as two floats. -/
structure Vector2 where
  x : ℚ
  y : ℚ
deriving DecidableEq

/-- Modelled from the spec: `Vector3` is declared in `Vector3.h`, which is not part of the
sources; the spec describes it as three floats. -/
structure Vector3 where
  x : ℚ
  y : ℚ
  z : ℚ
deriving DecidableEq

/-- Modelled from the spec: `Vector4` is declared in `Vector4.h`, which is not part of the
sources; the spec describes the clip-space position as four floats `x, y, z, w`. -/
structure Vector4 where
  x : ℚ
  y : ℚ
  z : ℚ
  w : ℚ
deriving DecidableEq

/-- Modelled from the spec: `ColorRGB` is declared in `ColorRGB.h`, which is not part of the
sources; the spec describes a colour as three floats. -/
structure ColorRGB where
  r : ℚ
  g : ℚ
  b : ℚ
deriving DecidableEq

/-- Modelled from the spec: `Matrix` is declared in `Matrix.h`, which is not part of the
sources; a 4x4 matrix of floats stored as four rows. -/
structure Matrix where
  row0 : Vector4
  row1 : Vector4
  row2 : Vector4
  row3 : Vector4
deriving DecidableEq

/-- Modelled from the spec: `Vertex` is declared in `DataTypes.h`, which is not part of the
sources; position, color, uv, normal, tangent. -/
structure Vertex where
  position : Vector3
  color : ColorRGB
  uv : Vector2
  normal : Vector3
  tangent : Vector3
deriving DecidableEq

/-- Modelled from the spec: `Vertex_Out` is declared in `DataTypes.h`, which is not part of
the sources; a four-float position plus the carried attributes. -/
structure Vertex_Out where
  position : Vector4
  color : ColorRGB
  uv : Vector2
  normal : Vector3
  tangent : Vector3
deriving DecidableEq

/-- Modelled from the spec: `PrimitiveTopology` is declared in `DataTypes.h`, which is not part
of the sources; the topology tag of a mesh. -/
inductive PrimitiveTopology
  | TriangleList
  | TriangleStrip
deriving DecidableEq

/-- Modelled from the spec: `Mesh` is declared in `DataTypes.h`, which is not part of the
sources; vertices, indices, topology tag, the transient `vertices_out` and the world matrix. -/
structure Mesh where
  vertices : List Vertex
  indices : List ℕ
  primitiveTopology : PrimitiveTopology
  vertices_out : List Vertex_Out
  worldMatrix : Matrix
deriving DecidableEq

/-- Modelled from the spec: `DisplayMode` is declared in `Renderer.h`, which is not part of the
sources; the enum with the two values `FinalColor` and `DepthBuffer`. -/
inductive DisplayMode
  | FinalColor
  | DepthBuffer
deriving DecidableEq

/-- The two matrices of `m_Camera` that the renderer reads. -/
structure Camera where
  viewMatrix : Matrix
  projectionMatrix : Matrix
deriving DecidableEq

/-- The fields of `Renderer` that the week-3 pipeline reads or writes.  The two pixel arrays
are owned through raw pointers in the source and hold `m_Width * m_Height` entries each. -/
structure Renderer where
  m_Width : ℤ
  m_Height : ℤ
  m_CurrentDisplayMode : DisplayMode
  m_pDepthBufferPixels : List ℚ
  m_pBackBufferPixels : List ℕ
  m_Camera : Camera
deriving DecidableEq

/-- The collaborators whose code is outside `Renderer.cpp`. -/
structure Externals where
  /-- The call `m_pTukTukTexture->Sample(uv)`. -/
  Sample : Vector2 → ColorRGB
  /-- The call `SDL_MapRGB(m_pBackBuffer->format, r, g, b)`. -/
  SDL_MapRGB : ℕ → ℕ → ℕ → ℕ
  /-- The call `Remap(value, min, max)`. -/
  Remap : ℚ → ℚ → ℚ → ℚ
  /-- The call `finalColor.MaxToOne()`, as the colour it leaves in `finalColor`. -/
  MaxToOne : ColorRGB → ColorRGB
  /-- The product `a * b` of two matrices. -/
  MatMul : Matrix → Matrix → Matrix
  /-- The call `m.TransformPoint(p)` on a four-component point. -/
  TransformPoint : Matrix → Vector4 → Vector4
  /-- The call `p.ToVector4()`. -/
  ToVector4 : Vector3 → Vector4

/-! ## Arithmetic helpers -/

/-- The constant `FLT_EPSILON` of `<cfloat>`. -/
def FLT_EPSILON : ℚ := 1 / 8388608

/-- The constant `FLT_MAX` of `<cfloat>`, the value `Render_W3` fills the depth buffer with. -/
def FLT_MAX : ℚ := 340282346638528859811704183484516925440

/-- The C++ conversion `(INT)f` of a float to `int`: truncation toward zero. -/
def toINT (f : ℚ) : ℤ := if 0 ≤ f then ⌊f⌋ else ⌈f⌉

/-- The C++ conversion `static_cast<uint8_t>(f)`: truncation toward zero, reduced to 8 bits. -/
def toUInt8 (f : ℚ) : ℕ := (toINT f % 256).toNat

/-- Modelled from the spec: `Vector2::operator-` is declared in `Vector2.h`, which is not part
of the sources; the componentwise difference. -/
def Vector2.sub (a b : Vector2) : Vector2 := ⟨a.x - b.x, a.y - b.y⟩

/-- Modelled from the spec: `Vector2::operator+` is declared in `Vector2.h`, which is not part
of the sources; the componentwise sum. -/
def Vector2.add (a b : Vector2) : Vector2 := ⟨a.x + b.x, a.y + b.y⟩

/-- Modelled from the spec: `Vector2::operator*(float)` is declared in `Vector2.h`, which is
not part of the sources; the componentwise scaling. -/
def Vector2.scale (a : Vector2) (s : ℚ) : Vector2 := ⟨a.x * s, a.y * s⟩

/-- Modelled from the spec: `Vector2::operator/(float)` is declared in `Vector2.h`, which is
not part of the sources; the componentwise quotient. -/
def Vector2.divide (a : Vector2) (s : ℚ) : Vector2 := ⟨a.x / s, a.y / s⟩

/-- Modelled from the spec: `Vector2::Cross` is declared in `Vector2.h`, which is not part of
the sources; the spec calls it the signed 2D cross product. -/
def Vector2.Cross (a b : Vector2) : ℚ := a.x * b.y - a.y * b.x

/-- A read `buffer[idx]` with an `int` index; `none` outside the buffer. -/
def readAt {α : Type} (buffer : List α) (idx : ℤ) : Option α :=
  if 0 ≤ idx then buffer[idx.toNat]? else none

/-- A write `buffer[idx] = value` with an `int` index; `none` outside the buffer. -/
def writeAt {α : Type} (buffer : List α) (idx : ℤ) (value : α) : Option (List α) :=
  if 0 ≤ idx ∧ idx.toNat < buffer.length then some (buffer.set idx.toNat value) else none

/-- The call `v.clear()` on a `std::vector`, as the value it leaves in `v`. -/
def clear {α : Type} (_v : List α) : List α := []

/-- The loop `for (i = start; <count more rounds>; i += stride) body`: `count` rounds of `body`
on the loop variable, one after the other, stopping at the first undefined access. -/
def forLoop {σ : Type} (body : ℕ → σ → Option σ) (stride : ℕ) : ℕ → ℕ → σ → Option σ
  | 0, _, s => some s
  | count + 1, i, s => (body i s).bind (forLoop body stride count (i + stride))

/-- The loop `for (INT p = lo; <count more rounds>; ++p) body` over an `int` variable. -/
def forPixels {σ : Type} (body : ℤ → σ → Option σ) : ℕ → ℤ → σ → Option σ
  | 0, _, s => some s
  | count + 1, p, s => (body p s).bind (forPixels body count (p + 1))

/-- The loop `for (INT p = lo; p < hi; ++p) body`. -/
def forRange {σ : Type} (lo hi : ℤ) (body : ℤ → σ → Option σ) (s : σ) : Option σ :=
  forPixels body (hi - lo).toNat lo s

/-! ## Frustum test and raster mapping -/

/-- `Renderer::IsInFrustum`. -/
def IsInFrustum (v : Vertex_Out) : Bool :=
  if v.position.x < -1 ∨ v.position.x > 1 then false
  else if v.position.y < -1 ∨ v.position.y > 1 then false
  else if v.position.z < 0 ∨ v.position.z > 1 then false
  else true

/-- `Renderer::NDCToRaster`, as the vertex it leaves behind. -/
def NDCToRaster (R : Renderer) (v : Vertex_Out) : Vertex_Out :=
  let x := (v.position.x + 1) * (1 / 2) * (R.m_Width : ℚ)
  let y := (1 - v.position.y) * (1 / 2) * (R.m_Height : ℚ)
  { v with position := { v.position with x := x, y := y } }

/-! ## Vertex transformation -/

/-- The matrix `mesh.worldMatrix * m_Camera.viewMatrix * m_Camera.projectionMatrix`. -/
def worldViewProjectionMatrix (E : Externals) (R : Renderer) (mesh : Mesh) : Matrix :=
  E.MatMul (E.MatMul mesh.worldMatrix R.m_Camera.viewMatrix) R.m_Camera.projectionMatrix

/-- The clip-space point `worldViewProjectionMatrix.TransformPoint(vertex.position.ToVector4())`
that `VertexTransformationFunction_W3` first stores in `vertexOut.position`. -/
def clipPosition (E : Externals) (R : Renderer) (mesh : Mesh) (vertex : Vertex) : Vector4 :=
  E.TransformPoint (worldViewProjectionMatrix E R mesh) (E.ToVector4 vertex.position)

/-- The body of the vertex loop of `VertexTransformationFunction_W3`: the `Vertex_Out` that is
appended for `vertex`. -/
def transformVertex_W3 (E : Externals) (R : Renderer) (mesh : Mesh) (vertex : Vertex) :
    Vertex_Out :=
  let position := clipPosition E R mesh vertex
  let x := position.x / position.w
  let y := position.y / position.w
  let z := position.z / position.w
  let z := 1 - z
  { position := ⟨x, y, z, position.w⟩
    color := vertex.color
    normal := vertex.normal
    uv := vertex.uv
    tangent := vertex.tangent }

/-- The vertex loop of `VertexTransformationFunction_W3`: appends one `Vertex_Out` per vertex
to `vertices_out`, in order. -/
def transformVertices_W3 (E : Externals) (R : Renderer) (mesh : Mesh) :
    List Vertex → List Vertex_Out → List Vertex_Out
  | [], vertices_out => vertices_out
  | vertex :: rest, vertices_out =>
    transformVertices_W3 E R mesh rest (vertices_out ++ [transformVertex_W3 E R mesh vertex])

/-- The mesh loop of `VertexTransformationFunction_W3`: pushes a copy of each mesh whose
`vertices` are cleared and whose `vertices_out` are rebuilt. -/
def transformMeshes_W3 (E : Externals) (R : Renderer) : List Mesh → List Mesh → List Mesh
  | [], meshes_out => meshes_out
  | mesh :: rest, meshes_out =>
    transformMeshes_W3 E R rest
      (meshes_out ++ [{ mesh with vertices := [], vertices_out := transformVertices_W3 E R mesh mesh.vertices [] }])

/-- `Renderer::VertexTransformationFunction_W3`, as the value it leaves in `meshes_out`. -/
def VertexTransformationFunction_W3 (E : Externals) (R : Renderer) (meshes_in meshes_out : List Mesh) :
    List Mesh :=
  let meshes_out := clear meshes_out
  transformMeshes_W3 E R meshes_in meshes_out

/-- The mesh that one round of the mesh loop of `VertexTransformationFunction_W3` leaves at
the back of `meshes_out`, written without the accumulator. -/
def transformMesh_W3 (E : Externals) (R : Renderer) (mesh : Mesh) : Mesh :=
  { mesh with vertices := [], vertices_out := mesh.vertices.map (transformVertex_W3 E R mesh) }

/-! ## The per-pixel pipeline shared by both topologies -/

/-- The locals that `RenderTriangleList` and `RenderTriangleStrip` read off the three corners
of a triangle before they visit its pixels. -/
structure TriangleSetup where
  v0 : Vector2
  v1 : Vector2
  v2 : Vector2
  depthV0 : ℚ
  depthV1 : ℚ
  depthV2 : ℚ
  wV0 : ℚ
  wV1 : ℚ
  wV2 : ℚ
  uvV0 : Vector2
  uvV1 : Vector2
  uvV2 : Vector2
deriving DecidableEq

/-- The locals `v0 .. uvV2` for the corners `a`, `b`, `c`, in that order. -/
def TriangleSetup.ofCorners (a b c : Vertex_Out) : TriangleSetup :=
  { v0 := ⟨a.position.x, a.position.y⟩
    v1 := ⟨b.position.x, b.position.y⟩
    v2 := ⟨c.position.x, c.position.y⟩
    depthV0 := a.position.z
    depthV1 := b.position.z
    depthV2 := c.position.z
    wV0 := a.position.w
    wV1 := b.position.w
    wV2 := c.position.w
    uvV0 := a.uv
    uvV1 := b.uv
    uvV2 := c.uv }

/-- The local `edge01 = v1 - v0`. -/
def TriangleSetup.edge01 (t : TriangleSetup) : Vector2 := t.v1.sub t.v0

/-- The local `edge12 = v2 - v1`. -/
def TriangleSetup.edge12 (t : TriangleSetup) : Vector2 := t.v2.sub t.v1

/-- The local `edge20 = v0 - v2`. -/
def TriangleSetup.edge20 (t : TriangleSetup) : Vector2 := t.v0.sub t.v2

/-- The local `areaTriangle = Vector2::Cross(v1 - v0, v2 - v0)`. -/
def TriangleSetup.areaTriangle (t : TriangleSetup) : ℚ :=
  Vector2.Cross (t.v1.sub t.v0) (t.v2.sub t.v0)

/-- The local `top` of the bounding box. -/
def TriangleSetup.top (t : TriangleSetup) : ℤ := max (toINT (max t.v0.y t.v1.y)) (toINT t.v2.y)

/-- The local `bottom` of the bounding box. -/
def TriangleSetup.bottom (t : TriangleSetup) : ℤ := min (toINT (min t.v0.y t.v1.y)) (toINT t.v2.y)

/-- The local `left` of the bounding box. -/
def TriangleSetup.left (t : TriangleSetup) : ℤ := min (toINT (min t.v0.x t.v1.x)) (toINT t.v2.x)

/-- The local `right` of the bounding box. -/
def TriangleSetup.right (t : TriangleSetup) : ℤ := max (toINT (max t.v0.x t.v1.x)) (toINT t.v2.x)

/-- The edge value `Vector2::Cross(edge12, directionV1)` that becomes `weightV0`. -/
def TriangleSetup.edgeValueV0 (t : TriangleSetup) (pixel : Vector2) : ℚ :=
  Vector2.Cross t.edge12 (pixel.sub t.v1)

/-- The edge value `Vector2::Cross(edge20, directionV2)` that becomes `weightV1`. -/
def TriangleSetup.edgeValueV1 (t : TriangleSetup) (pixel : Vector2) : ℚ :=
  Vector2.Cross t.edge20 (pixel.sub t.v2)

/-- The edge value `Vector2::Cross(edge01, directionV0)` that becomes `weightV2`. -/
def TriangleSetup.edgeValueV2 (t : TriangleSetup) (pixel : Vector2) : ℚ :=
  Vector2.Cross t.edge01 (pixel.sub t.v0)

/-- The local `interpolatedZDepthWeight`.  The value is the one of the source where the three
vertex depths and the sum under the outer reciprocal are non-zero; at a zero divisor IEEE
arithmetic gives an infinity or NaN and the rational quotient 0 is not the value of the source,
so statements about this value carry the hypotheses that keep every divisor away from zero. -/
def interpolatedZDepthWeight (t : TriangleSetup) (weightV0 weightV1 weightV2 : ℚ) : ℚ :=
  1 / ((1 / t.depthV0) * weightV0 + (1 / t.depthV1) * weightV1 + (1 / t.depthV2) * weightV2)

/-- The local `interpolatedWDepthWeight` of the `FinalColor` branch. -/
def interpolatedWDepthWeight (t : TriangleSetup) (weightV0 weightV1 weightV2 : ℚ) : ℚ :=
  1 / ((1 / t.wV0) * weightV0 + (1 / t.wV1) * weightV1 + (1 / t.wV2) * weightV2)

/-- The local `interpolatedUV` of the `FinalColor` branch. -/
def interpolatedUV (t : TriangleSetup) (weightV0 weightV1 weightV2 : ℚ) : Vector2 :=
  ((((t.uvV0.divide t.wV0).scale weightV0).add ((t.uvV1.divide t.wV1).scale weightV1)).add
    ((t.uvV2.divide t.wV2).scale weightV2)).scale (interpolatedWDepthWeight t weightV0 weightV1 weightV2)

/-- The part of the pixel body that both topologies share, from `weightV0 /= areaTriangle` to
the write into the back buffer.  The three arguments are the edge values that passed the
inside test.  The weights are the ones of the source where `areaTriangle` is non-zero; for a
zero area IEEE arithmetic gives NaN or an infinity, which the rational quotient 0 does not
stand for, so statements about what this function stores carry the hypothesis that the area
and the depth divisors are non-zero. -/
def shadePixel (E : Externals) (t : TriangleSetup) (px py : ℤ) (weightV0 weightV1 weightV2 : ℚ)
    (R : Renderer) : Option Renderer :=
  let weightV0 := weightV0 / t.areaTriangle
  let weightV1 := weightV1 / t.areaTriangle
  let weightV2 := weightV2 / t.areaTriangle
  if weightV0 + weightV1 + weightV2 < 1 - FLT_EPSILON
      ∧ weightV0 + weightV1 + weightV2 > 1 + FLT_EPSILON then some R
  else
    let z := interpolatedZDepthWeight t weightV0 weightV1 weightV2
    if z < 0 ∨ z > 1 then some R
    else
      (readAt R.m_pDepthBufferPixels (px + py * R.m_Width)).bind fun stored =>
      if z > stored then some R
      else
        (writeAt R.m_pDepthBufferPixels (px + py * R.m_Width) z).bind fun depthBuffer =>
        let finalColor : ColorRGB :=
          match R.m_CurrentDisplayMode with
          | DisplayMode.FinalColor => E.Sample (interpolatedUV t weightV0 weightV1 weightV2)
          | DisplayMode.DepthBuffer =>
            -- the entry read back here is the one stored two statements above
            let depthBufferColor := E.Remap z (197 / 200) 1
            ⟨depthBufferColor, depthBufferColor, depthBufferColor⟩
        let finalColor := E.MaxToOne finalColor
        (writeAt R.m_pBackBufferPixels (px + py * R.m_Width)
          (E.SDL_MapRGB (toUInt8 (finalColor.r * 255)) (toUInt8 (finalColor.g * 255))
            (toUInt8 (finalColor.b * 255)))).bind fun backBuffer =>
        some { R with m_pDepthBufferPixels := depthBuffer, m_pBackBufferPixels := backBuffer }

/-- The `switch (m_CurrentDisplayMode)` of the pixel body: the value of `finalColor` for the
divided weights and the depth `z` that was just stored. -/
def shadeColor (E : Externals) (mode : DisplayMode) (t : TriangleSetup)
    (weightV0 weightV1 weightV2 z : ℚ) : ColorRGB :=
  match mode with
  | DisplayMode.FinalColor => E.Sample (interpolatedUV t weightV0 weightV1 weightV2)
  | DisplayMode.DepthBuffer => ⟨E.Remap z (197 / 200) 1, E.Remap z (197 / 200) 1, E.Remap z (197 / 200) 1⟩

/-- The pixel value that the last statement of the pixel body stores for `finalColor`:
`MaxToOne`, then `SDL_MapRGB` of the three channels scaled to 8 bits. -/
def packColor (E : Externals) (finalColor : ColorRGB) : ℕ :=
  E.SDL_MapRGB (toUInt8 ((E.MaxToOne finalColor).r * 255)) (toUInt8 ((E.MaxToOne finalColor).g * 255))
    (toUInt8 ((E.MaxToOne finalColor).b * 255))

/-- The depth-test-and-write step of the pixel body, for a fragment of depth `z` whose
`finalColor` is given: the range test `z < 0 || z > 1`, the test against the stored depth, the
write of `z` into the depth buffer and the write of the packed colour into the back buffer. -/
def depthTestAndWrite (E : Externals) (px py : ℤ) (z : ℚ) (finalColor : ColorRGB) (R : Renderer) :
    Option Renderer :=
  if z < 0 ∨ z > 1 then some R
  else
    (readAt R.m_pDepthBufferPixels (px + py * R.m_Width)).bind fun stored =>
    if z > stored then some R
    else
      (writeAt R.m_pDepthBufferPixels (px + py * R.m_Width) z).bind fun depthBuffer =>
      (writeAt R.m_pBackBufferPixels (px + py * R.m_Width) (packColor E finalColor)).bind
        fun backBuffer =>
      some { R with m_pDepthBufferPixels := depthBuffer, m_pBackBufferPixels := backBuffer }

/-- The renderer after a fragment of depth `z` and colour `finalColor` has been written at the
buffer position `idx`. -/
def writeFragment (E : Externals) (idx : ℕ) (z : ℚ) (finalColor : ColorRGB) (R : Renderer) :
    Renderer :=
  { R with
    m_pDepthBufferPixels := R.m_pDepthBufferPixels.set idx z
    m_pBackBufferPixels := R.m_pBackBufferPixels.set idx (packColor E finalColor) }

/-- No entry of the depth buffer of `R'` lies above the entry of `R` at the same position, and
the two depth buffers have the same size. -/
def DepthNotAbove (R' R : Renderer) : Prop :=
  R'.m_pDepthBufferPixels.length = R.m_pDepthBufferPixels.length ∧
  ∀ (j : ℕ) (a b : ℚ),
    R'.m_pDepthBufferPixels[j]? = some a → R.m_pDepthBufferPixels[j]? = some b → a ≤ b

/-! ## TriangleList -/

/-- The pixel body of `RenderTriangleList`: the three edge tests in the order of the source,
then the shared part. -/
def listPixel (E : Externals) (t : TriangleSetup) (px py : ℤ) (R : Renderer) : Option Renderer :=
  let pixel : Vector2 := ⟨(px : ℚ), (py : ℚ)⟩
  let weightV2 := t.edgeValueV2 pixel
  if weightV2 > 0 then some R
  else
    let weightV0 := t.edgeValueV0 pixel
    if weightV0 > 0 then some R
    else
      let weightV1 := t.edgeValueV1 pixel
      if weightV1 > 0 then some R
      else shadePixel E t px py weightV0 weightV1 weightV2 R

/-- The read `mesh.vertices_out[mesh.indices[k]]`. -/
def vertexOutAt (mesh : Mesh) (k : ℕ) : Option Vertex_Out :=
  mesh.indices[k]?.bind fun idx => mesh.vertices_out[idx]?

/-- The statement `NDCToRaster(mesh.vertices_out[mesh.indices[k]])`, which rewrites the vertex
in place. -/
def rasterizeAt (R : Renderer) (mesh : Mesh) (k : ℕ) : Option Mesh :=
  mesh.indices[k]?.bind fun idx =>
  mesh.vertices_out[idx]?.bind fun v =>
  some { mesh with vertices_out := mesh.vertices_out.set idx (NDCToRaster R v) }

/-- The bounding-box test and the two pixel loops of `RenderTriangleList`. -/
def listRasterize (E : Externals) (t : TriangleSetup) (R : Renderer) : Option Renderer :=
  if t.left ≤ 0 ∨ t.right ≥ R.m_Width - 1 then some R
  else if t.bottom ≤ 0 ∨ t.top ≥ R.m_Height - 1 then some R
  else
    let offSet : ℤ := 1
    forRange (t.left - offSet) (t.right + offSet)
      (fun px => forRange (t.bottom - offSet) (t.top + offSet) (fun py => listPixel E t px py)) R

/-- One round of the triangle loop of `RenderTriangleList`, for the loop variable `i`.  The
state is the renderer together with the mesh, whose `vertices_out` the round may rewrite. -/
def listTriangle (E : Externals) (i : ℕ) (s : Renderer × Mesh) : Option (Renderer × Mesh) :=
  let R := s.1
  let mesh := s.2
  (vertexOutAt mesh i).bind fun a =>
  if !IsInFrustum a then some s
  else
    (vertexOutAt mesh (i + 1)).bind fun b =>
    if !IsInFrustum b then some s
    else
      (vertexOutAt mesh (i + 2)).bind fun c =>
      if !IsInFrustum c then some s
      else
        (rasterizeAt R mesh i).bind fun mesh =>
        (rasterizeAt R mesh (i + 1)).bind fun mesh =>
        (rasterizeAt R mesh (i + 2)).bind fun mesh =>
        (vertexOutAt mesh i).bind fun a =>
        (vertexOutAt mesh (i + 1)).bind fun b =>
        (vertexOutAt mesh (i + 2)).bind fun c =>
        (listRasterize E (TriangleSetup.ofCorners a b c) R).bind fun R =>
        some (R, mesh)

/-- The number of rounds of `for (size_t i{}; i < n; i += 3)`. -/
def listRounds (n : ℕ) : ℕ := (n + 2) / 3

/-- `Renderer::RenderTriangleList`, as the renderer and the mesh it leaves behind. -/
def RenderTriangleList (E : Externals) (R : Renderer) (mesh : Mesh) : Option (Renderer × Mesh) :=
  forLoop (listTriangle E) 3 (listRounds mesh.indices.length) 0 (R, mesh)

/-! ## TriangleStrip -/

/-- The pixel body of `RenderTriangleStrip`: the three edge tests in the order of the source,
then the shared part. -/
def stripPixel (E : Externals) (t : TriangleSetup) (px py : ℤ) (R : Renderer) : Option Renderer :=
  let pixel : Vector2 := ⟨(px : ℚ), (py : ℚ)⟩
  let weightV0 := t.edgeValueV0 pixel
  if weightV0 > 0 then some R
  else
    let weightV1 := t.edgeValueV1 pixel
    if weightV1 > 0 then some R
    else
      let weightV2 := t.edgeValueV2 pixel
      if weightV2 > 0 then some R
      else shadePixel E t px py weightV0 weightV1 weightV2 R

/-- The locals `vIdx0`, `vIdx1`, `vIdx2` of `RenderTriangleStrip` for the loop variable `i`. -/
def stripIndices (mesh : Mesh) (i : ℕ) : Option (ℕ × ℕ × ℕ) :=
  let isOdd : Bool := i % 2 == 1
  mesh.indices[i]?.bind fun vIdx0 =>
  mesh.indices[i + 1 * (!isOdd).toNat + 2 * isOdd.toNat]?.bind fun vIdx1 =>
  mesh.indices[i + 2 * (!isOdd).toNat + 1 * isOdd.toNat]?.bind fun vIdx2 =>
  some (vIdx0, vIdx1, vIdx2)

/-- The three corners that `RenderTriangleStrip` reads for the loop variable `i`: the
vertices `mesh.vertices_out[mesh.indices[vIdx0]]`, `[vIdx1]` and `[vIdx2]`. -/
def stripCorners (mesh : Mesh) (i : ℕ) : Option (Vertex_Out × Vertex_Out × Vertex_Out) :=
  (stripIndices mesh i).bind fun vIdx =>
  (vertexOutAt mesh vIdx.1).bind fun a =>
  (vertexOutAt mesh vIdx.2.1).bind fun b =>
  (vertexOutAt mesh vIdx.2.2).bind fun c =>
  some (a, b, c)

/-- The bounding-box test and the two pixel loops of `RenderTriangleStrip`. -/
def stripRasterize (E : Externals) (t : TriangleSetup) (R : Renderer) : Option Renderer :=
  if t.left ≤ 1 ∨ t.right ≥ R.m_Width - 1 then some R
  else if t.bottom ≤ 1 ∨ t.top ≥ R.m_Height - 1 then some R
  else
    forRange t.left t.right (fun px => forRange t.bottom t.top (fun py => stripPixel E t px py)) R

/-- The bounding-box test of `RenderTriangleList` (the two `if`s before the pixel loops):
`true` when the triangle is skipped. -/
def listBoxRejects (t : TriangleSetup) (R : Renderer) : Bool :=
  if t.left ≤ 0 ∨ t.right ≥ R.m_Width - 1 then true
  else if t.bottom ≤ 0 ∨ t.top ≥ R.m_Height - 1 then true
  else false

/-- The bounding-box test of `RenderTriangleStrip` (the two `if`s before the pixel loops):
`true` when the triangle is skipped. -/
def stripBoxRejects (t : TriangleSetup) (R : Renderer) : Bool :=
  if t.left ≤ 1 ∨ t.right ≥ R.m_Width - 1 then true
  else if t.bottom ≤ 1 ∨ t.top ≥ R.m_Height - 1 then true
  else false

/-- One round of the triangle loop of `RenderTriangleStrip`, for the loop variable `i`. -/
def stripTriangle (E : Externals) (mesh : Mesh) (i : ℕ) (R : Renderer) : Option Renderer :=
  (stripCorners mesh i).bind fun corners =>
  stripRasterize E (TriangleSetup.ofCorners corners.1 corners.2.1 corners.2.2) R

/-- The bound `mesh.vertices_out.size() - 2` of the triangle loop of `RenderTriangleStrip`,
computed in `size_t`. -/
def stripRounds (mesh : Mesh) : ℕ := (mesh.vertices_out.length + 2 ^ 64 - 2) % 2 ^ 64

/-- `Renderer::RenderTriangleStrip`, as the renderer it leaves behind. -/
def RenderTriangleStrip (E : Externals) (R : Renderer) (mesh : Mesh) : Option Renderer :=
  forLoop (stripTriangle E mesh) 1 (stripRounds mesh) 0 R

/-! ## Week 2: the interpolation without perspective correction -/

/-- The local `weightedUV` of `Render_W2_Part3`:
`uvV0 * weightV0 + uvV1 * weightV1 + uvV2 * weightV2`. -/
def weightedUV (t : TriangleSetup) (weightV0 weightV1 weightV2 : ℚ) : Vector2 :=
  ((t.uvV0.scale weightV0).add (t.uvV1.scale weightV1)).add (t.uvV2.scale weightV2)

/-! ## Display mode and frame -/

/-- Modelled from the spec: the enumerator values of `DisplayMode` are declared in
`Renderer.h`, which is not part of the sources; the conversion `(int)mode`, with the
enumerators numbered in the order the spec lists them. -/
def DisplayMode.toInt : DisplayMode → ℤ
  | DisplayMode.FinalColor => 0
  | DisplayMode.DepthBuffer => 1

/-- Modelled from the spec: the enumerator values of `DisplayMode` are declared in
`Renderer.h`, which is not part of the sources; the conversion `DisplayMode{n}` for the two
values `0` and `1` that `ToggleDisplayMode` produces. -/
def DisplayMode.ofInt (n : ℤ) : DisplayMode :=
  if n = 0 then DisplayMode.FinalColor else DisplayMode.DepthBuffer

/-- `Renderer::ToggleDisplayMode`, as the renderer it leaves behind. -/
def ToggleDisplayMode (R : Renderer) : Renderer :=
  { R with m_CurrentDisplayMode := DisplayMode.ofInt ((R.m_CurrentDisplayMode.toInt + 1) % 2) }

/-- The statement `std::fill_n(m_pDepthBufferPixels, m_Width * m_Height, FLT_MAX)`: the first
`m_Width * m_Height` entries are overwritten; `none` when the array is shorter than that. -/
def fillDepthBuffer (R : Renderer) : Option Renderer :=
  if (R.m_Width * R.m_Height).toNat ≤ R.m_pDepthBufferPixels.length then
    some { R with
      m_pDepthBufferPixels :=
        List.replicate (R.m_Width * R.m_Height).toNat FLT_MAX
          ++ R.m_pDepthBufferPixels.drop (R.m_Width * R.m_Height).toNat }
  else none

/-- `Renderer::ClearBackground`: `SDL_FillRect` with a null rectangle stores the colour
`SDL_MapRGB(format, 100, 100, 100)` in every pixel of the back buffer. -/
def ClearBackground (E : Externals) (R : Renderer) : Renderer :=
  { R with m_pBackBufferPixels := R.m_pBackBufferPixels.map fun _ => E.SDL_MapRGB 100 100 100 }

/-- The body of the mesh loop of `Render_W3`: the `switch` on the topology of `m_TukTukMesh`,
applied to the mesh `meshes_NDC[i]`. -/
def renderMesh_W3 (E : Externals) (m_TukTukMesh : Mesh) (meshes_NDC : List Mesh) (i : ℕ)
    (R : Renderer) : Option Renderer :=
  meshes_NDC[i]?.bind fun mesh =>
  match m_TukTukMesh.primitiveTopology with
  | PrimitiveTopology.TriangleList => (RenderTriangleList E R mesh).map fun s => s.1
  | PrimitiveTopology.TriangleStrip => RenderTriangleStrip E R mesh

/-- `Renderer::Render_W3` for the mesh `m_TukTukMesh`, as the renderer it leaves behind.  The
`resize` of `meshes_NDC` creates default meshes which `VertexTransformationFunction_W3`
discards at once; they are left out. -/
def Render_W3 (E : Externals) (m_TukTukMesh : Mesh) (R : Renderer) : Option Renderer :=
  (fillDepthBuffer R).bind fun R =>
  let R := ClearBackground E R
  let meshes_world : List Mesh := [m_TukTukMesh]
  let meshes_NDC : List Mesh := []
  let meshes_NDC := VertexTransformationFunction_W3 E R meshes_world meshes_NDC
  forLoop (renderMesh_W3 E m_TukTukMesh meshes_NDC) 1 meshes_NDC.length 0 R

/-- The renderer has the screen size `width` x `height` and both pixel arrays hold
`width * height` entries, as the constructor allocates them. -/
def BuffersSized (width height : ℤ) (R : Renderer) : Prop :=
  R.m_Width = width ∧ R.m_Height = height ∧
  R.m_pDepthBufferPixels.length = (width * height).toNat ∧
  R.m_pBackBufferPixels.length = (width * height).toNat

/-- Two optional results are related: both are absent, or both are present and related. -/
def OptionRel {σ τ : Type} (rel : σ → τ → Prop) : Option σ → Option τ → Prop
  | some a, some b => rel a b
  | none, none => True
  | some _, none => False
  | none, some _ => False

/-- Two renderers show the same geometry over the initial colour buffer `back0`: they have the
same screen size and the same depth buffer, their colour buffers have the size of `back0`, and
every colour pixel is either untouched in both (it still holds the entry of `back0`) or holds
in both a colour packed by the pixel body. -/
def SameGeometry (E : Externals) (back0 : List ℕ) (R₁ R₂ : Renderer) : Prop :=
  R₁.m_Width = R₂.m_Width ∧ R₁.m_Height = R₂.m_Height ∧
  R₁.m_pDepthBufferPixels = R₂.m_pDepthBufferPixels ∧
  R₁.m_pBackBufferPixels.length = back0.length ∧
  R₂.m_pBackBufferPixels.length = back0.length ∧
  ∀ j : ℕ,
    (R₁.m_pBackBufferPixels[j]? = back0[j]? ∧ R₂.m_pBackBufferPixels[j]? = back0[j]?) ∨
    (∃ c₁ c₂ : ColorRGB, R₁.m_pBackBufferPixels[j]? = some (packColor E c₁) ∧
      R₂.m_pBackBufferPixels[j]? = some (packColor E c₂))

/-- The first part of a round of the triangle loop of `RenderTriangleList`: the frustum test
and the three `NDCToRaster` calls.  The result is absent after an undefined access, `none` inside
when the triangle is dropped by the frustum test, and otherwise the rewritten mesh with the
locals of the triangle. -/
def prepareTriangle (R : Renderer) (mesh : Mesh) (i : ℕ) : Option (Option (Mesh × TriangleSetup)) :=
  (vertexOutAt mesh i).bind fun a =>
  if !IsInFrustum a then some none
  else
    (vertexOutAt mesh (i + 1)).bind fun b =>
    if !IsInFrustum b then some none
    else
      (vertexOutAt mesh (i + 2)).bind fun c =>
      if !IsInFrustum c then some none
      else
        (rasterizeAt R mesh i).bind fun mesh =>
        (rasterizeAt R mesh (i + 1)).bind fun mesh =>
        (rasterizeAt R mesh (i + 2)).bind fun mesh =>
        (vertexOutAt mesh i).bind fun a =>
        (vertexOutAt mesh (i + 1)).bind fun b =>
        (vertexOutAt mesh (i + 2)).bind fun c =>
        some (some (mesh, TriangleSetup.ofCorners a b c))

/-! ## Sample inputs

A concrete choice of the collaborators and a few small scenes, on which the model is run. -/

/-- The dot product of two four-component vectors. -/
def Vector4.dot (a b : Vector4) : ℚ := a.x * b.x + a.y * b.y + a.z * b.z + a.w * b.w

/-- The row vector `p` times the matrix `m`. -/
def Matrix.apply (m : Matrix) (p : Vector4) : Vector4 :=
  ⟨p.dot ⟨m.row0.x, m.row1.x, m.row2.x, m.row3.x⟩, p.dot ⟨m.row0.y, m.row1.y, m.row2.y, m.row3.y⟩,
    p.dot ⟨m.row0.z, m.row1.z, m.row2.z, m.row3.z⟩, p.dot ⟨m.row0.w, m.row1.w, m.row2.w, m.row3.w⟩⟩

/-- The identity matrix. -/
def Matrix.identity : Matrix := ⟨⟨1, 0, 0, 0⟩, ⟨0, 1, 0, 0⟩, ⟨0, 0, 1, 0⟩, ⟨0, 0, 0, 1⟩⟩

/-- A texture whose colour is `(u, v, 0)`, a 24-bit packing, a linear remap, a colour
normalisation by the largest channel, and row-vector matrix algebra. -/
def sampleExternals : Externals :=
  { Sample := fun uv => ⟨uv.x, uv.y, 0⟩
    SDL_MapRGB := fun r g b => r * 65536 + g * 256 + b
    Remap := fun value lo hi => (value - lo) / (hi - lo)
    MaxToOne := fun c =>
      if max c.r (max c.g c.b) > 1 then
        ⟨c.r / max c.r (max c.g c.b), c.g / max c.r (max c.g c.b), c.b / max c.r (max c.g c.b)⟩
      else c
    MatMul := fun a b => ⟨b.apply a.row0, b.apply a.row1, b.apply a.row2, b.apply a.row3⟩
    TransformPoint := fun m p => m.apply p
    ToVector4 := fun p => ⟨p.x, p.y, p.z, 1⟩ }

/-- A camera with identity view and projection. -/
def sampleCamera : Camera := ⟨Matrix.identity, Matrix.identity⟩

/-- An 8 x 8 renderer in `FinalColor` mode whose depth buffer holds 1 and whose back buffer
holds 0 everywhere. -/
def sampleRenderer : Renderer :=
  { m_Width := 8
    m_Height := 8
    m_CurrentDisplayMode := DisplayMode.FinalColor
    m_pDepthBufferPixels := List.replicate 64 1
    m_pBackBufferPixels := List.replicate 64 0
    m_Camera := sampleCamera }

/-- A `Vertex_Out` at `(x, y, z, w)` with uv `(1, 1)`. -/
def sampleVertexOut (x y z w : ℚ) : Vertex_Out :=
  ⟨⟨x, y, z, w⟩, ⟨1, 1, 1⟩, ⟨1, 1⟩, ⟨0, 0, 1⟩, ⟨1, 0, 0⟩⟩

/-- A `Vertex` at `(x, y, z)` with colour `(1, 0, 0)` and uv `(1/2, 1/4)`. -/
def sampleVertex (x y z : ℚ) : Vertex :=
  ⟨⟨x, y, z⟩, ⟨1, 0, 0⟩, ⟨1 / 2, 1 / 4⟩, ⟨0, 0, 1⟩, ⟨1, 0, 0⟩⟩

/-- A mesh with the given indices, topology and `vertices_out`. -/
def sampleMesh (indices : List ℕ) (topology : PrimitiveTopology) (vertices_out : List Vertex_Out) :
    Mesh :=
  ⟨[], indices, topology, vertices_out, Matrix.identity⟩

/-- A triangle list of one triangle whose third vertex lies outside the frustum (`x = 2`). -/
def outsideListMesh : Mesh :=
  sampleMesh [0, 1, 2] PrimitiveTopology.TriangleList
    [sampleVertexOut (-1 / 2) (1 / 2) (1 / 2) 1, sampleVertexOut (-1 / 2) (-1 / 2) (1 / 2) 1,
      sampleVertexOut 2 (-1 / 2) (1 / 2) 1]

/-- A world matrix that doubles the fourth component of a point. -/
def doubleW : Matrix := ⟨⟨1, 0, 0, 0⟩, ⟨0, 1, 0, 0⟩, ⟨0, 0, 1, 0⟩, ⟨0, 0, 0, 2⟩⟩

/-- A mesh of one vertex at `(1, 1/2, 1/2)` under the world matrix `doubleW`. -/
def clipMesh : Mesh :=
  ⟨[sampleVertex 1 (1 / 2) (1 / 2)], [0], PrimitiveTopology.TriangleList, [], doubleW⟩

/-- A triangle strip of one triangle with corners `(2, 2)`, `(2, 6)`, `(6, 2)`, all three
outside the frustum. -/
def outsideStripMesh : Mesh :=
  sampleMesh [0, 1, 2] PrimitiveTopology.TriangleStrip
    [sampleVertexOut 2 2 (1 / 2) 1, sampleVertexOut 2 6 (1 / 2) 1, sampleVertexOut 6 2 (1 / 2) 1]

/-- The four corners of a quad, all inside the frustum; on the 8 x 8 screen they land on
`(2, 2)`, `(2, 6)`, `(6, 6)` and `(6, 2)`. -/
def quadVertices : List Vertex_Out :=
  [sampleVertexOut (-1 / 2) (1 / 2) (1 / 2) 1, sampleVertexOut (-1 / 2) (-1 / 2) (1 / 2) 1,
    sampleVertexOut (1 / 2) (-1 / 2) (1 / 2) 1, sampleVertexOut (1 / 2) (1 / 2) (1 / 2) 1]

/-- The quad as a triangle list of two triangles that share the vertices 0 and 2. -/
def quadMesh : Mesh := sampleMesh [0, 1, 2, 0, 2, 3] PrimitiveTopology.TriangleList quadVertices

/-- A triangle strip of six indices over four vertices. -/
def shortStripMesh : Mesh :=
  sampleMesh [0, 1, 2, 3, 0, 1] PrimitiveTopology.TriangleStrip
    [sampleVertexOut 6 2 (1 / 2) 1, sampleVertexOut 6 6 (1 / 2) 1, sampleVertexOut 2 2 (1 / 2) 1,
      sampleVertexOut 2 6 (1 / 2) 1]

/-- A triangle strip of six indices over six vertices. -/
def sixStripMesh : Mesh :=
  sampleMesh [0, 1, 2, 3, 4, 5] PrimitiveTopology.TriangleStrip
    [sampleVertexOut 6 2 (1 / 2) 1, sampleVertexOut 6 6 (1 / 2) 1, sampleVertexOut 2 2 (1 / 2) 1,
      sampleVertexOut 2 6 (1 / 2) 1, sampleVertexOut 4 2 (1 / 2) 1, sampleVertexOut 4 6 (1 / 2) 1]

/-- A triangle strip of one triangle whose index sequence `[1, 2, 0]` is not the identity. -/
def rotatedStripMesh : Mesh :=
  sampleMesh [1, 2, 0] PrimitiveTopology.TriangleStrip
    [sampleVertexOut 2 2 (1 / 2) 1, sampleVertexOut 2 6 (1 / 2) 1, sampleVertexOut 6 2 (1 / 2) 1]

/-- A triangle in raster space with corners `(3/2, 2)`, `(3/2, 5)`, `(5, 2)`: its bounding box
has `left = 1`. -/
def leftEdgeSetup : TriangleSetup :=
  TriangleSetup.ofCorners (sampleVertexOut (3 / 2) 2 (1 / 2) 1) (sampleVertexOut (3 / 2) 5 (1 / 2) 1)
    (sampleVertexOut 5 2 (1 / 2) 1)

/-- A mesh of the three indices `[0, 1, 2]` over the first three corners of the quad; the tag
is not read by the two render functions. -/
def triangleMesh : Mesh :=
  sampleMesh [0, 1, 2] PrimitiveTopology.TriangleList (quadVertices.take 3)

/-- The first triangle of the quad in raster space on the 8 x 8 screen: corners `(2, 2)`,
`(2, 6)`, `(6, 6)`, depth `1/2`, w `1`. -/
def rasterSetup : TriangleSetup :=
  TriangleSetup.ofCorners (sampleVertexOut 2 2 (1 / 2) 1) (sampleVertexOut 2 6 (1 / 2) 1)
    (sampleVertexOut 6 6 (1 / 2) 1)

/-- A triangle list of one triangle whose corners land on the collinear raster positions
`(2, 2)`, `(4, 4)`, `(6, 6)`. -/
def collinearMesh : Mesh :=
  sampleMesh [0, 1, 2] PrimitiveTopology.TriangleList
    [sampleVertexOut (-1 / 2) (1 / 2) (1 / 2) 1, sampleVertexOut 0 0 (1 / 2) 1,
      sampleVertexOut (1 / 2) (-1 / 2) (1 / 2) 1]

/-- The collinear raster corners `(2, 2)`, `(4, 4)`, `(6, 6)`. -/
def collinearSetup : TriangleSetup :=
  TriangleSetup.ofCorners (sampleVertexOut 2 2 (1 / 2) 1) (sampleVertexOut 4 4 (1 / 2) 1)
    (sampleVertexOut 6 6 (1 / 2) 1)

/-- The collinear raster corners `(5/2, 2)`, `(9/2, 4)`, `(13/2, 6)`, whose line `2y = 2x - 1`
passes through no pixel. -/
def offLatticeSetup : TriangleSetup :=
  TriangleSetup.ofCorners (sampleVertexOut (5 / 2) 2 (1 / 2) 1) (sampleVertexOut (9 / 2) 4 (1 / 2) 1)
    (sampleVertexOut (13 / 2) 6 (1 / 2) 1)

/-- The 8 x 8 renderer with the depth `1/2` already stored at every pixel. -/
def halfDepthRenderer : Renderer :=
  { sampleRenderer with m_pDepthBufferPixels := List.replicate 64 (1 / 2) }

/-- The 8 x 8 renderer as `Render_W3` resets it: `FLT_MAX` in every depth entry and the
background colour `(100, 100, 100)` in every colour pixel. -/
def freshRenderer : Renderer :=
  { sampleRenderer with
    m_pDepthBufferPixels := List.replicate 64 FLT_MAX
    m_pBackBufferPixels := List.replicate 64 (sampleExternals.SDL_MapRGB 100 100 100) }

/-- The raster corners `(2, 2)`, `(2, 6)`, `(6, 6)` with the unequal clip-space `w` values 1, 2,
4 and the UVs `(0, 0)`, `(0, 1)`, `(1, 1)`. -/
def perspectiveSetup : TriangleSetup :=
  { v0 := ⟨2, 2⟩
    v1 := ⟨2, 6⟩
    v2 := ⟨6, 6⟩
    depthV0 := 1 / 2
    depthV1 := 1 / 2
    depthV2 := 1 / 2
    wV0 := 1
    wV1 := 2
    wV2 := 4
    uvV0 := ⟨0, 0⟩
    uvV1 := ⟨0, 1⟩
    uvV2 := ⟨1, 1⟩ }

/-- A mesh with one vertex and no indices, tagged as a triangle list. -/
def emptySceneMesh : Mesh :=
  ⟨[sampleVertex 0 0 5], [], PrimitiveTopology.TriangleList, [], Matrix.identity⟩

/-- The 8 x 8 renderer with stale content: depth `1/4` and colour 12345 at every pixel. -/
def staleRenderer : Renderer :=
  { sampleRenderer with
    m_pDepthBufferPixels := List.replicate 64 (1 / 4)
    m_pBackBufferPixels := List.replicate 64 12345 }

/-- A back-facing triangle in raster space: corners `(2, 2)`, `(6, 6)`, `(2, 6)`, signed
area `16`. -/
def backFacingSetup : TriangleSetup :=
  TriangleSetup.ofCorners (sampleVertexOut 2 2 (1 / 2) 1) (sampleVertexOut 6 6 (1 / 2) 1)
    (sampleVertexOut 2 6 (1 / 2) 1)

/-- The empty triangle strip: no vertices, no indices. -/
def emptyStripMesh : Mesh := sampleMesh [] PrimitiveTopology.TriangleStrip []

/-- A triangle strip with one vertex and the indices `[0, 0, 0]`. -/
def oneVertexStripMesh : Mesh :=
  sampleMesh [0, 0, 0] PrimitiveTopology.TriangleStrip [sampleVertexOut 3 3 (1 / 2) 1]

/-- A triangle strip with two vertices and the indices `[0, 1]`. -/
def twoVertexStripMesh : Mesh :=
  sampleMesh [0, 1] PrimitiveTopology.TriangleStrip
    [sampleVertexOut 3 3 (1 / 2) 1, sampleVertexOut 3 5 (1 / 2) 1]

/-- A triangle list with the single index `[0]` over one vertex inside the frustum. -/
def singleIndexMesh : Mesh :=
  sampleMesh [0] PrimitiveTopology.TriangleList [sampleVertexOut (-1 / 2) (1 / 2) (1 / 2) 1]

/-- A triangle list with the four indices `[0, 1, 2, 3]` over the corners of the quad. -/
def fourIndexMesh : Mesh := sampleMesh [0, 1, 2, 3] PrimitiveTopology.TriangleList quadVertices

/-- A triangle list of one triangle inside the frustum whose first vertex has the depth 0. -/
def zeroDepthMesh : Mesh :=
  sampleMesh [0, 1, 2] PrimitiveTopology.TriangleList
    [sampleVertexOut (-1 / 2) (1 / 2) 0 1, sampleVertexOut (-1 / 2) (-1 / 2) (1 / 2) 1,
      sampleVertexOut (1 / 2) (-1 / 2) (1 / 2) 1]

/-! ## Frustum test -/

/-- C1: `IsInFrustum v` is true exactly when `-1 ≤ x ≤ 1`, `-1 ≤ y ≤ 1` and `0 ≤ z ≤ 1` for
the position of `v`, and replacing `w` and every attribute of `v` leaves the result as it is. -/
theorem IsInFrustum_iff (v : Vertex_Out) (w : ℚ) (color : ColorRGB) (uv : Vector2)
    (normal tangent : Vector3) :
    (IsInFrustum v = true ↔
      (-1 ≤ v.position.x ∧ v.position.x ≤ 1) ∧ (-1 ≤ v.position.y ∧ v.position.y ≤ 1) ∧
        (0 ≤ v.position.z ∧ v.position.z ≤ 1)) ∧
    IsInFrustum ⟨⟨v.position.x, v.position.y, v.position.z, w⟩, color, uv, normal, tangent⟩ =
      IsInFrustum v := by
  refine ⟨?_, rfl⟩
  unfold IsInFrustum
  constructor
  · intro h
    split_ifs at h with hx hy hz
    push_neg at hx hy hz
    exact ⟨hx, hy, hz⟩
  · rintro ⟨⟨hx1, hx2⟩, ⟨hy1, hy2⟩, ⟨hz1, hz2⟩⟩
    have hx : ¬ (v.position.x < -1 ∨ v.position.x > 1) := by
      rintro (h | h) <;> linarith
    have hy : ¬ (v.position.y < -1 ∨ v.position.y > 1) := by
      rintro (h | h) <;> linarith
    have hz : ¬ (v.position.z < 0 ∨ v.position.z > 1) := by
      rintro (h | h) <;> linarith
    simp only [hx, hy, hz, if_false]

/-! ## TriangleList: frustum rejection -/

/-- C2: when the three vertices of the index group at `i` can be read and at least one of them
fails `IsInFrustum`, the round of `RenderTriangleList` for that group leaves the renderer (depth
buffer and colour buffer) and the mesh (all `vertices_out`) exactly as they were. -/
theorem listTriangle_outside_frustum (E : Externals) (R : Renderer) (mesh : Mesh) (i : ℕ)
    (a b c : Vertex_Out) (ha : vertexOutAt mesh i = some a)
    (hb : vertexOutAt mesh (i + 1) = some b) (hc : vertexOutAt mesh (i + 2) = some c)
    (hout : IsInFrustum a = false ∨ IsInFrustum b = false ∨ IsInFrustum c = false) :
    listTriangle E i (R, mesh) = some (R, mesh) := by
  unfold listTriangle
  simp only [ha, Option.some_bind]
  cases hfa : IsInFrustum a with
  | false => simp
  | true =>
    simp only [hb, Option.some_bind]
    cases hfb : IsInFrustum b with
    | false => simp
    | true =>
      simp only [hc, Option.some_bind]
      cases hfc : IsInFrustum c with
      | false => simp
      | true => simp [hfa, hfb, hfc] at hout

/-- The triangle of `outsideListMesh`, whose third vertex has `x = 2`, is dropped whole. -/
theorem listTriangle_outside_frustum_witness :
    IsInFrustum (sampleVertexOut 2 (-1 / 2) (1 / 2) 1) = false ∧
      listTriangle sampleExternals 0 (sampleRenderer, outsideListMesh)
        = some (sampleRenderer, outsideListMesh) :=
  ⟨by decide!,
    listTriangle_outside_frustum sampleExternals sampleRenderer outsideListMesh 0
      (sampleVertexOut (-1 / 2) (1 / 2) (1 / 2) 1) (sampleVertexOut (-1 / 2) (-1 / 2) (1 / 2) 1)
      (sampleVertexOut 2 (-1 / 2) (1 / 2) 1) (by decide!) (by decide!) (by decide!)
      (Or.inr (Or.inr (by decide!)))⟩

/-! ## Raster mapping -/

/-- C10: `NDCToRaster` maps x to `(x + 1) / 2 * width` and y to `(1 - y) / 2 * height`, leaves
z, w and every attribute as they are; for a non-negative width an x in `[-1, 1]` lands in
`[0, width]` with `-1 ↦ 0` and `1 ↦ width`, and for a non-negative height a y in `[-1, 1]`
lands in `[0, height]` with `1 ↦ 0` and `-1 ↦ height`. -/
theorem NDCToRaster_spec (R : Renderer) (v : Vertex_Out) :
    ((NDCToRaster R v).position.x = (v.position.x + 1) / 2 * (R.m_Width : ℚ) ∧
      (NDCToRaster R v).position.y = (1 - v.position.y) / 2 * (R.m_Height : ℚ)) ∧
    ((NDCToRaster R v).position.z = v.position.z ∧ (NDCToRaster R v).position.w = v.position.w ∧
      (NDCToRaster R v).color = v.color ∧ (NDCToRaster R v).uv = v.uv ∧
      (NDCToRaster R v).normal = v.normal ∧ (NDCToRaster R v).tangent = v.tangent) ∧
    (0 ≤ R.m_Width → -1 ≤ v.position.x → v.position.x ≤ 1 →
      0 ≤ (NDCToRaster R v).position.x ∧ (NDCToRaster R v).position.x ≤ (R.m_Width : ℚ)) ∧
    (0 ≤ R.m_Height → -1 ≤ v.position.y → v.position.y ≤ 1 →
      0 ≤ (NDCToRaster R v).position.y ∧ (NDCToRaster R v).position.y ≤ (R.m_Height : ℚ)) ∧
    (v.position.x = -1 → (NDCToRaster R v).position.x = 0) ∧
    (v.position.x = 1 → (NDCToRaster R v).position.x = (R.m_Width : ℚ)) ∧
    (v.position.y = 1 → (NDCToRaster R v).position.y = 0) ∧
    (v.position.y = -1 → (NDCToRaster R v).position.y = (R.m_Height : ℚ)) := by
  have ex : (NDCToRaster R v).position.x = (v.position.x + 1) / 2 * (R.m_Width : ℚ) := by
    simp only [NDCToRaster]; ring
  have ey : (NDCToRaster R v).position.y = (1 - v.position.y) / 2 * (R.m_Height : ℚ) := by
    simp only [NDCToRaster]; ring
  refine ⟨⟨ex, ey⟩, ⟨rfl, rfl, rfl, rfl, rfl, rfl⟩, ?_, ?_, ?_, ?_, ?_, ?_⟩
  · intro hW h1 h2
    have hW' : (0 : ℚ) ≤ (R.m_Width : ℚ) := by exact_mod_cast hW
    rw [ex]
    constructor
    · apply mul_nonneg _ hW'
      linarith
    · nlinarith
  · intro hH h1 h2
    have hH' : (0 : ℚ) ≤ (R.m_Height : ℚ) := by exact_mod_cast hH
    rw [ey]
    constructor
    · apply mul_nonneg _ hH'
      linarith
    · nlinarith
  · intro h; rw [ex, h]; norm_num
  · intro h; rw [ex, h]; norm_num
  · intro h; rw [ey, h]; norm_num
  · intro h; rw [ey, h]; norm_num

/-- On the 8 x 8 renderer the vertex `(-1, 1)` lands on `(0, 0)` and stays inside the screen. -/
theorem NDCToRaster_spec_witness :
    (0 ≤ (NDCToRaster sampleRenderer (sampleVertexOut (-1) 1 (1 / 2) 1)).position.x ∧
      (NDCToRaster sampleRenderer (sampleVertexOut (-1) 1 (1 / 2) 1)).position.x ≤ 8) ∧
    (NDCToRaster sampleRenderer (sampleVertexOut (-1) 1 (1 / 2) 1)).position.x = 0 ∧
    (NDCToRaster sampleRenderer (sampleVertexOut (-1) 1 (1 / 2) 1)).position.y = 0 :=
  have h := NDCToRaster_spec sampleRenderer (sampleVertexOut (-1) 1 (1 / 2) 1)
  ⟨h.2.2.1 (by decide) (by decide!) (by decide!), h.2.2.2.2.1 (by decide!),
    h.2.2.2.2.2.2.1 (by decide!)⟩

/-! ## Vertex transformation -/

/-- The vertex loop appends the images of the vertices, in order, to what it started from. -/
theorem transformVertices_W3_eq (E : Externals) (R : Renderer) (mesh : Mesh)
    (vertices : List Vertex) (vertices_out : List Vertex_Out) :
    transformVertices_W3 E R mesh vertices vertices_out
      = vertices_out ++ vertices.map (transformVertex_W3 E R mesh) := by
  induction vertices generalizing vertices_out with
  | nil => simp [transformVertices_W3]
  | cons vertex rest ih => simp [transformVertices_W3, ih]

/-- The mesh loop appends the images of the meshes, in order, to what it started from. -/
theorem transformMeshes_W3_eq (E : Externals) (R : Renderer) (meshes_in meshes_out : List Mesh) :
    transformMeshes_W3 E R meshes_in meshes_out
      = meshes_out ++ meshes_in.map (transformMesh_W3 E R) := by
  induction meshes_in generalizing meshes_out with
  | nil => simp [transformMeshes_W3]
  | cons mesh rest ih =>
    simp [transformMeshes_W3, ih, transformMesh_W3, transformVertices_W3_eq]

/-- The whole of `VertexTransformationFunction_W3`: the previous content of `meshes_out` is
discarded and every input mesh yields one output mesh. -/
theorem VertexTransformationFunction_W3_eq (E : Externals) (R : Renderer)
    (meshes_in meshes_out : List Mesh) :
    VertexTransformationFunction_W3 E R meshes_in meshes_out
      = meshes_in.map (transformMesh_W3 E R) := by
  simp [VertexTransformationFunction_W3, clear, transformMeshes_W3_eq]

/-- The output vertex at mesh position `mi`, vertex position `vi` is the image of the input
vertex at the same two positions. -/
theorem VertexTransformationFunction_W3_getElem (E : Externals) (R : Renderer)
    (meshes_in meshes_out : List Mesh) (mi vi : ℕ) (mesh : Mesh) (vertex : Vertex)
    (hm : meshes_in[mi]? = some mesh) (hv : mesh.vertices[vi]? = some vertex) :
    ((VertexTransformationFunction_W3 E R meshes_in meshes_out)[mi]?.bind
      fun m => m.vertices_out[vi]?) = some (transformVertex_W3 E R mesh vertex) := by
  simp [VertexTransformationFunction_W3_eq, List.getElem?_map, hm, transformMesh_W3, hv]

/-- C7 (as amended): for the vertex at position `vi` of the mesh at position `mi`, whose
clip-space point is `(cx, cy, cz, cw)` with `cw ≠ 0`, `VertexTransformationFunction_W3` outputs
the position `(cx / cw, cy / cw, 1 - cz / cw, cw)`: x and y are the clip coordinates divided by
`cw`, z is the divided clip coordinate flipped to `1 - cz / cw`, and w is the original `cw`. -/
theorem VertexTransformationFunction_W3_position (E : Externals) (R : Renderer)
    (meshes_in meshes_out : List Mesh) (mi vi : ℕ) (mesh : Mesh) (vertex : Vertex)
    (hm : meshes_in[mi]? = some mesh) (hv : mesh.vertices[vi]? = some vertex)
    (hw : (clipPosition E R mesh vertex).w ≠ 0) :
    ∃ vertexOut : Vertex_Out,
      ((VertexTransformationFunction_W3 E R meshes_in meshes_out)[mi]?.bind
        fun m => m.vertices_out[vi]?) = some vertexOut ∧
      vertexOut.position =
        ⟨(clipPosition E R mesh vertex).x / (clipPosition E R mesh vertex).w,
          (clipPosition E R mesh vertex).y / (clipPosition E R mesh vertex).w,
          1 - (clipPosition E R mesh vertex).z / (clipPosition E R mesh vertex).w,
          (clipPosition E R mesh vertex).w⟩ ∧
      vertexOut.position.x * (clipPosition E R mesh vertex).w = (clipPosition E R mesh vertex).x ∧
      vertexOut.position.y * (clipPosition E R mesh vertex).w = (clipPosition E R mesh vertex).y ∧
      (1 - vertexOut.position.z) * (clipPosition E R mesh vertex).w
        = (clipPosition E R mesh vertex).z := by
  refine ⟨transformVertex_W3 E R mesh vertex,
    VertexTransformationFunction_W3_getElem E R meshes_in meshes_out mi vi mesh vertex hm hv,
    rfl, ?_, ?_, ?_⟩
  · simp only [transformVertex_W3]; field_simp
  · simp only [transformVertex_W3]; field_simp
  · simp only [transformVertex_W3]; field_simp

/-- The vertex of `clipMesh` has the clip-space point `(1, 1/2, 1/2, 2)` and is output at
`(1/2, 1/4, 3/4, 2)`. -/
theorem VertexTransformationFunction_W3_position_witness :
    ∃ vertexOut : Vertex_Out,
      ((VertexTransformationFunction_W3 sampleExternals sampleRenderer [clipMesh]
          [outsideListMesh])[0]?.bind fun m => m.vertices_out[0]?) = some vertexOut ∧
        vertexOut.position = ⟨1 / 2, 1 / 4, 3 / 4, 2⟩ := by
  obtain ⟨vertexOut, h1, h2, -⟩ :=
    VertexTransformationFunction_W3_position sampleExternals sampleRenderer [clipMesh]
      [outsideListMesh] 0 0 clipMesh (sampleVertex 1 (1 / 2) (1 / 2)) rfl rfl (by decide!)
  refine ⟨vertexOut, h1, ?_⟩
  rw [h2]
  decide!

/-- C7 (as stated) fails: the vertex of `clipMesh` has the clip-space point `(1, 1/2, 1/2, 2)`,
so the claim puts its z at `(1/2) / 2`, but the z that is output is `3/4`. -/
theorem VertexTransformationFunction_W3_position_counterexample :
    clipPosition sampleExternals sampleRenderer clipMesh (sampleVertex 1 (1 / 2) (1 / 2))
        = ⟨1, 1 / 2, 1 / 2, 2⟩ ∧
      (VertexTransformationFunction_W3 sampleExternals sampleRenderer [clipMesh] []).map
        (fun m => m.vertices_out.map fun v => v.position) = [[⟨1 / 2, 1 / 4, 3 / 4, 2⟩]] ∧
      (VertexTransformationFunction_W3 sampleExternals sampleRenderer [clipMesh] []).map
        (fun m => m.vertices_out.map fun v => v.position)
          ≠ [[⟨1 / 2, (1 / 2) / 2, (1 / 2) / 2, 2⟩]] := by
  decide!

/-- C8: the `Vertex_Out` that `VertexTransformationFunction_W3` produces for the vertex at
position `vi` of the mesh at position `mi` sits at position `vi` of the `vertices_out` of the
output mesh at position `mi`, and its color, uv, normal and tangent are those of the input
vertex. -/
theorem VertexTransformationFunction_W3_attributes (E : Externals) (R : Renderer)
    (meshes_in meshes_out : List Mesh) (mi vi : ℕ) (mesh : Mesh) (vertex : Vertex)
    (hm : meshes_in[mi]? = some mesh) (hv : mesh.vertices[vi]? = some vertex) :
    ∃ vertexOut : Vertex_Out,
      ((VertexTransformationFunction_W3 E R meshes_in meshes_out)[mi]?.bind
        fun m => m.vertices_out[vi]?) = some vertexOut ∧
      vertexOut.color = vertex.color ∧ vertexOut.uv = vertex.uv ∧
      vertexOut.normal = vertex.normal ∧ vertexOut.tangent = vertex.tangent :=
  ⟨transformVertex_W3 E R mesh vertex,
    VertexTransformationFunction_W3_getElem E R meshes_in meshes_out mi vi mesh vertex hm hv,
    rfl, rfl, rfl, rfl⟩

/-- The vertex of `clipMesh` keeps its colour `(1, 0, 0)` and its uv `(1/2, 1/4)`. -/
theorem VertexTransformationFunction_W3_attributes_witness :
    ∃ vertexOut : Vertex_Out,
      ((VertexTransformationFunction_W3 sampleExternals sampleRenderer [clipMesh]
          [outsideListMesh])[0]?.bind fun m => m.vertices_out[0]?) = some vertexOut ∧
        vertexOut.color = ⟨1, 0, 0⟩ ∧ vertexOut.uv = ⟨1 / 2, 1 / 4⟩ := by
  obtain ⟨vertexOut, h1, h2, h3, -⟩ :=
    VertexTransformationFunction_W3_attributes sampleExternals sampleRenderer [clipMesh]
      [outsideListMesh] 0 0 clipMesh (sampleVertex 1 (1 / 2) (1 / 2)) rfl rfl
  exact ⟨vertexOut, h1, h2, h3⟩

/-- C9 (as amended): whatever `meshes_out` held before the call,
`VertexTransformationFunction_W3` leaves in it exactly as many meshes as `meshes_in` has, and,
mesh by mesh, the `vertices_out` of the output mesh is as long as the `vertices` of the input
mesh at the same position; the `vertices` of every output mesh are cleared. -/
theorem VertexTransformationFunction_W3_lengths (E : Externals) (R : Renderer)
    (meshes_in meshes_out : List Mesh) :
    (VertexTransformationFunction_W3 E R meshes_in meshes_out).length = meshes_in.length ∧
    (VertexTransformationFunction_W3 E R meshes_in meshes_out).map
        (fun m => m.vertices_out.length)
      = meshes_in.map (fun m => m.vertices.length) ∧
    (∀ m ∈ VertexTransformationFunction_W3 E R meshes_in meshes_out, m.vertices = []) := by
  rw [VertexTransformationFunction_W3_eq]
  refine ⟨by simp, by simp [transformMesh_W3], ?_⟩
  intro m hm
  obtain ⟨mesh, -, rfl⟩ := List.mem_map.mp hm
  rfl

/-- C9 (as stated) fails: the mesh that `VertexTransformationFunction_W3` leaves in
`meshes_out` for `clipMesh`, which has one vertex, has one entry in `vertices_out` and none in
its own `vertices`, so the two lengths of that mesh differ. -/
theorem VertexTransformationFunction_W3_lengths_counterexample :
    clipMesh.vertices.length = 1 ∧
    (VertexTransformationFunction_W3 sampleExternals sampleRenderer [clipMesh] []).map
        (fun m => (m.vertices.length, m.vertices_out.length)) = [(0, 1)] ∧
    (VertexTransformationFunction_W3 sampleExternals sampleRenderer [clipMesh] []).map
        (fun m => decide (m.vertices_out.length = m.vertices.length)) = [false] := by
  decide!

/-! ## TriangleStrip: what the code does on the inputs where it leaves the specification -/

/-- C3: `RenderTriangleStrip` has no frustum test.  All three vertices of `outsideStripMesh`
fail `IsInFrustum`, yet the triangle is drawn: at pixel `(3, 3)` the depth buffer goes from 1 to
`1/2` and the colour buffer from 0 to the packed colour `(255, 255, 0)`. -/
theorem RenderTriangleStrip_draws_outside_frustum :
    outsideStripMesh.vertices_out.map IsInFrustum = [false, false, false] ∧
    (sampleRenderer.m_pDepthBufferPixels[3 + 3 * 8]? = some 1 ∧
      sampleRenderer.m_pBackBufferPixels[3 + 3 * 8]? = some 0) ∧
    (RenderTriangleStrip sampleExternals sampleRenderer outsideStripMesh).map
        (fun R => (R.m_pDepthBufferPixels[3 + 3 * 8]?, R.m_pBackBufferPixels[3 + 3 * 8]?))
      = some (some (1 / 2), some 16776960) := by
  decide!

/-- C5: the triangle loop of `RenderTriangleStrip` is bounded by the number of `vertices_out`,
not by the number of indices.  `shortStripMesh` has six indices and four vertices: the loop
makes two rounds instead of four, and the triangle of the third window, which on its own draws
pixel `(3, 3)`, is never reached, so the renderer is left untouched.  With six vertices the same
six indices give four rounds. -/
theorem RenderTriangleStrip_rounds_follow_vertices :
    shortStripMesh.indices.length = 6 ∧ stripRounds shortStripMesh = 2 ∧
    RenderTriangleStrip sampleExternals sampleRenderer shortStripMesh = some sampleRenderer ∧
    (stripTriangle sampleExternals shortStripMesh 2 sampleRenderer).map
        (fun R => R.m_pDepthBufferPixels[3 + 3 * 8]?) = some (some (1 / 2)) ∧
    sixStripMesh.indices.length = 6 ∧ stripRounds sixStripMesh = 4 := by
  decide!

/-- C6: `RenderTriangleStrip` indexes `mesh.indices` twice.  For the index sequence `[1, 2, 0]`
the triangle at strip position 0 should have the corners `vertices_out[1]`, `vertices_out[2]`,
`vertices_out[0]`; the code reads `vertices_out[indices[1]]`, `vertices_out[indices[2]]`,
`vertices_out[indices[0]]`, that is `vertices_out[2]`, `vertices_out[0]`, `vertices_out[1]`. -/
theorem RenderTriangleStrip_corners_indexed_twice :
    (vertexOutAt rotatedStripMesh 0, vertexOutAt rotatedStripMesh 1, vertexOutAt rotatedStripMesh 2)
      = (some (sampleVertexOut 2 6 (1 / 2) 1), some (sampleVertexOut 6 2 (1 / 2) 1),
          some (sampleVertexOut 2 2 (1 / 2) 1)) ∧
    stripCorners rotatedStripMesh 0
      = some (sampleVertexOut 6 2 (1 / 2) 1, sampleVertexOut 2 2 (1 / 2) 1,
          sampleVertexOut 2 6 (1 / 2) 1) := by
  decide!

/-! ## TriangleList: shared vertices -/

/-- C4: `RenderTriangleList` rewrites a vertex in place when it maps it to raster space.  All
four vertices of `quadMesh` pass `IsInFrustum` on entry; the first triangle leaves vertex 0 at
the raster position `(2, 2)`, which fails `IsInFrustum`, so the second triangle `(0, 2, 3)` is
dropped: the renderer ends as if the mesh had the first triangle only, and pixel `(4, 3)`, which
the second triangle on its own draws at depth `1/2`, keeps depth 1. -/
theorem RenderTriangleList_shared_vertex_dropped :
    quadMesh.vertices_out.map IsInFrustum = [true, true, true, true] ∧
    (RenderTriangleList sampleExternals sampleRenderer quadMesh).map
        (fun s => s.2.vertices_out[0]?.map fun v => (v.position, IsInFrustum v))
      = some (some (⟨2, 2, 1 / 2, 1⟩, false)) ∧
    (RenderTriangleList sampleExternals sampleRenderer quadMesh).map (fun s => s.1)
      = (RenderTriangleList sampleExternals sampleRenderer
          { quadMesh with indices := [0, 1, 2] }).map (fun s => s.1) ∧
    (RenderTriangleList sampleExternals sampleRenderer quadMesh).map
        (fun s => s.1.m_pDepthBufferPixels[4 + 3 * 8]?) = some (some 1) ∧
    (RenderTriangleList sampleExternals sampleRenderer
        { quadMesh with indices := [0, 2, 3] }).map
        (fun s => s.1.m_pDepthBufferPixels[4 + 3 * 8]?) = some (some (1 / 2)) := by
  decide!

/-! ## The pixel body: shared facts -/

/-- The three edge values of a pixel add up to the signed area of the triangle. -/
theorem edgeValues_sum (t : TriangleSetup) (pixel : Vector2) :
    t.edgeValueV0 pixel + t.edgeValueV1 pixel + t.edgeValueV2 pixel = t.areaTriangle := by
  simp only [TriangleSetup.edgeValueV0, TriangleSetup.edgeValueV1, TriangleSetup.edgeValueV2,
    TriangleSetup.areaTriangle, TriangleSetup.edge01, TriangleSetup.edge12, TriangleSetup.edge20,
    Vector2.Cross, Vector2.sub]
  ring

/-- The condition of the weight sanity check, `sum < 1 - FLT_EPSILON && sum > 1 + FLT_EPSILON`,
holds for no sum. -/
theorem sanityCheck_false (sum : ℚ) : ¬ (sum < 1 - FLT_EPSILON ∧ sum > 1 + FLT_EPSILON) := by
  rintro ⟨h1, h2⟩
  have h : (0 : ℚ) < FLT_EPSILON := by norm_num [FLT_EPSILON]
  linarith

/-- The shared part of the pixel body is the depth-test-and-write step for the interpolated
depth and the colour of the display mode. -/
theorem shadePixel_eq (E : Externals) (t : TriangleSetup) (px py : ℤ) (e0 e1 e2 : ℚ)
    (R : Renderer) :
    shadePixel E t px py e0 e1 e2 R
      = depthTestAndWrite E px py
          (interpolatedZDepthWeight t (e0 / t.areaTriangle) (e1 / t.areaTriangle)
            (e2 / t.areaTriangle))
          (shadeColor E R.m_CurrentDisplayMode t (e0 / t.areaTriangle) (e1 / t.areaTriangle)
            (e2 / t.areaTriangle)
            (interpolatedZDepthWeight t (e0 / t.areaTriangle) (e1 / t.areaTriangle)
              (e2 / t.areaTriangle))) R := by
  unfold shadePixel depthTestAndWrite
  simp only [sanityCheck_false, if_false]
  cases hmode : R.m_CurrentDisplayMode <;> rfl

/-- The pixel bodies of the two topologies make the three edge tests in different orders and
are the same function. -/
theorem listPixel_eq_stripPixel (E : Externals) (t : TriangleSetup) (px py : ℤ) (R : Renderer) :
    listPixel E t px py R = stripPixel E t px py R := by
  unfold listPixel stripPixel
  by_cases h0 : t.edgeValueV0 ⟨(px : ℚ), (py : ℚ)⟩ > 0 <;>
  by_cases h1 : t.edgeValueV1 ⟨(px : ℚ), (py : ℚ)⟩ > 0 <;>
  by_cases h2 : t.edgeValueV2 ⟨(px : ℚ), (py : ℚ)⟩ > 0 <;>
  simp [h0, h1, h2]

/-- `RenderTriangleList` visits the pixels of a triangle exactly when `listBoxRejects` is
false. -/
theorem listRasterize_eq (E : Externals) (t : TriangleSetup) (R : Renderer) :
    listRasterize E t R
      = if listBoxRejects t R = true then some R
        else forRange (t.left - 1) (t.right + 1)
          (fun px => forRange (t.bottom - 1) (t.top + 1) (fun py => listPixel E t px py)) R := by
  unfold listRasterize listBoxRejects
  split_ifs <;> simp_all

/-- `RenderTriangleStrip` visits the pixels of a triangle exactly when `stripBoxRejects` is
false. -/
theorem stripRasterize_eq (E : Externals) (t : TriangleSetup) (R : Renderer) :
    stripRasterize E t R
      = if stripBoxRejects t R = true then some R
        else forRange t.left t.right
          (fun px => forRange t.bottom t.top (fun py => stripPixel E t px py)) R := by
  unfold stripRasterize stripBoxRejects
  split_ifs <;> simp_all

/-- A pixel loop whose body leaves the state as it is on every value of the loop variable
leaves the state as it is. -/
theorem forPixels_skip {σ : Type} (body : ℤ → σ → Option σ) (s : σ) (count : ℕ) (p : ℤ)
    (h : ∀ k : ℕ, k < count → body (p + k) s = some s) : forPixels body count p s = some s := by
  induction count generalizing p with
  | zero => rfl
  | succ n ih =>
    have h0 : body p s = some s := by simpa using h 0 (Nat.succ_pos n)
    simp only [forPixels, h0, Option.some_bind]
    apply ih
    intro k hk
    have := h (k + 1) (Nat.succ_lt_succ hk)
    rw [← this]
    push_cast
    ring_nf

/-- A range loop whose body leaves the state as it is on every value in the range leaves the
state as it is. -/
theorem forRange_skip {σ : Type} (body : ℤ → σ → Option σ) (s : σ) (lo hi : ℤ)
    (h : ∀ q : ℤ, lo ≤ q → q < hi → body q s = some s) : forRange lo hi body s = some s := by
  unfold forRange
  apply forPixels_skip
  intro k hk
  apply h
  · omega
  · omega

/-! ## Bounding box -/

/-- C11: the two bounding-box tests differ.  The triangle `leftEdgeSetup` has `left = 1`,
`right = 5`, `bottom = 2`, `top = 5` on the 8 x 8 screen: none of `left <= 0`,
`right >= width - 1`, `bottom <= 0`, `top >= height - 1` holds, `RenderTriangleList` accepts it
and draws pixel `(2, 3)`, but `RenderTriangleStrip`, whose test reads `left <= 1`, rejects it and
leaves the renderer untouched. -/
theorem stripBoxRejects_differs :
    (leftEdgeSetup.left, leftEdgeSetup.right, leftEdgeSetup.bottom, leftEdgeSetup.top)
      = (1, 5, 2, 5) ∧
    decide (leftEdgeSetup.left ≤ 0 ∨ leftEdgeSetup.right ≥ sampleRenderer.m_Width - 1 ∨
      leftEdgeSetup.bottom ≤ 0 ∨ leftEdgeSetup.top ≥ sampleRenderer.m_Height - 1) = false ∧
    listBoxRejects leftEdgeSetup sampleRenderer = false ∧
    stripBoxRejects leftEdgeSetup sampleRenderer = true ∧
    (listRasterize sampleExternals leftEdgeSetup sampleRenderer).map
        (fun R => R.m_pDepthBufferPixels[2 + 3 * 8]?) = some (some (1 / 2)) ∧
    stripRasterize sampleExternals leftEdgeSetup sampleRenderer = some sampleRenderer := by
  decide!

/-! ## The two topologies -/

/-- C12 (as amended): the two topology strategies feed the same per-pixel pipeline.  For every
triangle, the pixel body of `RenderTriangleList` and that of `RenderTriangleStrip` (inside
test, weights, depth test, shading, buffer writes) give the same result on every pixel and
renderer state; `RenderTriangleList` runs that body over the bounding box enlarged by one pixel
after its box test, `RenderTriangleStrip` over the bounding box itself after its own. -/
theorem topologies_share_pixel_body (E : Externals) (t : TriangleSetup) (R : Renderer) :
    (∀ (px py : ℤ) (R' : Renderer), listPixel E t px py R' = stripPixel E t px py R') ∧
    listRasterize E t R
      = (if listBoxRejects t R = true then some R
        else forRange (t.left - 1) (t.right + 1)
          (fun px => forRange (t.bottom - 1) (t.top + 1) (fun py => stripPixel E t px py)) R) ∧
    stripRasterize E t R
      = (if stripBoxRejects t R = true then some R
        else forRange t.left t.right
          (fun px => forRange t.bottom t.top (fun py => stripPixel E t px py)) R) := by
  refine ⟨fun px py R' => listPixel_eq_stripPixel E t px py R', ?_, stripRasterize_eq E t R⟩
  rw [listRasterize_eq]
  have h : (fun px => forRange (t.bottom - 1) (t.top + 1) (fun py => listPixel E t px py))
      = (fun px => forRange (t.bottom - 1) (t.top + 1) (fun py => stripPixel E t px py)) := by
    have hb : ∀ px : ℤ, (fun py => listPixel E t px py) = (fun py => stripPixel E t px py) := by
      intro px
      funext py R'
      exact listPixel_eq_stripPixel E t px py R'
    funext px
    rw [hb px]
  rw [h]

/-- C12 (as stated) fails: on `triangleMesh`, three indices `[0, 1, 2]` over three vertices
inside the frustum, `RenderTriangleList` draws the triangle (pixel `(3, 4)` gets depth `1/2`
and the colour `(255, 255, 0)`) while `RenderTriangleStrip`, started from the same renderer and
the same `vertices_out`, leaves both buffers as they were. -/
theorem topologies_differ_counterexample :
    triangleMesh.indices = [0, 1, 2] ∧
    (RenderTriangleList sampleExternals sampleRenderer triangleMesh).map
        (fun s => (s.1.m_pDepthBufferPixels[3 + 4 * 8]?, s.1.m_pBackBufferPixels[3 + 4 * 8]?))
      = some (some (1 / 2), some 16776960) ∧
    RenderTriangleStrip sampleExternals sampleRenderer triangleMesh = some sampleRenderer ∧
    (sampleRenderer.m_pDepthBufferPixels[3 + 4 * 8]?, sampleRenderer.m_pBackBufferPixels[3 + 4 * 8]?)
      = (some 1, some 0) := by
  decide!

/-! ## Degenerate triangles -/

/-- For a triangle of zero area, a pixel with a non-zero edge value has a positive one. -/
theorem listPixel_zero_area_skip (E : Externals) (t : TriangleSetup) (px py : ℤ) (R : Renderer)
    (harea : t.areaTriangle = 0)
    (hne : ¬ (t.edgeValueV0 ⟨(px : ℚ), (py : ℚ)⟩ = 0 ∧ t.edgeValueV1 ⟨(px : ℚ), (py : ℚ)⟩ = 0 ∧
      t.edgeValueV2 ⟨(px : ℚ), (py : ℚ)⟩ = 0)) :
    listPixel E t px py R = some R := by
  have hsum := edgeValues_sum t ⟨(px : ℚ), (py : ℚ)⟩
  rw [harea] at hsum
  unfold listPixel
  by_cases h2 : t.edgeValueV2 ⟨(px : ℚ), (py : ℚ)⟩ > 0
  · simp [h2]
  by_cases h0 : t.edgeValueV0 ⟨(px : ℚ), (py : ℚ)⟩ > 0
  · simp [h2, h0]
  by_cases h1 : t.edgeValueV1 ⟨(px : ℚ), (py : ℚ)⟩ > 0
  · simp [h2, h0, h1]
  exfalso
  apply hne
  push_neg at h0 h1 h2
  refine ⟨?_, ?_, ?_⟩ <;> linarith

/-- C13 (as amended): `RenderTriangleList` has no guard on the area.  For a triangle whose
three raster vertices are collinear, every pixel at which one of the three edge values is
non-zero is skipped before the division and leaves both buffers as they are; so a collinear
triangle none of whose visited pixels has three zero edge values writes nothing.  A pixel whose
three edge values are all zero passes the inside test and runs the shared part of the pixel
body, with its divisions by the area. -/
theorem listRasterize_collinear (E : Externals) (t : TriangleSetup)
    (harea : t.areaTriangle = 0) :
    (∀ (px py : ℤ) (R : Renderer),
      ¬ (t.edgeValueV0 ⟨(px : ℚ), (py : ℚ)⟩ = 0 ∧ t.edgeValueV1 ⟨(px : ℚ), (py : ℚ)⟩ = 0 ∧
        t.edgeValueV2 ⟨(px : ℚ), (py : ℚ)⟩ = 0) →
      listPixel E t px py R = some R) ∧
    (∀ R : Renderer,
      (∀ px py : ℤ, t.left - 1 ≤ px → px < t.right + 1 → t.bottom - 1 ≤ py → py < t.top + 1 →
        ¬ (t.edgeValueV0 ⟨(px : ℚ), (py : ℚ)⟩ = 0 ∧ t.edgeValueV1 ⟨(px : ℚ), (py : ℚ)⟩ = 0 ∧
          t.edgeValueV2 ⟨(px : ℚ), (py : ℚ)⟩ = 0)) →
      listRasterize E t R = some R) ∧
    (∀ (px py : ℤ) (R : Renderer),
      (t.edgeValueV0 ⟨(px : ℚ), (py : ℚ)⟩ = 0 ∧ t.edgeValueV1 ⟨(px : ℚ), (py : ℚ)⟩ = 0 ∧
        t.edgeValueV2 ⟨(px : ℚ), (py : ℚ)⟩ = 0) →
      listPixel E t px py R = shadePixel E t px py 0 0 0 R) := by
  refine ⟨fun px py R hne => listPixel_zero_area_skip E t px py R harea hne, ?_, ?_⟩
  · intro R hbox
    rw [listRasterize_eq]
    split_ifs with hrej
    · rfl
    · apply forRange_skip
      intro px hx1 hx2
      apply forRange_skip
      intro py hy1 hy2
      exact listPixel_zero_area_skip E t px py R harea (hbox px py hx1 hx2 hy1 hy2)
  · rintro px py R ⟨h0, h1, h2⟩
    unfold listPixel
    simp [h0, h1, h2]

/-- The collinear triangle `offLatticeSetup` has zero area and its line meets no pixel: the
triangle leaves the renderer as it is. -/
theorem listRasterize_collinear_witness :
    offLatticeSetup.areaTriangle = 0 ∧
      listRasterize sampleExternals offLatticeSetup sampleRenderer = some sampleRenderer :=
  ⟨by decide!,
    (listRasterize_collinear sampleExternals offLatticeSetup (by decide!)).2.1 sampleRenderer
      (by
        rintro px py - - - - ⟨-, -, h2⟩
        simp only [TriangleSetup.edgeValueV2, TriangleSetup.edge01, offLatticeSetup,
          TriangleSetup.ofCorners, sampleVertexOut, Vector2.Cross, Vector2.sub] at h2
        have h3 : (2 * py - 2 * px + 1 : ℚ) = 0 := by linarith
        have h4 : (2 * py - 2 * px + 1 : ℤ) = 0 := by exact_mod_cast h3
        omega)⟩

/-- C13 (as stated) fails: the corners of `collinearMesh` land on `(2, 2)`, `(4, 4)`, `(6, 6)`,
the area is zero, and at pixel `(3, 3)` all three edge values are zero, so none of the three
edge tests skips the pixel, the weights are divided by the zero area, and the depth entry of
the pixel, which held 1, is overwritten. -/
theorem listRasterize_collinear_counterexample :
    collinearSetup.areaTriangle = 0 ∧
    (collinearSetup.edgeValueV0 ⟨3, 3⟩, collinearSetup.edgeValueV1 ⟨3, 3⟩,
      collinearSetup.edgeValueV2 ⟨3, 3⟩) = (0, 0, 0) ∧
    (RenderTriangleList sampleExternals sampleRenderer collinearMesh).map
        (fun s => (vertexOutAt s.2 0, vertexOutAt s.2 1, vertexOutAt s.2 2))
      = some (some (sampleVertexOut 2 2 (1 / 2) 1), some (sampleVertexOut 4 4 (1 / 2) 1),
          some (sampleVertexOut 6 6 (1 / 2) 1)) ∧
    sampleRenderer.m_pDepthBufferPixels[3 + 3 * 8]? = some 1 ∧
    (RenderTriangleList sampleExternals sampleRenderer collinearMesh).isSome = true ∧
    (RenderTriangleList sampleExternals sampleRenderer collinearMesh).map
        (fun s => s.1.m_pDepthBufferPixels[3 + 3 * 8]?) ≠ some (some 1) := by
  decide!

/-! ## The depth test -/

/-- Storing at a position the value that is already there leaves the list as it is. -/
theorem set_stored_eq {α : Type} (l : List α) (i : ℕ) (a : α) (h : l[i]? = some a) :
    l.set i a = l := by
  apply List.ext_getElem?
  intro j
  rw [List.getElem?_set]
  by_cases hij : i = j
  · subst hij
    have hlt : i < l.length := (List.getElem?_eq_some.mp h).1
    simp [hlt, h]
  · simp [hij]

/-- A covered pixel, one whose three edge values are at most zero, passes the inside test of
`RenderTriangleList` and runs the shared part of the pixel body on its edge values. -/
theorem listPixel_covered (E : Externals) (t : TriangleSetup) (px py : ℤ) (R : Renderer)
    (h0 : t.edgeValueV0 ⟨(px : ℚ), (py : ℚ)⟩ ≤ 0) (h1 : t.edgeValueV1 ⟨(px : ℚ), (py : ℚ)⟩ ≤ 0)
    (h2 : t.edgeValueV2 ⟨(px : ℚ), (py : ℚ)⟩ ≤ 0) :
    listPixel E t px py R
      = shadePixel E t px py (t.edgeValueV0 ⟨(px : ℚ), (py : ℚ)⟩)
          (t.edgeValueV1 ⟨(px : ℚ), (py : ℚ)⟩) (t.edgeValueV2 ⟨(px : ℚ), (py : ℚ)⟩) R := by
  unfold listPixel
  simp [not_lt.mpr h0, not_lt.mpr h1, not_lt.mpr h2]

/-- A fragment that lies behind the stored depth leaves the renderer as it is. -/
theorem depthTestAndWrite_behind (E : Externals) (px py : ℤ) (z stored : ℚ) (c : ColorRGB)
    (R : Renderer) (hidx : 0 ≤ px + py * R.m_Width)
    (hstored : R.m_pDepthBufferPixels[(px + py * R.m_Width).toNat]? = some stored)
    (hz : stored < z) : depthTestAndWrite E px py z c R = some R := by
  unfold depthTestAndWrite
  split_ifs with h
  · rfl
  · simp [readAt, hidx, hstored, hz]

/-- A fragment inside the depth range that does not lie behind the stored depth is written to
both buffers. -/
theorem depthTestAndWrite_front (E : Externals) (px py : ℤ) (z stored : ℚ) (c : ColorRGB)
    (R : Renderer) (hidx : 0 ≤ px + py * R.m_Width)
    (hstored : R.m_pDepthBufferPixels[(px + py * R.m_Width).toNat]? = some stored)
    (hback : (px + py * R.m_Width).toNat < R.m_pBackBufferPixels.length)
    (hz0 : 0 ≤ z) (hz1 : z ≤ 1) (hz : z ≤ stored) :
    depthTestAndWrite E px py z c R = some (writeFragment E (px + py * R.m_Width).toNat z c R) := by
  have hlt : (px + py * R.m_Width).toNat < R.m_pDepthBufferPixels.length :=
    (List.getElem?_eq_some.mp hstored).1
  unfold depthTestAndWrite
  have hr : ¬ (z < 0 ∨ z > 1) := by
    rintro (h | h) <;> linarith
  simp [hr, readAt, writeAt, hidx, hstored, not_lt.mpr hz, hlt, hback, writeFragment]

/-- A fragment outside the depth range leaves the renderer as it is. -/
theorem depthTestAndWrite_outside (E : Externals) (px py : ℤ) (z : ℚ) (c : ColorRGB)
    (R : Renderer) (hz : z < 0 ∨ z > 1) : depthTestAndWrite E px py z c R = some R := by
  unfold depthTestAndWrite
  simp [hz]

/-- C14 (as amended): the depth test lets ties through.  In `RenderTriangleList` and
`RenderTriangleStrip`, a covered pixel whose interpolated depth `z` lies in `[0, 1]` is rejected,
with no buffer written, only when `z` is strictly greater than the stored depth; when `z` is at
most the stored depth, `z` is stored and the colour pixel is written.  On a tie the depth buffer
keeps its content and the colour pixel is overwritten; the stored depth changes value only when
`z` is strictly smaller. -/
theorem depth_test_accepts_ties (E : Externals) (t : TriangleSetup) (px py : ℤ) (R : Renderer)
    (z stored : ℚ) (c : ColorRGB)
    (h0 : t.edgeValueV0 ⟨(px : ℚ), (py : ℚ)⟩ ≤ 0) (h1 : t.edgeValueV1 ⟨(px : ℚ), (py : ℚ)⟩ ≤ 0)
    (h2 : t.edgeValueV2 ⟨(px : ℚ), (py : ℚ)⟩ ≤ 0)
    (hz : z = interpolatedZDepthWeight t (t.edgeValueV0 ⟨(px : ℚ), (py : ℚ)⟩ / t.areaTriangle)
      (t.edgeValueV1 ⟨(px : ℚ), (py : ℚ)⟩ / t.areaTriangle)
      (t.edgeValueV2 ⟨(px : ℚ), (py : ℚ)⟩ / t.areaTriangle))
    (hc : c = shadeColor E R.m_CurrentDisplayMode t
      (t.edgeValueV0 ⟨(px : ℚ), (py : ℚ)⟩ / t.areaTriangle)
      (t.edgeValueV1 ⟨(px : ℚ), (py : ℚ)⟩ / t.areaTriangle)
      (t.edgeValueV2 ⟨(px : ℚ), (py : ℚ)⟩ / t.areaTriangle) z)
    (hz0 : 0 ≤ z) (hz1 : z ≤ 1) (hidx : 0 ≤ px + py * R.m_Width)
    (hstored : R.m_pDepthBufferPixels[(px + py * R.m_Width).toNat]? = some stored)
    (hback : (px + py * R.m_Width).toNat < R.m_pBackBufferPixels.length) :
    (stored < z → listPixel E t px py R = some R ∧ stripPixel E t px py R = some R) ∧
    (z ≤ stored →
      listPixel E t px py R = some (writeFragment E (px + py * R.m_Width).toNat z c R) ∧
      stripPixel E t px py R = some (writeFragment E (px + py * R.m_Width).toNat z c R)) ∧
    (z = stored →
      (writeFragment E (px + py * R.m_Width).toNat z c R).m_pDepthBufferPixels
        = R.m_pDepthBufferPixels ∧
      (writeFragment E (px + py * R.m_Width).toNat z c R).m_pBackBufferPixels[
        (px + py * R.m_Width).toNat]? = some (packColor E c)) ∧
    (z < stored →
      (writeFragment E (px + py * R.m_Width).toNat z c R).m_pDepthBufferPixels[
        (px + py * R.m_Width).toNat]? = some z) := by
  have hlist := listPixel_covered E t px py R h0 h1 h2
  rw [shadePixel_eq, ← hz, ← hc] at hlist
  have hstrip : stripPixel E t px py R = listPixel E t px py R :=
    (listPixel_eq_stripPixel E t px py R).symm
  have hlt : (px + py * R.m_Width).toNat < R.m_pDepthBufferPixels.length :=
    (List.getElem?_eq_some.mp hstored).1
  refine ⟨?_, ?_, ?_, ?_⟩
  · intro h
    rw [hstrip, hlist, depthTestAndWrite_behind E px py z stored c R hidx hstored h]
    exact ⟨rfl, rfl⟩
  · intro h
    rw [hstrip, hlist, depthTestAndWrite_front E px py z stored c R hidx hstored hback hz0 hz1 h]
    exact ⟨rfl, rfl⟩
  · intro h
    subst h
    constructor
    · simp only [writeFragment]
      exact set_stored_eq _ _ _ hstored
    · simp only [writeFragment]
      exact List.getElem?_set_self hback
  · intro _
    simp only [writeFragment]
    exact List.getElem?_set_self hlt

/-- On `halfDepthRenderer` the pixel `(3, 4)` of `rasterSetup` has the interpolated depth `1/2`,
equal to the stored one, and is written with the colour `(1, 1, 0)`. -/
theorem depth_test_accepts_ties_witness :
    listPixel sampleExternals rasterSetup 3 4 halfDepthRenderer
      = some (writeFragment sampleExternals 35 (1 / 2) ⟨1, 1, 0⟩ halfDepthRenderer) :=
  ((depth_test_accepts_ties sampleExternals rasterSetup 3 4 halfDepthRenderer (1 / 2) (1 / 2)
    ⟨1, 1, 0⟩ (by decide!) (by decide!) (by decide!) (by decide!) (by decide!) (by decide!)
    (by decide!) (by decide!) (by decide!) (by decide!)).2.1 (le_refl _)).1

/-- C14 (as stated) fails: on `halfDepthRenderer` every depth entry is `1/2` and every colour
pixel is 0.  The triangle of `triangleMesh` lands on the corners of `rasterSetup` and has the
interpolated depth `1/2` at pixel `(3, 4)`, equal to the stored depth, yet the colour pixel is
overwritten with the packed colour `(255, 255, 0)`. -/
theorem depth_test_ties_counterexample :
    (RenderTriangleList sampleExternals halfDepthRenderer triangleMesh).map
        (fun s => TriangleSetup.ofCorners <$> vertexOutAt s.2 0 <*> vertexOutAt s.2 1
          <*> vertexOutAt s.2 2) = some (some rasterSetup) ∧
    interpolatedZDepthWeight rasterSetup
        (rasterSetup.edgeValueV0 ⟨3, 4⟩ / rasterSetup.areaTriangle)
        (rasterSetup.edgeValueV1 ⟨3, 4⟩ / rasterSetup.areaTriangle)
        (rasterSetup.edgeValueV2 ⟨3, 4⟩ / rasterSetup.areaTriangle) = 1 / 2 ∧
    (halfDepthRenderer.m_pDepthBufferPixels[3 + 4 * 8]?,
      halfDepthRenderer.m_pBackBufferPixels[3 + 4 * 8]?) = (some (1 / 2), some 0) ∧
    (RenderTriangleList sampleExternals halfDepthRenderer triangleMesh).map
        (fun s => (s.1.m_pDepthBufferPixels[3 + 4 * 8]?, s.1.m_pBackBufferPixels[3 + 4 * 8]?))
      = some (some (1 / 2), some 16776960) := by
  decide!

/-! ## The depth buffer only goes down -/

/-- Every renderer is not above itself. -/
theorem DepthNotAbove.refl (R : Renderer) : DepthNotAbove R R := by
  refine ⟨rfl, ?_⟩
  intro j a b ha hb
  rw [ha] at hb
  cases hb
  exact le_refl a

/-- `DepthNotAbove` is transitive. -/
theorem DepthNotAbove.trans {R₁ R₂ R₃ : Renderer} (h12 : DepthNotAbove R₁ R₂)
    (h23 : DepthNotAbove R₂ R₃) : DepthNotAbove R₁ R₃ := by
  refine ⟨h12.1.trans h23.1, ?_⟩
  intro j a c ha hc
  have hj : j < R₁.m_pDepthBufferPixels.length := (List.getElem?_eq_some.mp ha).1
  have hj2 : j < R₂.m_pDepthBufferPixels.length := by rw [← h12.1]; exact hj
  exact le_trans (h12.2 j a _ ha (List.getElem?_eq_getElem hj2))
    (h23.2 j _ c (List.getElem?_eq_getElem hj2) hc)

/-- The depth-test-and-write step never raises a depth entry. -/
theorem depthTestAndWrite_notAbove (E : Externals) (px py : ℤ) (z : ℚ) (c : ColorRGB)
    (R R' : Renderer) (h : depthTestAndWrite E px py z c R = some R') : DepthNotAbove R' R := by
  unfold depthTestAndWrite at h
  split_ifs at h with hr
  · cases h
    exact DepthNotAbove.refl R
  · cases hread : readAt R.m_pDepthBufferPixels (px + py * R.m_Width) with
    | none => simp [hread] at h
    | some stored =>
      simp only [hread, Option.some_bind] at h
      split_ifs at h with hz
      · cases h
        exact DepthNotAbove.refl R
      · cases hwd : writeAt R.m_pDepthBufferPixels (px + py * R.m_Width) z with
        | none => simp [hwd] at h
        | some depthBuffer =>
          cases hwb : writeAt R.m_pBackBufferPixels (px + py * R.m_Width) (packColor E c) with
          | none => simp [hwd, hwb] at h
          | some backBuffer =>
            simp only [hwd, hwb, Option.some_bind, Option.some.injEq] at h
            subst h
            unfold writeAt at hwd
            split_ifs at hwd with hin
            cases hwd
            unfold readAt at hread
            simp only [hin.1, if_true] at hread
            refine ⟨by simp, ?_⟩
            intro j a b ha hb
            simp only at ha
            rw [List.getElem?_set] at ha
            by_cases hij : (px + py * R.m_Width).toNat = j
            · subst hij
              simp only [if_true, hin.2] at ha
              cases ha
              rw [hread] at hb
              cases hb
              exact not_lt.mp hz
            · simp only [hij, if_false] at ha
              rw [ha] at hb
              cases hb
              exact le_refl a

/-- A pixel loop keeps every reflexive and transitive relation that each round keeps. -/
theorem forPixels_rel {σ : Type} (rel : σ → σ → Prop) (hrefl : ∀ s, rel s s)
    (htrans : ∀ a b c, rel a b → rel b c → rel a c) (body : ℤ → σ → Option σ)
    (hbody : ∀ p s s', body p s = some s' → rel s' s) (count : ℕ) (p : ℤ) (s s' : σ)
    (h : forPixels body count p s = some s') : rel s' s := by
  induction count generalizing p s with
  | zero =>
    simp only [forPixels, Option.some.injEq] at h
    subst h
    exact hrefl s
  | succ n ih =>
    simp only [forPixels] at h
    cases hb : body p s with
    | none => simp [hb] at h
    | some s₁ =>
      simp only [hb, Option.some_bind] at h
      exact htrans _ _ _ (ih (p + 1) s₁ h) (hbody p s s₁ hb)

/-- A triangle loop keeps every reflexive and transitive relation that each round keeps. -/
theorem forLoop_rel {σ : Type} (rel : σ → σ → Prop) (hrefl : ∀ s, rel s s)
    (htrans : ∀ a b c, rel a b → rel b c → rel a c) (body : ℕ → σ → Option σ)
    (hbody : ∀ i s s', body i s = some s' → rel s' s) (stride count i : ℕ) (s s' : σ)
    (h : forLoop body stride count i s = some s') : rel s' s := by
  induction count generalizing i s with
  | zero =>
    simp only [forLoop, Option.some.injEq] at h
    subst h
    exact hrefl s
  | succ n ih =>
    simp only [forLoop] at h
    cases hb : body i s with
    | none => simp [hb] at h
    | some s₁ =>
      simp only [hb, Option.some_bind] at h
      exact htrans _ _ _ (ih (i + stride) s₁ h) (hbody i s s₁ hb)

/-- A pixel with a positive edge value is skipped by the inside test of
`RenderTriangleList`. -/
theorem listPixel_outside (E : Externals) (t : TriangleSetup) (px py : ℤ) (R : Renderer)
    (h : t.edgeValueV0 ⟨(px : ℚ), (py : ℚ)⟩ > 0 ∨ t.edgeValueV1 ⟨(px : ℚ), (py : ℚ)⟩ > 0 ∨
      t.edgeValueV2 ⟨(px : ℚ), (py : ℚ)⟩ > 0) :
    listPixel E t px py R = some R := by
  unfold listPixel
  by_cases h2 : t.edgeValueV2 ⟨(px : ℚ), (py : ℚ)⟩ > 0
  · simp [h2]
  by_cases h0 : t.edgeValueV0 ⟨(px : ℚ), (py : ℚ)⟩ > 0
  · simp [h2, h0]
  by_cases h1 : t.edgeValueV1 ⟨(px : ℚ), (py : ℚ)⟩ > 0
  · simp [h2, h0, h1]
  rcases h with h | h | h <;> contradiction

/-- The pixel body of `RenderTriangleList` never raises a depth entry. -/
theorem listPixel_notAbove (E : Externals) (t : TriangleSetup) (px py : ℤ) (R R' : Renderer)
    (h : listPixel E t px py R = some R') : DepthNotAbove R' R := by
  by_cases hout : t.edgeValueV0 ⟨(px : ℚ), (py : ℚ)⟩ > 0 ∨
      t.edgeValueV1 ⟨(px : ℚ), (py : ℚ)⟩ > 0 ∨ t.edgeValueV2 ⟨(px : ℚ), (py : ℚ)⟩ > 0
  · rw [listPixel_outside E t px py R hout] at h
    cases h
    exact DepthNotAbove.refl R
  · push_neg at hout
    rw [listPixel_covered E t px py R hout.1 hout.2.1 hout.2.2, shadePixel_eq] at h
    exact depthTestAndWrite_notAbove E px py _ _ R R' h

/-- The pixel loops of `RenderTriangleList` never raise a depth entry. -/
theorem listRasterize_notAbove (E : Externals) (t : TriangleSetup) (R R' : Renderer)
    (h : listRasterize E t R = some R') : DepthNotAbove R' R := by
  rw [listRasterize_eq] at h
  split_ifs at h
  · cases h; exact DepthNotAbove.refl R
  · unfold forRange at h
    refine forPixels_rel DepthNotAbove DepthNotAbove.refl
      (fun a b c hab hbc => DepthNotAbove.trans hab hbc) _ ?_ _ _ R R' h
    intro px R₁ R₂ hpx
    unfold forRange at hpx
    refine forPixels_rel DepthNotAbove DepthNotAbove.refl
      (fun a b c hab hbc => DepthNotAbove.trans hab hbc) _ ?_ _ _ R₁ R₂ hpx
    intro py R₃ R₄ hpy
    exact listPixel_notAbove E t px py R₃ R₄ hpy

/-- One round of the triangle loop of `RenderTriangleList` never raises a depth entry. -/
theorem listTriangle_notAbove (E : Externals) (i : ℕ) (s s' : Renderer × Mesh)
    (h : listTriangle E i s = some s') : DepthNotAbove s'.1 s.1 := by
  unfold listTriangle at h
  cases ha : vertexOutAt s.2 i with
  | none => simp [ha] at h
  | some a =>
    simp only [ha, Option.some_bind] at h
    cases hfa : IsInFrustum a with
    | false =>
      simp only [hfa, Bool.not_false, if_true, Option.some.injEq] at h
      subst h
      exact DepthNotAbove.refl _
    | true =>
      simp only [hfa, Bool.not_true, Bool.false_eq_true, if_false] at h
      cases hb : vertexOutAt s.2 (i + 1) with
      | none => simp [hb] at h
      | some b =>
        simp only [hb, Option.some_bind] at h
        cases hfb : IsInFrustum b with
        | false =>
          simp only [hfb, Bool.not_false, if_true, Option.some.injEq] at h
          subst h
          exact DepthNotAbove.refl _
        | true =>
          simp only [hfb, Bool.not_true, Bool.false_eq_true, if_false] at h
          cases hc : vertexOutAt s.2 (i + 2) with
          | none => simp [hc] at h
          | some c =>
            simp only [hc, Option.some_bind] at h
            cases hfc : IsInFrustum c with
            | false =>
              simp only [hfc, Bool.not_false, if_true, Option.some.injEq] at h
              subst h
              exact DepthNotAbove.refl _
            | true =>
              simp only [hfc, Bool.not_true, Bool.false_eq_true, if_false,
                Option.bind_eq_some] at h
              obtain ⟨m1, -, m2, -, m3, -, a', -, b', -, c', -, R', hR, h⟩ := h
              cases h
              exact listRasterize_notAbove E _ _ _ hR

/-! ## Order of submission -/

/-- C16: the depth test is order-independent.  At a pixel whose depth entry holds `FLT_MAX`, as
after the reset of `Render_W3`, the depth-test-and-write step of the pixel body (see
`shadePixel_eq`) applied to two fragments of depths `d1 < d2`, both in `[0, 1]`, with colours
`c1` and `c2`, leaves the same renderer in the order `d1, d2` and in the order `d2, d1`: the one
in which the pixel holds the depth `d1` and the packed colour of `c1`. -/
theorem depthTest_order_independent (E : Externals) (px py : ℤ) (R : Renderer) (d1 d2 : ℚ)
    (c1 c2 : ColorRGB) (hidx : 0 ≤ px + py * R.m_Width)
    (hfresh : R.m_pDepthBufferPixels[(px + py * R.m_Width).toNat]? = some FLT_MAX)
    (hback : (px + py * R.m_Width).toNat < R.m_pBackBufferPixels.length)
    (h0 : 0 ≤ d1) (h12 : d1 < d2) (h1 : d2 ≤ 1) :
    (depthTestAndWrite E px py d1 c1 R).bind (depthTestAndWrite E px py d2 c2)
      = some (writeFragment E (px + py * R.m_Width).toNat d1 c1 R) ∧
    (depthTestAndWrite E px py d2 c2 R).bind (depthTestAndWrite E px py d1 c1)
      = some (writeFragment E (px + py * R.m_Width).toNat d1 c1 R) ∧
    (writeFragment E (px + py * R.m_Width).toNat d1 c1 R).m_pDepthBufferPixels[
      (px + py * R.m_Width).toNat]? = some d1 ∧
    (writeFragment E (px + py * R.m_Width).toNat d1 c1 R).m_pBackBufferPixels[
      (px + py * R.m_Width).toNat]? = some (packColor E c1) := by
  have hlt : (px + py * R.m_Width).toNat < R.m_pDepthBufferPixels.length :=
    (List.getElem?_eq_some.mp hfresh).1
  have hmax : (1 : ℚ) ≤ FLT_MAX := by norm_num [FLT_MAX]
  refine ⟨?_, ?_, ?_, ?_⟩
  · rw [depthTestAndWrite_front E px py d1 FLT_MAX c1 R hidx hfresh hback h0 (by linarith)
      (by linarith), Option.some_bind]
    exact depthTestAndWrite_behind E px py d2 d1 c2 _ hidx
      (by simp only [writeFragment]; exact List.getElem?_set_self hlt) h12
  · rw [depthTestAndWrite_front E px py d2 FLT_MAX c2 R hidx hfresh hback (by linarith) h1
      (by linarith), Option.some_bind]
    have key := depthTestAndWrite_front E px py d1 d2 c1
      (writeFragment E (px + py * R.m_Width).toNat d2 c2 R) hidx
      (by simp only [writeFragment]; exact List.getElem?_set_self hlt)
      (by simp only [writeFragment, List.length_set]; exact hback) h0 (by linarith)
      (le_of_lt h12)
    rw [key]
    simp only [writeFragment, List.set_set]
  · simp only [writeFragment]
    exact List.getElem?_set_self hlt
  · simp only [writeFragment]
    exact List.getElem?_set_self hback

/-- On the freshly reset 8 x 8 renderer, the fragments of depths `1/4` (colour `(1, 0, 0)`) and
`3/4` (colour `(0, 0, 1)`) at pixel `(3, 4)` leave depth `1/4` and the colour of the first in
either order. -/
theorem depthTest_order_independent_witness :
    (depthTestAndWrite sampleExternals 3 4 (1 / 4) ⟨1, 0, 0⟩ freshRenderer).bind
        (depthTestAndWrite sampleExternals 3 4 (3 / 4) ⟨0, 0, 1⟩)
      = some (writeFragment sampleExternals 35 (1 / 4) ⟨1, 0, 0⟩ freshRenderer) ∧
    (depthTestAndWrite sampleExternals 3 4 (3 / 4) ⟨0, 0, 1⟩ freshRenderer).bind
        (depthTestAndWrite sampleExternals 3 4 (1 / 4) ⟨1, 0, 0⟩)
      = some (writeFragment sampleExternals 35 (1 / 4) ⟨1, 0, 0⟩ freshRenderer) :=
  have h := depthTest_order_independent sampleExternals 3 4 freshRenderer (1 / 4) (3 / 4)
    ⟨1, 0, 0⟩ ⟨0, 0, 1⟩ (by decide!) (by decide!) (by decide!) (by decide!) (by decide!)
    (by decide!)
  ⟨h.1, h.2.1⟩

/-! ## Barycentric weights -/

/-- The edge value that becomes `weightV0`, written out. -/
theorem edgeValueV0_eq (t : TriangleSetup) (P : Vector2) :
    t.edgeValueV0 P = (t.v2.x - t.v1.x) * (P.y - t.v1.y) - (t.v2.y - t.v1.y) * (P.x - t.v1.x) := by
  simp only [TriangleSetup.edgeValueV0, TriangleSetup.edge12, Vector2.Cross, Vector2.sub]

/-- The edge value that becomes `weightV1`, written out. -/
theorem edgeValueV1_eq (t : TriangleSetup) (P : Vector2) :
    t.edgeValueV1 P = (t.v0.x - t.v2.x) * (P.y - t.v2.y) - (t.v0.y - t.v2.y) * (P.x - t.v2.x) := by
  simp only [TriangleSetup.edgeValueV1, TriangleSetup.edge20, Vector2.Cross, Vector2.sub]

/-- The edge value that becomes `weightV2`, written out. -/
theorem edgeValueV2_eq (t : TriangleSetup) (P : Vector2) :
    t.edgeValueV2 P = (t.v1.x - t.v0.x) * (P.y - t.v0.y) - (t.v1.y - t.v0.y) * (P.x - t.v0.x) := by
  simp only [TriangleSetup.edgeValueV2, TriangleSetup.edge01, Vector2.Cross, Vector2.sub]

/-- The signed area, written out. -/
theorem areaTriangle_eq (t : TriangleSetup) :
    t.areaTriangle
      = (t.v1.x - t.v0.x) * (t.v2.y - t.v0.y) - (t.v1.y - t.v0.y) * (t.v2.x - t.v0.x) := by
  simp only [TriangleSetup.areaTriangle, Vector2.Cross, Vector2.sub]

/-- C17: for a triangle of non-zero signed area and every pixel, the three barycentric weights
of `RenderTriangleList`, each edge value divided by the area, sum to 1, hence lie within
`1e-4` of 1. -/
theorem weights_sum_one (t : TriangleSetup) (px py : ℤ) (harea : t.areaTriangle ≠ 0) :
    t.edgeValueV0 ⟨(px : ℚ), (py : ℚ)⟩ / t.areaTriangle
        + t.edgeValueV1 ⟨(px : ℚ), (py : ℚ)⟩ / t.areaTriangle
        + t.edgeValueV2 ⟨(px : ℚ), (py : ℚ)⟩ / t.areaTriangle = 1 ∧
    |t.edgeValueV0 ⟨(px : ℚ), (py : ℚ)⟩ / t.areaTriangle
        + t.edgeValueV1 ⟨(px : ℚ), (py : ℚ)⟩ / t.areaTriangle
        + t.edgeValueV2 ⟨(px : ℚ), (py : ℚ)⟩ / t.areaTriangle - 1| ≤ 1 / 10000 := by
  have h : t.edgeValueV0 ⟨(px : ℚ), (py : ℚ)⟩ / t.areaTriangle
      + t.edgeValueV1 ⟨(px : ℚ), (py : ℚ)⟩ / t.areaTriangle
      + t.edgeValueV2 ⟨(px : ℚ), (py : ℚ)⟩ / t.areaTriangle = 1 := by
    rw [← add_div, ← add_div, edgeValues_sum]
    exact div_self harea
  refine ⟨h, ?_⟩
  rw [h]
  norm_num

/-- The weights of pixel `(3, 4)` in `rasterSetup`, whose area is `-16`, sum to 1. -/
theorem weights_sum_one_witness :
    rasterSetup.areaTriangle = -16 ∧
      rasterSetup.edgeValueV0 ⟨((3 : ℤ) : ℚ), ((4 : ℤ) : ℚ)⟩ / rasterSetup.areaTriangle
        + rasterSetup.edgeValueV1 ⟨((3 : ℤ) : ℚ), ((4 : ℤ) : ℚ)⟩ / rasterSetup.areaTriangle
        + rasterSetup.edgeValueV2 ⟨((3 : ℤ) : ℚ), ((4 : ℤ) : ℚ)⟩ / rasterSetup.areaTriangle = 1 :=
  ⟨by decide!, (weights_sum_one rasterSetup 3 4 (by decide!)).1⟩

/-- C18: for a triangle of non-zero signed area and a point `P` strictly inside it, a convex
combination of the vertices with three positive coefficients, the three edge values
`cross(V1-V0, P-V0)`, `cross(V2-V1, P-V1)`, `cross(V0-V2, P-V2)` are non-zero and have the sign
of the signed area. -/
theorem edgeValues_interior_sign (t : TriangleSetup) (a b c : ℚ) (P : Vector2)
    (harea : t.areaTriangle ≠ 0) (ha : 0 < a) (hb : 0 < b) (hc : 0 < c) (hsum : a + b + c = 1)
    (hP : P = ⟨a * t.v0.x + b * t.v1.x + c * t.v2.x, a * t.v0.y + b * t.v1.y + c * t.v2.y⟩) :
    (t.edgeValueV2 P ≠ 0 ∧ t.edgeValueV0 P ≠ 0 ∧ t.edgeValueV1 P ≠ 0) ∧
    ((0 < t.areaTriangle ∧ 0 < t.edgeValueV2 P ∧ 0 < t.edgeValueV0 P ∧ 0 < t.edgeValueV1 P) ∨
      (t.areaTriangle < 0 ∧ t.edgeValueV2 P < 0 ∧ t.edgeValueV0 P < 0 ∧ t.edgeValueV1 P < 0)) := by
  have hc' : c = 1 - a - b := by linarith
  have e0 : t.edgeValueV0 P = a * t.areaTriangle := by
    rw [edgeValueV0_eq, areaTriangle_eq, hP, hc']
    ring
  have e1 : t.edgeValueV1 P = b * t.areaTriangle := by
    rw [edgeValueV1_eq, areaTriangle_eq, hP, hc']
    ring
  have e2 : t.edgeValueV2 P = c * t.areaTriangle := by
    rw [edgeValueV2_eq, areaTriangle_eq, hP, hc']
    ring
  rw [e0, e1, e2]
  refine ⟨⟨mul_ne_zero (ne_of_gt hc) harea, mul_ne_zero (ne_of_gt ha) harea,
    mul_ne_zero (ne_of_gt hb) harea⟩, ?_⟩
  rcases lt_or_gt_of_ne harea with hneg | hpos
  · right
    exact ⟨hneg, mul_neg_of_pos_of_neg hc hneg, mul_neg_of_pos_of_neg ha hneg,
      mul_neg_of_pos_of_neg hb hneg⟩
  · left
    exact ⟨hpos, mul_pos hc hpos, mul_pos ha hpos, mul_pos hb hpos⟩

/-- In `rasterSetup`, whose area is negative, the point `(3, 4)` is the combination of the
corners with coefficients `1/2`, `1/4`, `1/4`, and its three edge values are negative. -/
theorem edgeValues_interior_sign_witness :
    rasterSetup.edgeValueV2 ⟨3, 4⟩ < 0 ∧ rasterSetup.edgeValueV0 ⟨3, 4⟩ < 0 ∧
      rasterSetup.edgeValueV1 ⟨3, 4⟩ < 0 := by
  rcases (edgeValues_interior_sign rasterSetup (1 / 2) (1 / 4) (1 / 4) ⟨3, 4⟩ (by decide!)
    (by decide!) (by decide!) (by decide!) (by decide!) (by decide!)).2 with h | h
  · exact absurd h.1 (by decide!)
  · exact h.2

/-- Two vectors with the same components are equal. -/
theorem Vector2.eq_of_components (a b : Vector2) (hx : a.x = b.x) (hy : a.y = b.y) : a = b := by
  cases a
  cases b
  simp only at hx hy
  rw [hx, hy]

/-- At the vertex `V0` the edge values are the area, zero and zero. -/
theorem edgeValues_at_v0 (t : TriangleSetup) :
    t.edgeValueV0 t.v0 = t.areaTriangle ∧ t.edgeValueV1 t.v0 = 0 ∧ t.edgeValueV2 t.v0 = 0 := by
  rw [edgeValueV0_eq, edgeValueV1_eq, edgeValueV2_eq, areaTriangle_eq]
  refine ⟨?_, ?_, ?_⟩ <;> ring

/-- At the vertex `V1` the edge values are zero, the area and zero. -/
theorem edgeValues_at_v1 (t : TriangleSetup) :
    t.edgeValueV0 t.v1 = 0 ∧ t.edgeValueV1 t.v1 = t.areaTriangle ∧ t.edgeValueV2 t.v1 = 0 := by
  rw [edgeValueV0_eq, edgeValueV1_eq, edgeValueV2_eq, areaTriangle_eq]
  refine ⟨?_, ?_, ?_⟩ <;> ring

/-- At the vertex `V2` the edge values are zero, zero and the area. -/
theorem edgeValues_at_v2 (t : TriangleSetup) :
    t.edgeValueV0 t.v2 = 0 ∧ t.edgeValueV1 t.v2 = 0 ∧ t.edgeValueV2 t.v2 = t.areaTriangle := by
  rw [edgeValueV0_eq, edgeValueV1_eq, edgeValueV2_eq, areaTriangle_eq]
  refine ⟨?_, ?_, ?_⟩ <;> ring

/-- C19: each weight belongs to the vertex opposite its edge.  For a triangle of non-zero
signed area and every pixel `P`, the weights of `RenderTriangleList` satisfy
`weightV0 * V0 + weightV1 * V1 + weightV2 * V2 = P`; at `P = V0` they are `(1, 0, 0)`, at
`P = V1` they are `(0, 1, 0)` and at `P = V2` they are `(0, 0, 1)`. -/
theorem weights_reproduce_pixel (t : TriangleSetup) (P : Vector2) (harea : t.areaTriangle ≠ 0) :
    ((t.v0.scale (t.edgeValueV0 P / t.areaTriangle)).add
        (t.v1.scale (t.edgeValueV1 P / t.areaTriangle))).add
        (t.v2.scale (t.edgeValueV2 P / t.areaTriangle)) = P ∧
    (t.edgeValueV0 t.v0 / t.areaTriangle, t.edgeValueV1 t.v0 / t.areaTriangle,
      t.edgeValueV2 t.v0 / t.areaTriangle) = (1, 0, 0) ∧
    (t.edgeValueV0 t.v1 / t.areaTriangle, t.edgeValueV1 t.v1 / t.areaTriangle,
      t.edgeValueV2 t.v1 / t.areaTriangle) = (0, 1, 0) ∧
    (t.edgeValueV0 t.v2 / t.areaTriangle, t.edgeValueV1 t.v2 / t.areaTriangle,
      t.edgeValueV2 t.v2 / t.areaTriangle) = (0, 0, 1) := by
  refine ⟨?_, ?_, ?_, ?_⟩
  · have ha := harea
    rw [areaTriangle_eq] at ha
    apply Vector2.eq_of_components
    · simp only [Vector2.add, Vector2.scale, edgeValueV0_eq, edgeValueV1_eq, edgeValueV2_eq,
        areaTriangle_eq]
      field_simp
      ring
    · simp only [Vector2.add, Vector2.scale, edgeValueV0_eq, edgeValueV1_eq, edgeValueV2_eq,
        areaTriangle_eq]
      field_simp
      ring
  · obtain ⟨h0, h1, h2⟩ := edgeValues_at_v0 t
    rw [h0, h1, h2, div_self harea, zero_div]
  · obtain ⟨h0, h1, h2⟩ := edgeValues_at_v1 t
    rw [h0, h1, h2, div_self harea, zero_div]
  · obtain ⟨h0, h1, h2⟩ := edgeValues_at_v2 t
    rw [h0, h1, h2, div_self harea, zero_div]

/-- In `rasterSetup` the weights of the pixel `(3, 4)` combine the corners back to `(3, 4)`. -/
theorem weights_reproduce_pixel_witness :
    ((rasterSetup.v0.scale (rasterSetup.edgeValueV0 ⟨3, 4⟩ / rasterSetup.areaTriangle)).add
        (rasterSetup.v1.scale (rasterSetup.edgeValueV1 ⟨3, 4⟩ / rasterSetup.areaTriangle))).add
        (rasterSetup.v2.scale (rasterSetup.edgeValueV2 ⟨3, 4⟩ / rasterSetup.areaTriangle))
      = ⟨3, 4⟩ :=
  (weights_reproduce_pixel rasterSetup ⟨3, 4⟩ (by decide!)).1

/-! ## Perspective-correct interpolation -/

/-- The interpolated UV for the weights `(1, 0, 0)` is the UV of `V0`. -/
theorem interpolatedUV_one_zero_zero (t : TriangleSetup) (hw : t.wV0 ≠ 0) :
    interpolatedUV t 1 0 0 = t.uvV0 := by
  apply Vector2.eq_of_components
  · simp only [interpolatedUV, interpolatedWDepthWeight, Vector2.add, Vector2.scale,
      Vector2.divide]
    field_simp
  · simp only [interpolatedUV, interpolatedWDepthWeight, Vector2.add, Vector2.scale,
      Vector2.divide]
    field_simp

/-- The interpolated UV for the weights `(0, 1, 0)` is the UV of `V1`. -/
theorem interpolatedUV_zero_one_zero (t : TriangleSetup) (hw : t.wV1 ≠ 0) :
    interpolatedUV t 0 1 0 = t.uvV1 := by
  apply Vector2.eq_of_components
  · simp only [interpolatedUV, interpolatedWDepthWeight, Vector2.add, Vector2.scale,
      Vector2.divide]
    field_simp
  · simp only [interpolatedUV, interpolatedWDepthWeight, Vector2.add, Vector2.scale,
      Vector2.divide]
    field_simp

/-- The interpolated UV for the weights `(0, 0, 1)` is the UV of `V2`. -/
theorem interpolatedUV_zero_zero_one (t : TriangleSetup) (hw : t.wV2 ≠ 0) :
    interpolatedUV t 0 0 1 = t.uvV2 := by
  apply Vector2.eq_of_components
  · simp only [interpolatedUV, interpolatedWDepthWeight, Vector2.add, Vector2.scale,
      Vector2.divide]
    field_simp
  · simp only [interpolatedUV, interpolatedWDepthWeight, Vector2.add, Vector2.scale,
      Vector2.divide]
    field_simp

/-- C20: perspective-correct interpolation reproduces the vertex attribute at the vertex.  For
a triangle of non-zero area and non-zero `wV0`, `wV1`, `wV2`, the `interpolatedUV` of the
`FinalColor` branch, computed from the weights of a pixel that coincides with `V0`, `V1` or `V2`,
is `uvV0`, `uvV1` or `uvV2`. -/
theorem interpolatedUV_at_vertices (t : TriangleSetup) (px py : ℤ)
    (harea : t.areaTriangle ≠ 0) (hw0 : t.wV0 ≠ 0) (hw1 : t.wV1 ≠ 0) (hw2 : t.wV2 ≠ 0) :
    (t.v0 = ⟨(px : ℚ), (py : ℚ)⟩ →
      interpolatedUV t (t.edgeValueV0 ⟨(px : ℚ), (py : ℚ)⟩ / t.areaTriangle)
        (t.edgeValueV1 ⟨(px : ℚ), (py : ℚ)⟩ / t.areaTriangle)
        (t.edgeValueV2 ⟨(px : ℚ), (py : ℚ)⟩ / t.areaTriangle) = t.uvV0) ∧
    (t.v1 = ⟨(px : ℚ), (py : ℚ)⟩ →
      interpolatedUV t (t.edgeValueV0 ⟨(px : ℚ), (py : ℚ)⟩ / t.areaTriangle)
        (t.edgeValueV1 ⟨(px : ℚ), (py : ℚ)⟩ / t.areaTriangle)
        (t.edgeValueV2 ⟨(px : ℚ), (py : ℚ)⟩ / t.areaTriangle) = t.uvV1) ∧
    (t.v2 = ⟨(px : ℚ), (py : ℚ)⟩ →
      interpolatedUV t (t.edgeValueV0 ⟨(px : ℚ), (py : ℚ)⟩ / t.areaTriangle)
        (t.edgeValueV1 ⟨(px : ℚ), (py : ℚ)⟩ / t.areaTriangle)
        (t.edgeValueV2 ⟨(px : ℚ), (py : ℚ)⟩ / t.areaTriangle) = t.uvV2) := by
  refine ⟨?_, ?_, ?_⟩
  · intro h
    obtain ⟨h0, h1, h2⟩ := edgeValues_at_v0 t
    rw [← h, h0, h1, h2, div_self harea, zero_div]
    exact interpolatedUV_one_zero_zero t hw0
  · intro h
    obtain ⟨h0, h1, h2⟩ := edgeValues_at_v1 t
    rw [← h, h0, h1, h2, div_self harea, zero_div]
    exact interpolatedUV_zero_one_zero t hw1
  · intro h
    obtain ⟨h0, h1, h2⟩ := edgeValues_at_v2 t
    rw [← h, h0, h1, h2, div_self harea, zero_div]
    exact interpolatedUV_zero_zero_one t hw2

/-- In `perspectiveSetup` the pixel `(2, 6)` coincides with `V1` and gets the UV of `V1`. -/
theorem interpolatedUV_at_vertices_witness :
    interpolatedUV perspectiveSetup
        (perspectiveSetup.edgeValueV0 ⟨((2 : ℤ) : ℚ), ((6 : ℤ) : ℚ)⟩ / perspectiveSetup.areaTriangle)
        (perspectiveSetup.edgeValueV1 ⟨((2 : ℤ) : ℚ), ((6 : ℤ) : ℚ)⟩ / perspectiveSetup.areaTriangle)
        (perspectiveSetup.edgeValueV2 ⟨((2 : ℤ) : ℚ), ((6 : ℤ) : ℚ)⟩ / perspectiveSetup.areaTriangle)
      = perspectiveSetup.uvV1 :=
  (interpolatedUV_at_vertices perspectiveSetup 2 6 (by decide!) (by decide!) (by decide!)
    (by decide!)).2.1 (by decide!)

/-- C21: the perspective correction is load-bearing.  In `perspectiveSetup`, whose clip-space
`w` values are 1, 2 and 4, the pixel `(3, 4)` is covered and has the weights `1/2`, `1/4`, `1/4`;
the interpolation of `Render_W2_Part3` gives the UV `(1/4, 1/2)`, the `interpolatedUV` of the
`FinalColor` branch of `RenderTriangleList` gives `(1/11, 3/11)`. -/
theorem perspective_correction_load_bearing :
    ∃ (t : TriangleSetup) (px py : ℤ),
      (t.wV0 ≠ t.wV1 ∧ t.wV1 ≠ t.wV2 ∧ t.wV0 ≠ t.wV2) ∧
      (t.edgeValueV0 ⟨(px : ℚ), (py : ℚ)⟩ ≤ 0 ∧ t.edgeValueV1 ⟨(px : ℚ), (py : ℚ)⟩ ≤ 0 ∧
        t.edgeValueV2 ⟨(px : ℚ), (py : ℚ)⟩ ≤ 0) ∧
      weightedUV t (t.edgeValueV0 ⟨(px : ℚ), (py : ℚ)⟩ / t.areaTriangle)
          (t.edgeValueV1 ⟨(px : ℚ), (py : ℚ)⟩ / t.areaTriangle)
          (t.edgeValueV2 ⟨(px : ℚ), (py : ℚ)⟩ / t.areaTriangle) = ⟨1 / 4, 1 / 2⟩ ∧
      interpolatedUV t (t.edgeValueV0 ⟨(px : ℚ), (py : ℚ)⟩ / t.areaTriangle)
          (t.edgeValueV1 ⟨(px : ℚ), (py : ℚ)⟩ / t.areaTriangle)
          (t.edgeValueV2 ⟨(px : ℚ), (py : ℚ)⟩ / t.areaTriangle) = ⟨1 / 11, 3 / 11⟩ ∧
      weightedUV t (t.edgeValueV0 ⟨(px : ℚ), (py : ℚ)⟩ / t.areaTriangle)
          (t.edgeValueV1 ⟨(px : ℚ), (py : ℚ)⟩ / t.areaTriangle)
          (t.edgeValueV2 ⟨(px : ℚ), (py : ℚ)⟩ / t.areaTriangle)
        ≠ interpolatedUV t (t.edgeValueV0 ⟨(px : ℚ), (py : ℚ)⟩ / t.areaTriangle)
          (t.edgeValueV1 ⟨(px : ℚ), (py : ℚ)⟩ / t.areaTriangle)
          (t.edgeValueV2 ⟨(px : ℚ), (py : ℚ)⟩ / t.areaTriangle) :=
  ⟨perspectiveSetup, 3, 4, by decide!⟩

/-! ## Display mode -/

/-- C22: `ToggleDisplayMode` maps `FinalColor` to `DepthBuffer` and `DepthBuffer` to
`FinalColor`, two calls give back the renderer they started from, and one call changes no field
other than the display mode. -/
theorem ToggleDisplayMode_cycle (R : Renderer) :
    (ToggleDisplayMode { R with m_CurrentDisplayMode := DisplayMode.FinalColor }).m_CurrentDisplayMode
      = DisplayMode.DepthBuffer ∧
    (ToggleDisplayMode { R with m_CurrentDisplayMode := DisplayMode.DepthBuffer }).m_CurrentDisplayMode
      = DisplayMode.FinalColor ∧
    ToggleDisplayMode (ToggleDisplayMode R) = R ∧
    ToggleDisplayMode R
      = { R with m_CurrentDisplayMode := (ToggleDisplayMode R).m_CurrentDisplayMode } := by
  refine ⟨?_, ?_, ?_, rfl⟩
  · simp [ToggleDisplayMode, DisplayMode.toInt, DisplayMode.ofInt]
  · simp [ToggleDisplayMode, DisplayMode.toInt, DisplayMode.ofInt]
  cases R with
  | mk W H mode depth back camera =>
    cases mode <;> simp [ToggleDisplayMode, DisplayMode.toInt, DisplayMode.ofInt]

/-! ## The frame -/

/-- C24: no stale pixel survives a frame.  `Render_W3`, run on a triangle list without indices
and a renderer whose depth buffer has `m_Width * m_Height` entries, returns with `FLT_MAX` in
every depth entry and the background colour `SDL_MapRGB(100, 100, 100)` in every colour pixel,
whatever the two buffers held before. -/
theorem Render_W3_empty_scene (E : Externals) (mesh : Mesh) (R : Renderer)
    (htopology : mesh.primitiveTopology = PrimitiveTopology.TriangleList)
    (hindices : mesh.indices = [])
    (hsize : R.m_pDepthBufferPixels.length = (R.m_Width * R.m_Height).toNat) :
    ∃ R' : Renderer, Render_W3 E mesh R = some R' ∧
      R'.m_pDepthBufferPixels = List.replicate R.m_pDepthBufferPixels.length FLT_MAX ∧
      R'.m_pBackBufferPixels
        = List.replicate R.m_pBackBufferPixels.length (E.SDL_MapRGB 100 100 100) ∧
      (∀ d ∈ R'.m_pDepthBufferPixels, d = FLT_MAX) ∧
      (∀ c ∈ R'.m_pBackBufferPixels, c = E.SDL_MapRGB 100 100 100) := by
  have hfill : fillDepthBuffer R
      = some { R with
          m_pDepthBufferPixels := List.replicate R.m_pDepthBufferPixels.length FLT_MAX } := by
    unfold fillDepthBuffer
    rw [← hsize]
    simp
  have hmap : ∀ (l : List ℕ) (c : ℕ), (l.map fun _ => c) = List.replicate l.length c := by
    intro l c
    induction l with
    | nil => rfl
    | cons a l ih => simp [List.replicate_succ, ih]
  refine ⟨{ R with
      m_pDepthBufferPixels := List.replicate R.m_pDepthBufferPixels.length FLT_MAX
      m_pBackBufferPixels :=
        List.replicate R.m_pBackBufferPixels.length (E.SDL_MapRGB 100 100 100) }, ?_, rfl, rfl,
    ?_, ?_⟩
  · unfold Render_W3
    rw [hfill]
    simp only [Option.some_bind, VertexTransformationFunction_W3_eq, List.map_cons, List.map_nil,
      List.length_singleton, forLoop, renderMesh_W3, htopology]
    simp [transformMesh_W3, RenderTriangleList, hindices, listRounds, forLoop, ClearBackground,
      hmap]
  · intro d hd
    exact List.eq_of_mem_replicate hd
  · intro c hc
    exact List.eq_of_mem_replicate hc

/-- After a frame with `emptySceneMesh`, `staleRenderer` holds `FLT_MAX` and the background
colour everywhere. -/
theorem Render_W3_empty_scene_witness :
    ∃ R' : Renderer, Render_W3 sampleExternals emptySceneMesh staleRenderer = some R' ∧
      R'.m_pDepthBufferPixels = List.replicate 64 FLT_MAX ∧
      R'.m_pBackBufferPixels = List.replicate 64 6579300 := by
  obtain ⟨R', h1, h2, h3, -⟩ :=
    Render_W3_empty_scene sampleExternals emptySceneMesh staleRenderer rfl rfl (by decide)
  exact ⟨R', h1, h2, h3⟩

/-! ## The inside test -/

/-- The weighted vertex sum of the weights of a point is the point. -/
theorem weights_combine (t : TriangleSetup) (P : Vector2) (harea : t.areaTriangle ≠ 0) :
    P.x = t.edgeValueV0 P / t.areaTriangle * t.v0.x + t.edgeValueV1 P / t.areaTriangle * t.v1.x
        + t.edgeValueV2 P / t.areaTriangle * t.v2.x ∧
    P.y = t.edgeValueV0 P / t.areaTriangle * t.v0.y + t.edgeValueV1 P / t.areaTriangle * t.v1.y
        + t.edgeValueV2 P / t.areaTriangle * t.v2.y := by
  have ha := harea
  rw [areaTriangle_eq] at ha
  simp only [edgeValueV0_eq, edgeValueV1_eq, edgeValueV2_eq, areaTriangle_eq]
  constructor
  · field_simp
    ring
  · field_simp
    ring

/-- The edge values of a combination of the vertices with coefficients that sum to 1 are the
coefficients times the area. -/
theorem edgeValues_of_combination (t : TriangleSetup) (a b c : ℚ) (P : Vector2)
    (hsum : a + b + c = 1)
    (hx : P.x = a * t.v0.x + b * t.v1.x + c * t.v2.x)
    (hy : P.y = a * t.v0.y + b * t.v1.y + c * t.v2.y) :
    t.edgeValueV0 P = a * t.areaTriangle ∧ t.edgeValueV1 P = b * t.areaTriangle ∧
      t.edgeValueV2 P = c * t.areaTriangle := by
  have hc' : c = 1 - a - b := by linarith
  rw [edgeValueV0_eq, edgeValueV1_eq, edgeValueV2_eq, areaTriangle_eq, hx, hy, hc']
  refine ⟨?_, ?_, ?_⟩ <;> ring

/-- C25: for a triangle of negative signed area, a pixel passes the inside test of
`RenderTriangleList` (none of the three edge values is positive) exactly when its three
barycentric weights are non-negative, and exactly when it is a combination of the vertices with
non-negative coefficients that sum to 1, a point of the closed triangle. -/
theorem inside_test_iff_weights_nonneg (t : TriangleSetup) (px py : ℤ)
    (harea : t.areaTriangle < 0) :
    ((¬ t.edgeValueV2 ⟨(px : ℚ), (py : ℚ)⟩ > 0 ∧ ¬ t.edgeValueV0 ⟨(px : ℚ), (py : ℚ)⟩ > 0 ∧
        ¬ t.edgeValueV1 ⟨(px : ℚ), (py : ℚ)⟩ > 0) ↔
      (0 ≤ t.edgeValueV0 ⟨(px : ℚ), (py : ℚ)⟩ / t.areaTriangle ∧
        0 ≤ t.edgeValueV1 ⟨(px : ℚ), (py : ℚ)⟩ / t.areaTriangle ∧
        0 ≤ t.edgeValueV2 ⟨(px : ℚ), (py : ℚ)⟩ / t.areaTriangle)) ∧
    ((¬ t.edgeValueV2 ⟨(px : ℚ), (py : ℚ)⟩ > 0 ∧ ¬ t.edgeValueV0 ⟨(px : ℚ), (py : ℚ)⟩ > 0 ∧
        ¬ t.edgeValueV1 ⟨(px : ℚ), (py : ℚ)⟩ > 0) ↔
      ∃ a b c : ℚ, 0 ≤ a ∧ 0 ≤ b ∧ 0 ≤ c ∧ a + b + c = 1 ∧
        (px : ℚ) = a * t.v0.x + b * t.v1.x + c * t.v2.x ∧
        (py : ℚ) = a * t.v0.y + b * t.v1.y + c * t.v2.y) ∧
    (∀ (E : Externals) (R : Renderer),
      (¬ t.edgeValueV2 ⟨(px : ℚ), (py : ℚ)⟩ > 0 ∧ ¬ t.edgeValueV0 ⟨(px : ℚ), (py : ℚ)⟩ > 0 ∧
        ¬ t.edgeValueV1 ⟨(px : ℚ), (py : ℚ)⟩ > 0) →
      listPixel E t px py R
        = shadePixel E t px py (t.edgeValueV0 ⟨(px : ℚ), (py : ℚ)⟩)
            (t.edgeValueV1 ⟨(px : ℚ), (py : ℚ)⟩) (t.edgeValueV2 ⟨(px : ℚ), (py : ℚ)⟩) R) := by
  have hne : t.areaTriangle ≠ 0 := ne_of_lt harea
  have key : ∀ e : ℚ, (¬ e > 0) ↔ 0 ≤ e / t.areaTriangle := by
    intro e
    rw [not_lt, div_nonneg_iff]
    constructor
    · intro h
      exact Or.inr ⟨h, le_of_lt harea⟩
    · rintro (⟨-, h⟩ | ⟨h, -⟩)
      · exact absurd h (not_le.mpr harea)
      · exact h
  have first : (¬ t.edgeValueV2 ⟨(px : ℚ), (py : ℚ)⟩ > 0 ∧
      ¬ t.edgeValueV0 ⟨(px : ℚ), (py : ℚ)⟩ > 0 ∧ ¬ t.edgeValueV1 ⟨(px : ℚ), (py : ℚ)⟩ > 0) ↔
      (0 ≤ t.edgeValueV0 ⟨(px : ℚ), (py : ℚ)⟩ / t.areaTriangle ∧
        0 ≤ t.edgeValueV1 ⟨(px : ℚ), (py : ℚ)⟩ / t.areaTriangle ∧
        0 ≤ t.edgeValueV2 ⟨(px : ℚ), (py : ℚ)⟩ / t.areaTriangle) := by
    rw [key, key, key]
    tauto
  refine ⟨first, ?_, ?_⟩
  · rw [first]
    constructor
    · rintro ⟨h0, h1, h2⟩
      refine ⟨_, _, _, h0, h1, h2, ?_, (weights_combine t ⟨(px : ℚ), (py : ℚ)⟩ hne).1,
        (weights_combine t ⟨(px : ℚ), (py : ℚ)⟩ hne).2⟩
      rw [← add_div, ← add_div, edgeValues_sum]
      exact div_self hne
    · rintro ⟨a, b, c, ha, hb, hc, hsum, hx, hy⟩
      obtain ⟨e0, e1, e2⟩ := edgeValues_of_combination t a b c ⟨(px : ℚ), (py : ℚ)⟩ hsum hx hy
      rw [e0, e1, e2, mul_div_assoc, mul_div_assoc, mul_div_assoc, div_self hne, mul_one,
        mul_one, mul_one]
      exact ⟨ha, hb, hc⟩
  · rintro E R ⟨h2, h0, h1⟩
    exact listPixel_covered E t px py R (not_lt.mp h0) (not_lt.mp h1) (not_lt.mp h2)

/-- In `rasterSetup`, whose area is `-16`, the pixel `(3, 4)` passes the inside test and has
non-negative weights. -/
theorem inside_test_iff_weights_nonneg_witness :
    rasterSetup.areaTriangle < 0 ∧
      0 ≤ rasterSetup.edgeValueV0 ⟨((3 : ℤ) : ℚ), ((4 : ℤ) : ℚ)⟩ / rasterSetup.areaTriangle ∧
      0 ≤ rasterSetup.edgeValueV1 ⟨((3 : ℤ) : ℚ), ((4 : ℤ) : ℚ)⟩ / rasterSetup.areaTriangle ∧
      0 ≤ rasterSetup.edgeValueV2 ⟨((3 : ℤ) : ℚ), ((4 : ℤ) : ℚ)⟩ / rasterSetup.areaTriangle :=
  ⟨by decide!, (inside_test_iff_weights_nonneg rasterSetup 3 4 (by decide!)).1.mp (by decide!)⟩

/-! ## The weight sanity check -/

/-- C26: the weight sanity check never skips a pixel.  Its condition,
`sum < 1 - FLT_EPSILON && sum > 1 + FLT_EPSILON`, holds for no sum.  For the weights
`(1/2, 1/2, 1/2)`, whose sum `3/2` exceeds `1 + FLT_EPSILON`, the shared part of the pixel body
goes on to the depth test and writes the depth `1/3` and the colour `(255, 255, 0)` at pixel
`(3, 4)`. -/
theorem sanity_check_never_skips :
    (∀ sum : ℚ, ¬ (sum < 1 - FLT_EPSILON ∧ sum > 1 + FLT_EPSILON)) ∧
    ((-8 : ℚ) / rasterSetup.areaTriangle, (-8 : ℚ) / rasterSetup.areaTriangle
        + (-8 : ℚ) / rasterSetup.areaTriangle + (-8 : ℚ) / rasterSetup.areaTriangle)
      = (1 / 2, 3 / 2) ∧
    (3 / 2 : ℚ) > 1 + FLT_EPSILON ∧
    (sampleRenderer.m_pDepthBufferPixels[3 + 4 * 8]?, sampleRenderer.m_pBackBufferPixels[3 + 4 * 8]?)
      = (some 1, some 0) ∧
    (shadePixel sampleExternals rasterSetup 3 4 (-8) (-8) (-8) sampleRenderer).map
        (fun R => (R.m_pDepthBufferPixels[3 + 4 * 8]?, R.m_pBackBufferPixels[3 + 4 * 8]?))
      = some (some (1 / 3), some 16776960) :=
  ⟨sanityCheck_false, by decide!, by decide!, by decide!, by decide!⟩

/-! ## Depth interpolation -/

/-- C27: the harmonic depth interpolation stays inside the vertex depths.  For strictly
positive vertex depths and non-negative weights that sum to 1, `interpolatedZDepthWeight` lies
between the least and the greatest of the three depths, it is the common depth when the three
are equal, and when the three depths are at most 1 the rejection `z < 0 || z > 1` does not
fire. -/
theorem interpolatedZDepthWeight_between (t : TriangleSetup) (weightV0 weightV1 weightV2 : ℚ)
    (hz0 : 0 < t.depthV0) (hz1 : 0 < t.depthV1) (hz2 : 0 < t.depthV2)
    (hw0 : 0 ≤ weightV0) (hw1 : 0 ≤ weightV1) (hw2 : 0 ≤ weightV2)
    (hsum : weightV0 + weightV1 + weightV2 = 1) :
    min t.depthV0 (min t.depthV1 t.depthV2) ≤ interpolatedZDepthWeight t weightV0 weightV1 weightV2 ∧
    interpolatedZDepthWeight t weightV0 weightV1 weightV2 ≤ max t.depthV0 (max t.depthV1 t.depthV2) ∧
    (t.depthV0 = t.depthV1 → t.depthV1 = t.depthV2 →
      interpolatedZDepthWeight t weightV0 weightV1 weightV2 = t.depthV0) ∧
    (t.depthV0 ≤ 1 → t.depthV1 ≤ 1 → t.depthV2 ≤ 1 →
      ¬ (interpolatedZDepthWeight t weightV0 weightV1 weightV2 < 0 ∨
        interpolatedZDepthWeight t weightV0 weightV1 weightV2 > 1)) := by
  have hm : 0 < min t.depthV0 (min t.depthV1 t.depthV2) := lt_min hz0 (lt_min hz1 hz2)
  have hM : 0 < max t.depthV0 (max t.depthV1 t.depthV2) := lt_max_of_lt_left hz0
  have hm0 : min t.depthV0 (min t.depthV1 t.depthV2) ≤ t.depthV0 := min_le_left _ _
  have hm1 : min t.depthV0 (min t.depthV1 t.depthV2) ≤ t.depthV1 :=
    le_trans (min_le_right _ _) (min_le_left _ _)
  have hm2 : min t.depthV0 (min t.depthV1 t.depthV2) ≤ t.depthV2 :=
    le_trans (min_le_right _ _) (min_le_right _ _)
  have hM0 : t.depthV0 ≤ max t.depthV0 (max t.depthV1 t.depthV2) := le_max_left _ _
  have hM1 : t.depthV1 ≤ max t.depthV0 (max t.depthV1 t.depthV2) :=
    le_trans (le_max_left _ _) (le_max_right _ _)
  have hM2 : t.depthV2 ≤ max t.depthV0 (max t.depthV1 t.depthV2) :=
    le_trans (le_max_right _ _) (le_max_right _ _)
  have upper : 1 / t.depthV0 * weightV0 + 1 / t.depthV1 * weightV1 + 1 / t.depthV2 * weightV2
      ≤ 1 / min t.depthV0 (min t.depthV1 t.depthV2) := by
    have a0 := mul_le_mul_of_nonneg_right (one_div_le_one_div_of_le hm hm0) hw0
    have a1 := mul_le_mul_of_nonneg_right (one_div_le_one_div_of_le hm hm1) hw1
    have a2 := mul_le_mul_of_nonneg_right (one_div_le_one_div_of_le hm hm2) hw2
    have e : 1 / min t.depthV0 (min t.depthV1 t.depthV2)
        = 1 / min t.depthV0 (min t.depthV1 t.depthV2) * weightV0
          + 1 / min t.depthV0 (min t.depthV1 t.depthV2) * weightV1
          + 1 / min t.depthV0 (min t.depthV1 t.depthV2) * weightV2 := by
      rw [← mul_add, ← mul_add, hsum, mul_one]
    linarith
  have lower : 1 / max t.depthV0 (max t.depthV1 t.depthV2)
      ≤ 1 / t.depthV0 * weightV0 + 1 / t.depthV1 * weightV1 + 1 / t.depthV2 * weightV2 := by
    have a0 := mul_le_mul_of_nonneg_right (one_div_le_one_div_of_le hz0 hM0) hw0
    have a1 := mul_le_mul_of_nonneg_right (one_div_le_one_div_of_le hz1 hM1) hw1
    have a2 := mul_le_mul_of_nonneg_right (one_div_le_one_div_of_le hz2 hM2) hw2
    have e : 1 / max t.depthV0 (max t.depthV1 t.depthV2)
        = 1 / max t.depthV0 (max t.depthV1 t.depthV2) * weightV0
          + 1 / max t.depthV0 (max t.depthV1 t.depthV2) * weightV1
          + 1 / max t.depthV0 (max t.depthV1 t.depthV2) * weightV2 := by
      rw [← mul_add, ← mul_add, hsum, mul_one]
    linarith
  have hS : 0 < 1 / t.depthV0 * weightV0 + 1 / t.depthV1 * weightV1 + 1 / t.depthV2 * weightV2 :=
    lt_of_lt_of_le (one_div_pos.mpr hM) lower
  have hlo : min t.depthV0 (min t.depthV1 t.depthV2)
      ≤ interpolatedZDepthWeight t weightV0 weightV1 weightV2 := by
    unfold interpolatedZDepthWeight
    have h := one_div_le_one_div_of_le hS upper
    rwa [one_div_one_div] at h
  have hhi : interpolatedZDepthWeight t weightV0 weightV1 weightV2
      ≤ max t.depthV0 (max t.depthV1 t.depthV2) := by
    unfold interpolatedZDepthWeight
    have h := one_div_le_one_div_of_le (one_div_pos.mpr hM) lower
    rwa [one_div_one_div] at h
  refine ⟨hlo, hhi, ?_, ?_⟩
  · intro h01 h12
    apply le_antisymm
    · calc interpolatedZDepthWeight t weightV0 weightV1 weightV2
          ≤ max t.depthV0 (max t.depthV1 t.depthV2) := hhi
        _ = t.depthV0 := by rw [← h12, ← h01, max_self, max_self]
    · calc t.depthV0 = min t.depthV0 (min t.depthV1 t.depthV2) := by
            rw [← h12, ← h01, min_self, min_self]
        _ ≤ interpolatedZDepthWeight t weightV0 weightV1 weightV2 := hlo
  · intro h0 h1 h2
    rintro (h | h)
    · linarith
    · have : max t.depthV0 (max t.depthV1 t.depthV2) ≤ 1 := max_le h0 (max_le h1 h2)
      linarith

/-- In `rasterSetup`, with the three depths `1/2`, the weights `1/2`, `1/4`, `1/4` interpolate
to the depth `1/2`. -/
theorem interpolatedZDepthWeight_between_witness :
    interpolatedZDepthWeight rasterSetup (1 / 2) (1 / 4) (1 / 4) = rasterSetup.depthV0 :=
  (interpolatedZDepthWeight_between rasterSetup (1 / 2) (1 / 4) (1 / 4) (by decide!) (by decide!)
    (by decide!) (by decide!) (by decide!) (by decide!) (by decide!)).2.2.1 (by decide!)
    (by decide!)

/-! ## Back-facing triangles -/

/-- C30: back-facing triangles are culled by the inside test alone.  For a triangle of
positive signed area every pixel has a positive edge value, so the pixel body of
`RenderTriangleList` leaves the renderer as it is on every pixel, and the triangle changes
neither buffer. -/
theorem backFacing_culled (E : Externals) (t : TriangleSetup) (R : Renderer)
    (harea : 0 < t.areaTriangle) :
    (∀ px py : ℤ, t.edgeValueV0 ⟨(px : ℚ), (py : ℚ)⟩ > 0 ∨ t.edgeValueV1 ⟨(px : ℚ), (py : ℚ)⟩ > 0 ∨
      t.edgeValueV2 ⟨(px : ℚ), (py : ℚ)⟩ > 0) ∧
    (∀ (px py : ℤ) (R' : Renderer), listPixel E t px py R' = some R') ∧
    listRasterize E t R = some R := by
  have hpos : ∀ px py : ℤ, t.edgeValueV0 ⟨(px : ℚ), (py : ℚ)⟩ > 0 ∨
      t.edgeValueV1 ⟨(px : ℚ), (py : ℚ)⟩ > 0 ∨ t.edgeValueV2 ⟨(px : ℚ), (py : ℚ)⟩ > 0 := by
    intro px py
    have hsum := edgeValues_sum t ⟨(px : ℚ), (py : ℚ)⟩
    by_contra hcon
    push_neg at hcon
    linarith [hcon.1, hcon.2.1, hcon.2.2]
  refine ⟨hpos, fun px py R' => listPixel_outside E t px py R' (hpos px py), ?_⟩
  rw [listRasterize_eq]
  split_ifs
  · rfl
  · apply forRange_skip
    intro px _ _
    apply forRange_skip
    intro py _ _
    exact listPixel_outside E t px py R (hpos px py)

/-- The triangle `backFacingSetup`, of area `16`, leaves the 8 x 8 renderer as it is. -/
theorem backFacing_culled_witness :
    backFacingSetup.areaTriangle = 16 ∧
      listRasterize sampleExternals backFacingSetup sampleRenderer = some sampleRenderer :=
  ⟨by decide!, (backFacing_culled sampleExternals backFacingSetup sampleRenderer (by decide!)).2.2⟩

/-! ## The enlarged bounding box -/

/-- The conversion to `int` of a non-negative float is not above the float. -/
theorem toINT_le (f : ℚ) (hf : 0 ≤ f) : ((toINT f : ℤ) : ℚ) ≤ f := by
  unfold toINT
  rw [if_pos hf]
  exact Int.floor_le f

/-- An integer that is not above a float is not above its conversion to `int`. -/
theorem le_toINT (n : ℤ) (f : ℚ) (h : (n : ℚ) ≤ f) : n ≤ toINT f := by
  unfold toINT
  split_ifs
  · exact Int.le_floor.mpr h
  · exact Int.cast_le.mp (le_trans h (Int.le_ceil f))

/-- C29: the enlarged bounding box of `RenderTriangleList` overlooks no pixel.  For a triangle
whose raster vertices have non-negative coordinates, every integer pixel of the closed
triangle, a combination of the vertices with non-negative coefficients that sum to 1, lies
between `left` and `right` and between `bottom` and `top`, hence inside the ranges
`left - 1 <= px < right + 1` and `bottom - 1 <= py < top + 1` of the two pixel loops. -/
theorem enlarged_box_covers_triangle (t : TriangleSetup) (px py : ℤ) (a b c : ℚ)
    (ha : 0 ≤ a) (hb : 0 ≤ b) (hc : 0 ≤ c) (hsum : a + b + c = 1)
    (hx : (px : ℚ) = a * t.v0.x + b * t.v1.x + c * t.v2.x)
    (hy : (py : ℚ) = a * t.v0.y + b * t.v1.y + c * t.v2.y)
    (h0x : 0 ≤ t.v0.x) (h1x : 0 ≤ t.v1.x) (h2x : 0 ≤ t.v2.x)
    (h0y : 0 ≤ t.v0.y) (h1y : 0 ≤ t.v1.y) (h2y : 0 ≤ t.v2.y) :
    (t.left ≤ px ∧ px ≤ t.right ∧ t.bottom ≤ py ∧ py ≤ t.top) ∧
    (t.left - 1 ≤ px ∧ px < t.right + 1 ∧ t.bottom - 1 ≤ py ∧ py < t.top + 1) := by
  have low : ∀ (n : ℤ) (x0 x1 x2 : ℚ), 0 ≤ x0 → 0 ≤ x1 → 0 ≤ x2 →
      (n : ℚ) = a * x0 + b * x1 + c * x2 → min (toINT (min x0 x1)) (toINT x2) ≤ n := by
    intro n x0 x1 x2 p0 p1 p2 hn
    have hmin : 0 ≤ min x0 x1 := le_min p0 p1
    have l01 : ((min (toINT (min x0 x1)) (toINT x2) : ℤ) : ℚ) ≤ min x0 x1 :=
      le_trans (Int.cast_le.mpr (min_le_left _ _)) (toINT_le _ hmin)
    have l0 := le_trans l01 (min_le_left x0 x1)
    have l1 := le_trans l01 (min_le_right x0 x1)
    have l2 : ((min (toINT (min x0 x1)) (toINT x2) : ℤ) : ℚ) ≤ x2 :=
      le_trans (Int.cast_le.mpr (min_le_right _ _)) (toINT_le _ p2)
    have hq : ((min (toINT (min x0 x1)) (toINT x2) : ℤ) : ℚ) ≤ (n : ℚ) := by
      rw [hn]
      have e : ((min (toINT (min x0 x1)) (toINT x2) : ℤ) : ℚ)
          = a * ((min (toINT (min x0 x1)) (toINT x2) : ℤ) : ℚ)
            + b * ((min (toINT (min x0 x1)) (toINT x2) : ℤ) : ℚ)
            + c * ((min (toINT (min x0 x1)) (toINT x2) : ℤ) : ℚ) := by
        rw [← add_mul, ← add_mul, hsum, one_mul]
      have m0 := mul_le_mul_of_nonneg_left l0 ha
      have m1 := mul_le_mul_of_nonneg_left l1 hb
      have m2 := mul_le_mul_of_nonneg_left l2 hc
      linarith
    exact Int.cast_le.mp hq
  have high : ∀ (n : ℤ) (x0 x1 x2 : ℚ),
      (n : ℚ) = a * x0 + b * x1 + c * x2 → n ≤ max (toINT (max x0 x1)) (toINT x2) := by
    intro n x0 x1 x2 hn
    by_cases h2 : (n : ℚ) ≤ x2
    · exact le_trans (le_toINT n x2 h2) (le_max_right _ _)
    · push_neg at h2
      have h01 : (n : ℚ) ≤ max x0 x1 := by
        by_contra hcon
        push_neg at hcon
        have g0 : x0 < (n : ℚ) := lt_of_le_of_lt (le_max_left x0 x1) hcon
        have g1 : x1 < (n : ℚ) := lt_of_le_of_lt (le_max_right x0 x1) hcon
        have e : (n : ℚ) = a * (n : ℚ) + b * (n : ℚ) + c * (n : ℚ) := by
          rw [← add_mul, ← add_mul, hsum, one_mul]
        have m0 := mul_le_mul_of_nonneg_left (le_of_lt g0) ha
        have m1 := mul_le_mul_of_nonneg_left (le_of_lt g1) hb
        have m2 := mul_le_mul_of_nonneg_left (le_of_lt h2) hc
        have r0 : a * ((n : ℚ) - x0) = a * (n : ℚ) - a * x0 := by ring
        have r1 : b * ((n : ℚ) - x1) = b * (n : ℚ) - b * x1 := by ring
        have r2 : c * ((n : ℚ) - x2) = c * (n : ℚ) - c * x2 := by ring
        have z0 : a * ((n : ℚ) - x0) = 0 := by linarith
        have z1 : b * ((n : ℚ) - x1) = 0 := by linarith
        have z2 : c * ((n : ℚ) - x2) = 0 := by linarith
        have a0 : a = 0 := by
          rcases mul_eq_zero.mp z0 with h | h
          · exact h
          · linarith
        have b0 : b = 0 := by
          rcases mul_eq_zero.mp z1 with h | h
          · exact h
          · linarith
        have c0 : c = 0 := by
          rcases mul_eq_zero.mp z2 with h | h
          · exact h
          · linarith
        rw [a0, b0, c0] at hsum
        norm_num at hsum
      exact le_trans (le_toINT n _ h01) (le_max_left _ _)
  have hl : t.left ≤ px := low px t.v0.x t.v1.x t.v2.x h0x h1x h2x hx
  have hr : px ≤ t.right := high px t.v0.x t.v1.x t.v2.x hx
  have hbt : t.bottom ≤ py := low py t.v0.y t.v1.y t.v2.y h0y h1y h2y hy
  have htp : py ≤ t.top := high py t.v0.y t.v1.y t.v2.y hy
  refine ⟨⟨hl, hr, hbt, htp⟩, ?_, ?_, ?_, ?_⟩ <;> omega

/-- In `rasterSetup` the pixel `(3, 4)`, the combination of the corners with coefficients `1/2`,
`1/4`, `1/4`, lies inside the enlarged box. -/
theorem enlarged_box_covers_triangle_witness :
    rasterSetup.left - 1 ≤ 3 ∧ (3 : ℤ) < rasterSetup.right + 1 ∧ rasterSetup.bottom - 1 ≤ 4 ∧
      (4 : ℤ) < rasterSetup.top + 1 :=
  (enlarged_box_covers_triangle rasterSetup 3 4 (1 / 2) (1 / 4) (1 / 4) (by decide!) (by decide!)
    (by decide!) (by decide!) (by decide!) (by decide!) (by decide!) (by decide!) (by decide!)
    (by decide!) (by decide!) (by decide!)).2

/-! ## Buffer indexing -/

/-- A pixel loop each of whose rounds returns and keeps an invariant returns and keeps it. -/
theorem forPixels_some {σ : Type} (inv : σ → Prop) (body : ℤ → σ → Option σ) (count : ℕ) (p : ℤ)
    (s : σ) (hs : inv s)
    (h : ∀ k : ℕ, k < count → ∀ s₁, inv s₁ → ∃ s₂, body (p + k) s₁ = some s₂ ∧ inv s₂) :
    ∃ s', forPixels body count p s = some s' ∧ inv s' := by
  induction count generalizing p s with
  | zero => exact ⟨s, rfl, hs⟩
  | succ n ih =>
    obtain ⟨s₁, hb, hi⟩ := h 0 (Nat.succ_pos n) s hs
    simp only [Nat.cast_zero, add_zero] at hb
    simp only [forPixels, hb, Option.some_bind]
    apply ih (p + 1) s₁ hi
    intro k hk s₂ h₂
    have := h (k + 1) (Nat.succ_lt_succ hk) s₂ h₂
    have e : p + ((k + 1 : ℕ) : ℤ) = p + 1 + (k : ℤ) := by push_cast; ring
    rw [e] at this
    exact this

/-- A range loop each of whose rounds returns and keeps an invariant returns and keeps it. -/
theorem forRange_some {σ : Type} (inv : σ → Prop) (body : ℤ → σ → Option σ) (lo hi : ℤ)
    (s : σ) (hs : inv s)
    (h : ∀ q : ℤ, lo ≤ q → q < hi → ∀ s₁, inv s₁ → ∃ s₂, body q s₁ = some s₂ ∧ inv s₂) :
    ∃ s', forRange lo hi body s = some s' ∧ inv s' := by
  unfold forRange
  apply forPixels_some inv body _ lo s hs
  intro k hk s₁ h₁
  apply h (lo + k) _ _ s₁ h₁
  · omega
  · omega

/-- The pixel body of `RenderTriangleList` returns on every pixel whose buffer position is
valid, and keeps the sizes of the buffers. -/
theorem listPixel_some (E : Externals) (t : TriangleSetup) (px py : ℤ) (width height : ℤ)
    (R : Renderer) (hR : BuffersSized width height R) (h0 : 0 ≤ px + py * width)
    (h1 : px + py * width < width * height) :
    ∃ R', listPixel E t px py R = some R' ∧ BuffersSized width height R' := by
  obtain ⟨hW, hH, hd, hb⟩ := hR
  by_cases hout : t.edgeValueV0 ⟨(px : ℚ), (py : ℚ)⟩ > 0 ∨
      t.edgeValueV1 ⟨(px : ℚ), (py : ℚ)⟩ > 0 ∨ t.edgeValueV2 ⟨(px : ℚ), (py : ℚ)⟩ > 0
  · exact ⟨R, listPixel_outside E t px py R hout, hW, hH, hd, hb⟩
  · push_neg at hout
    rw [listPixel_covered E t px py R hout.1 hout.2.1 hout.2.2, shadePixel_eq]
    generalize interpolatedZDepthWeight t _ _ _ = z
    generalize shadeColor E _ t _ _ _ z = c
    have hidx : 0 ≤ px + py * R.m_Width := by rw [hW]; exact h0
    have hlt : (px + py * R.m_Width).toNat < (width * height).toNat := by
      rw [hW]
      omega
    by_cases hr : z < 0 ∨ z > 1
    · exact ⟨R, depthTestAndWrite_outside E px py z c R hr, hW, hH, hd, hb⟩
    · push_neg at hr
      have hltd : (px + py * R.m_Width).toNat < R.m_pDepthBufferPixels.length := by
        rw [hd]
        exact hlt
      obtain ⟨stored, hstored⟩ :
          ∃ stored, R.m_pDepthBufferPixels[(px + py * R.m_Width).toNat]? = some stored :=
        ⟨_, List.getElem?_eq_getElem hltd⟩
      by_cases hz : stored < z
      · exact ⟨R, depthTestAndWrite_behind E px py z stored c R hidx hstored hz, hW, hH, hd, hb⟩
      · push_neg at hz
        refine ⟨_, depthTestAndWrite_front E px py z stored c R hidx hstored
          (by rw [hb]; exact hlt) hr.1 hr.2 hz, hW, hH, ?_, ?_⟩
        · simp only [writeFragment, List.length_set]
          exact hd
        · simp only [writeFragment, List.length_set]
          exact hb

/-- C28: buffer indexing in `RenderTriangleList` is in bounds.  For a triangle that passes the
bounding-box test, every pixel `(px, py)` of the enlarged loops has `0 <= px <= width - 2` and
`0 <= py <= height - 2`, so the position `px + py * width` lies in `[0, width * height)`; hence
on a renderer whose two pixel arrays hold `width * height` entries the pixel loops read and
write inside the arrays and return, with the arrays at their size. -/
theorem listRasterize_in_bounds (E : Externals) (t : TriangleSetup) (R : Renderer)
    (hbox : listBoxRejects t R = false) :
    (∀ px py : ℤ, t.left - 1 ≤ px → px < t.right + 1 → t.bottom - 1 ≤ py → py < t.top + 1 →
      (0 ≤ px ∧ px ≤ R.m_Width - 2) ∧ (0 ≤ py ∧ py ≤ R.m_Height - 2) ∧
        0 ≤ px + py * R.m_Width ∧ px + py * R.m_Width < R.m_Width * R.m_Height) ∧
    (BuffersSized R.m_Width R.m_Height R →
      ∃ R', listRasterize E t R = some R' ∧ BuffersSized R.m_Width R.m_Height R') := by
  have hb := hbox
  unfold listBoxRejects at hb
  split_ifs at hb with h1 h2
  push_neg at h1 h2
  have bounds : ∀ px py : ℤ, t.left - 1 ≤ px → px < t.right + 1 → t.bottom - 1 ≤ py →
      py < t.top + 1 →
      (0 ≤ px ∧ px ≤ R.m_Width - 2) ∧ (0 ≤ py ∧ py ≤ R.m_Height - 2) ∧
        0 ≤ px + py * R.m_Width ∧ px + py * R.m_Width < R.m_Width * R.m_Height := by
    intro px py hx1 hx2 hy1 hy2
    have a1 : 0 ≤ px := by omega
    have a2 : px ≤ R.m_Width - 2 := by omega
    have a3 : 0 ≤ py := by omega
    have a4 : py ≤ R.m_Height - 2 := by omega
    have hW : 0 ≤ R.m_Width := by omega
    have m1 : 0 ≤ py * R.m_Width := mul_nonneg a3 hW
    have m2 : py * R.m_Width ≤ (R.m_Height - 2) * R.m_Width := mul_le_mul_of_nonneg_right a4 hW
    have e : (R.m_Height - 2) * R.m_Width = R.m_Width * R.m_Height - 2 * R.m_Width := by ring
    refine ⟨⟨a1, a2⟩, ⟨a3, a4⟩, by linarith, by linarith⟩
  refine ⟨bounds, ?_⟩
  intro hsized
  rw [listRasterize_eq, if_neg (by rw [hbox]; exact Bool.false_ne_true)]
  apply forRange_some (BuffersSized R.m_Width R.m_Height) _ _ _ R hsized
  intro px hx1 hx2 R₁ hR₁
  apply forRange_some (BuffersSized R.m_Width R.m_Height) _ _ _ R₁ hR₁
  intro py hy1 hy2 R₂ hR₂
  obtain ⟨-, -, i0, i1⟩ := bounds px py hx1 hx2 hy1 hy2
  exact listPixel_some E t px py R.m_Width R.m_Height R₂ hR₂ i0 i1

/-- The triangle `rasterSetup` passes the bounding-box test of the 8 x 8 renderer, its pixel
`(1, 1)`, the first of the enlarged loops, has the buffer position 9 of 64, and the pixel loops
return. -/
theorem listRasterize_in_bounds_witness :
    ((0 : ℤ) ≤ 1 + 1 * sampleRenderer.m_Width ∧
      (1 : ℤ) + 1 * sampleRenderer.m_Width < sampleRenderer.m_Width * sampleRenderer.m_Height) ∧
    (∃ R', listRasterize sampleExternals rasterSetup sampleRenderer = some R' ∧
      BuffersSized sampleRenderer.m_Width sampleRenderer.m_Height R') :=
  have h := listRasterize_in_bounds sampleExternals rasterSetup sampleRenderer (by decide!)
  ⟨(h.1 1 1 (by decide!) (by decide!) (by decide!) (by decide!)).2.2,
    h.2 ⟨rfl, rfl, by decide, by decide⟩⟩

/-! ## Display mode and geometry -/

/-- A round of the triangle loop of `RenderTriangleList` is its first part followed by the
bounding-box test and the pixel loops. -/
theorem listTriangle_eq (E : Externals) (i : ℕ) (s : Renderer × Mesh) :
    listTriangle E i s
      = (prepareTriangle s.1 s.2 i).bind fun prepared =>
          match prepared with
          | none => some s
          | some (mesh, t) => (listRasterize E t s.1).bind fun R => some (R, mesh) := by
  unfold listTriangle prepareTriangle
  dsimp only
  cases ha : vertexOutAt s.2 i with
  | none => rfl
  | some a =>
    simp only [Option.some_bind]
    cases hfa : IsInFrustum a with
    | false => rfl
    | true =>
      simp only [Bool.not_true, Bool.false_eq_true, if_false]
      cases hb : vertexOutAt s.2 (i + 1) with
      | none => rfl
      | some b =>
        simp only [Option.some_bind]
        cases hfb : IsInFrustum b with
        | false => rfl
        | true =>
          simp only [Bool.not_true, Bool.false_eq_true, if_false]
          cases hc : vertexOutAt s.2 (i + 2) with
          | none => rfl
          | some c =>
            simp only [Option.some_bind]
            cases hfc : IsInFrustum c with
            | false => rfl
            | true =>
              simp only [Bool.not_true, Bool.false_eq_true, if_false]
              cases h1 : rasterizeAt s.1 s.2 i with
              | none => rfl
              | some m1 =>
                simp only [Option.some_bind]
                cases h2 : rasterizeAt s.1 m1 (i + 1) with
                | none => rfl
                | some m2 =>
                  simp only [Option.some_bind]
                  cases h3 : rasterizeAt s.1 m2 (i + 2) with
                  | none => rfl
                  | some m3 =>
                    simp only [Option.some_bind]
                    cases h4 : vertexOutAt m3 i with
                    | none => rfl
                    | some a' =>
                      simp only [Option.some_bind]
                      cases h5 : vertexOutAt m3 (i + 1) with
                      | none => rfl
                      | some b' =>
                        simp only [Option.some_bind]
                        cases h6 : vertexOutAt m3 (i + 2) with
                        | none => rfl
                        | some c' => rfl

/-- The first part of a round reads the renderer only through the screen size. -/
theorem prepareTriangle_congr (R₁ R₂ : Renderer) (mesh : Mesh) (i : ℕ)
    (hW : R₁.m_Width = R₂.m_Width) (hH : R₁.m_Height = R₂.m_Height) :
    prepareTriangle R₁ mesh i = prepareTriangle R₂ mesh i := by
  have hraster : rasterizeAt R₁ = rasterizeAt R₂ := by
    funext m k
    simp only [rasterizeAt, NDCToRaster, hW, hH]
  unfold prepareTriangle
  rw [hraster]

/-- Two pixel loops whose rounds keep a relation between their states, run side by side, keep
it: both stop at an undefined access or both return related states. -/
theorem forPixels_pair {σ τ : Type} (rel : σ → τ → Prop) (body₁ : ℤ → σ → Option σ)
    (body₂ : ℤ → τ → Option τ)
    (h : ∀ p s₁ s₂, rel s₁ s₂ → OptionRel rel (body₁ p s₁) (body₂ p s₂)) (count : ℕ) (p : ℤ)
    (s₁ : σ) (s₂ : τ) (hs : rel s₁ s₂) :
    OptionRel rel (forPixels body₁ count p s₁) (forPixels body₂ count p s₂) := by
  induction count generalizing p s₁ s₂ with
  | zero => exact hs
  | succ n ih =>
    have hb := h p s₁ s₂ hs
    simp only [forPixels]
    cases h₁ : body₁ p s₁ with
    | none =>
      cases h₂ : body₂ p s₂ with
      | none => trivial
      | some b => rw [h₁, h₂] at hb; exact hb.elim
    | some a =>
      cases h₂ : body₂ p s₂ with
      | none => rw [h₁, h₂] at hb; exact hb.elim
      | some b =>
        rw [h₁, h₂] at hb
        exact ih (p + 1) a b hb

/-- Two triangle loops whose rounds keep a relation between their states, run side by side,
keep it. -/
theorem forLoop_pair {σ τ : Type} (rel : σ → τ → Prop) (body₁ : ℕ → σ → Option σ)
    (body₂ : ℕ → τ → Option τ)
    (h : ∀ i s₁ s₂, rel s₁ s₂ → OptionRel rel (body₁ i s₁) (body₂ i s₂)) (stride count i : ℕ)
    (s₁ : σ) (s₂ : τ) (hs : rel s₁ s₂) :
    OptionRel rel (forLoop body₁ stride count i s₁) (forLoop body₂ stride count i s₂) := by
  induction count generalizing i s₁ s₂ with
  | zero => exact hs
  | succ n ih =>
    have hb := h i s₁ s₂ hs
    simp only [forLoop]
    cases h₁ : body₁ i s₁ with
    | none =>
      cases h₂ : body₂ i s₂ with
      | none => trivial
      | some b => rw [h₁, h₂] at hb; exact hb.elim
    | some a =>
      cases h₂ : body₂ i s₂ with
      | none => rw [h₁, h₂] at hb; exact hb.elim
      | some b =>
        rw [h₁, h₂] at hb
        exact ih (i + stride) a b hb

/-- The depth-test-and-write step, run on two renderers of the same geometry for the same
depth and any two colours, leaves two renderers of the same geometry. -/
theorem depthTestAndWrite_pair (E : Externals) (back0 : List ℕ) (px py : ℤ) (z : ℚ)
    (c₁ c₂ : ColorRGB) (R₁ R₂ : Renderer) (h : SameGeometry E back0 R₁ R₂) :
    OptionRel (SameGeometry E back0) (depthTestAndWrite E px py z c₁ R₁)
      (depthTestAndWrite E px py z c₂ R₂) := by
  obtain ⟨hW, hH, hD, hl₁, hl₂, hj⟩ := h
  unfold depthTestAndWrite
  by_cases hr : z < 0 ∨ z > 1
  · simp only [hr, if_true]
    exact ⟨hW, hH, hD, hl₁, hl₂, hj⟩
  · simp only [hr, if_false]
    rw [hW, hD]
    cases hread : readAt R₂.m_pDepthBufferPixels (px + py * R₂.m_Width) with
    | none => trivial
    | some stored =>
      simp only [Option.some_bind]
      by_cases hz : z > stored
      · simp only [hz, if_true]
        exact ⟨hW, hH, hD, hl₁, hl₂, hj⟩
      · simp only [hz, if_false]
        cases hwd : writeAt R₂.m_pDepthBufferPixels (px + py * R₂.m_Width) z with
        | none => trivial
        | some depthBuffer =>
          simp only [Option.some_bind]
          by_cases hin : 0 ≤ px + py * R₂.m_Width ∧ (px + py * R₂.m_Width).toNat < back0.length
          · have hin₁ : 0 ≤ px + py * R₂.m_Width ∧
                (px + py * R₂.m_Width).toNat < R₁.m_pBackBufferPixels.length := by
              rw [hl₁]; exact hin
            have hin₂ : 0 ≤ px + py * R₂.m_Width ∧
                (px + py * R₂.m_Width).toNat < R₂.m_pBackBufferPixels.length := by
              rw [hl₂]; exact hin
            simp only [writeAt, hin₁, hin₂, and_self, if_true, Option.some_bind]
            refine ⟨rfl, hH, rfl, by simp [hl₁], by simp [hl₂], ?_⟩
            intro j
            simp only
            by_cases hij : (px + py * R₂.m_Width).toNat = j
            · right
              refine ⟨c₁, c₂, ?_, ?_⟩
              · subst hij
                exact List.getElem?_set_self hin₁.2
              · subst hij
                exact List.getElem?_set_self hin₂.2
            · simp only [List.getElem?_set_ne hij]
              exact hj j
          · have hin₁ : ¬ (0 ≤ px + py * R₂.m_Width ∧
                (px + py * R₂.m_Width).toNat < R₁.m_pBackBufferPixels.length) := by
              rw [hl₁]; exact hin
            have hin₂ : ¬ (0 ≤ px + py * R₂.m_Width ∧
                (px + py * R₂.m_Width).toNat < R₂.m_pBackBufferPixels.length) := by
              rw [hl₂]; exact hin
            simp only [writeAt, hin₁, hin₂, if_false, Option.none_bind]
            trivial

/-- The pixel body of `RenderTriangleList`, run on two renderers of the same geometry, leaves
two renderers of the same geometry, whatever their display modes. -/
theorem listPixel_pair (E : Externals) (back0 : List ℕ) (t : TriangleSetup) (px py : ℤ)
    (R₁ R₂ : Renderer) (h : SameGeometry E back0 R₁ R₂) :
    OptionRel (SameGeometry E back0) (listPixel E t px py R₁) (listPixel E t px py R₂) := by
  by_cases hout : t.edgeValueV0 ⟨(px : ℚ), (py : ℚ)⟩ > 0 ∨
      t.edgeValueV1 ⟨(px : ℚ), (py : ℚ)⟩ > 0 ∨ t.edgeValueV2 ⟨(px : ℚ), (py : ℚ)⟩ > 0
  · rw [listPixel_outside E t px py R₁ hout, listPixel_outside E t px py R₂ hout]
    exact h
  · push_neg at hout
    rw [listPixel_covered E t px py R₁ hout.1 hout.2.1 hout.2.2,
      listPixel_covered E t px py R₂ hout.1 hout.2.1 hout.2.2, shadePixel_eq, shadePixel_eq]
    exact depthTestAndWrite_pair E back0 px py _ _ _ R₁ R₂ h

/-- The bounding-box test and the pixel loops of `RenderTriangleList`, run on two renderers of
the same geometry, leave two renderers of the same geometry. -/
theorem listRasterize_pair (E : Externals) (back0 : List ℕ) (t : TriangleSetup)
    (R₁ R₂ : Renderer) (h : SameGeometry E back0 R₁ R₂) :
    OptionRel (SameGeometry E back0) (listRasterize E t R₁) (listRasterize E t R₂) := by
  have hbox : listBoxRejects t R₁ = listBoxRejects t R₂ := by
    unfold listBoxRejects
    rw [h.1, h.2.1]
  rw [listRasterize_eq, listRasterize_eq, hbox]
  by_cases hrej : listBoxRejects t R₂ = true
  · simp only [hrej, if_true]
    exact h
  · simp only [hrej, if_false]
    unfold forRange
    apply forPixels_pair (SameGeometry E back0) _ _ _ _ _ R₁ R₂ h
    intro px S₁ S₂ hS
    apply forPixels_pair (SameGeometry E back0) _ _ _ _ _ S₁ S₂ hS
    intro py T₁ T₂ hT
    exact listPixel_pair E back0 t px py T₁ T₂ hT

/-- A round of the triangle loop of `RenderTriangleList`, run on two renderers of the same
geometry with the same mesh, leaves two renderers of the same geometry with the same mesh. -/
theorem listTriangle_pair (E : Externals) (back0 : List ℕ) (i : ℕ) (s₁ s₂ : Renderer × Mesh)
    (h : SameGeometry E back0 s₁.1 s₂.1 ∧ s₁.2 = s₂.2) :
    OptionRel (fun a b : Renderer × Mesh => SameGeometry E back0 a.1 b.1 ∧ a.2 = b.2)
      (listTriangle E i s₁) (listTriangle E i s₂) := by
  obtain ⟨hg, hm⟩ := h
  rw [listTriangle_eq, listTriangle_eq, hm, prepareTriangle_congr s₁.1 s₂.1 s₂.2 i hg.1 hg.2.1]
  cases hprep : prepareTriangle s₂.1 s₂.2 i with
  | none => trivial
  | some prepared =>
    simp only [Option.some_bind]
    cases prepared with
    | none => exact ⟨hg, hm⟩
    | some mt =>
      obtain ⟨mesh, t⟩ := mt
      have hr := listRasterize_pair E back0 t s₁.1 s₂.1 hg
      simp only
      cases h₁ : listRasterize E t s₁.1 with
      | none =>
        cases h₂ : listRasterize E t s₂.1 with
        | none => trivial
        | some b => rw [h₁, h₂] at hr; exact hr.elim
      | some a =>
        cases h₂ : listRasterize E t s₂.1 with
        | none => rw [h₁, h₂] at hr; exact hr.elim
        | some b =>
          rw [h₁, h₂] at hr
          exact ⟨hr, rfl⟩

/-- C23: the display mode has no geometric effect.  `RenderTriangleList`, run on the same
renderer and mesh in `FinalColor` mode and in `DepthBuffer` mode, stops at an undefined access
in both modes or returns in both, with the same depth buffer and the same mesh; and every
colour pixel is either untouched in both runs or written in both, each with a colour packed by
the pixel body.  Only the colour values differ. -/
theorem displayMode_no_geometric_effect (E : Externals) (R : Renderer) (mesh : Mesh) :
    (RenderTriangleList E { R with m_CurrentDisplayMode := DisplayMode.FinalColor } mesh).map
        (fun s => (s.1.m_pDepthBufferPixels, s.2))
      = (RenderTriangleList E { R with m_CurrentDisplayMode := DisplayMode.DepthBuffer } mesh).map
        (fun s => (s.1.m_pDepthBufferPixels, s.2)) ∧
    (∀ s₁ s₂ : Renderer × Mesh,
      RenderTriangleList E { R with m_CurrentDisplayMode := DisplayMode.FinalColor } mesh
        = some s₁ →
      RenderTriangleList E { R with m_CurrentDisplayMode := DisplayMode.DepthBuffer } mesh
        = some s₂ →
      s₁.1.m_pBackBufferPixels.length = R.m_pBackBufferPixels.length ∧
      s₂.1.m_pBackBufferPixels.length = R.m_pBackBufferPixels.length ∧
      ∀ j : ℕ,
        (s₁.1.m_pBackBufferPixels[j]? = R.m_pBackBufferPixels[j]? ∧
          s₂.1.m_pBackBufferPixels[j]? = R.m_pBackBufferPixels[j]?) ∨
        (∃ c₁ c₂ : ColorRGB, s₁.1.m_pBackBufferPixels[j]? = some (packColor E c₁) ∧
          s₂.1.m_pBackBufferPixels[j]? = some (packColor E c₂))) := by
  have init : SameGeometry E R.m_pBackBufferPixels
      { R with m_CurrentDisplayMode := DisplayMode.FinalColor }
      { R with m_CurrentDisplayMode := DisplayMode.DepthBuffer } :=
    ⟨rfl, rfl, rfl, rfl, rfl, fun j => Or.inl ⟨rfl, rfl⟩⟩
  have key := forLoop_pair
    (fun a b : Renderer × Mesh => SameGeometry E R.m_pBackBufferPixels a.1 b.1 ∧ a.2 = b.2)
    (listTriangle E) (listTriangle E) (listTriangle_pair E R.m_pBackBufferPixels) 3
    (listRounds mesh.indices.length) 0
    ({ R with m_CurrentDisplayMode := DisplayMode.FinalColor }, mesh)
    ({ R with m_CurrentDisplayMode := DisplayMode.DepthBuffer }, mesh) ⟨init, rfl⟩
  unfold RenderTriangleList
  cases h₁ : forLoop (listTriangle E) 3 (listRounds mesh.indices.length) 0
      ({ R with m_CurrentDisplayMode := DisplayMode.FinalColor }, mesh) with
  | none =>
    cases h₂ : forLoop (listTriangle E) 3 (listRounds mesh.indices.length) 0
        ({ R with m_CurrentDisplayMode := DisplayMode.DepthBuffer }, mesh) with
    | none =>
      refine ⟨rfl, ?_⟩
      intro s₁ s₂ e₁
      cases e₁
    | some b => rw [h₁, h₂] at key; exact key.elim
  | some a =>
    cases h₂ : forLoop (listTriangle E) 3 (listRounds mesh.indices.length) 0
        ({ R with m_CurrentDisplayMode := DisplayMode.DepthBuffer }, mesh) with
    | none => rw [h₁, h₂] at key; exact key.elim
    | some b =>
      rw [h₁, h₂] at key
      obtain ⟨⟨-, -, hD, hl₁, hl₂, hj⟩, hm⟩ := key
      refine ⟨?_, ?_⟩
      · simp only [Option.map_some', hD, hm]
      · intro s₁ s₂ e₁ e₂
        cases e₁
        cases e₂
        exact ⟨hl₁, hl₂, hj⟩

/-- On the 8 x 8 renderer the triangle of `triangleMesh` leaves the same depth buffer and the
same mesh in both display modes. -/
theorem displayMode_no_geometric_effect_witness :
    (RenderTriangleList sampleExternals
        { sampleRenderer with m_CurrentDisplayMode := DisplayMode.FinalColor } triangleMesh).map
        (fun s => (s.1.m_pDepthBufferPixels, s.2))
      = (RenderTriangleList sampleExternals
        { sampleRenderer with m_CurrentDisplayMode := DisplayMode.DepthBuffer } triangleMesh).map
        (fun s => (s.1.m_pDepthBufferPixels, s.2)) :=
  (displayMode_no_geometric_effect sampleExternals sampleRenderer triangleMesh).1

/-! ## Loop bounds -/

/-- C31: the bound `mesh.vertices_out.size() - 2` of the triangle loop of `RenderTriangleStrip`
is computed in `size_t` and wraps below two vertices.  With two vertices the loop makes no
round and the renderer is left as it is.  The empty mesh gives `2 ^ 64 - 2` rounds, the first
of which reads `indices[0]` of an empty index sequence; a mesh with one vertex gives
`2 ^ 64 - 1` rounds, the first of which reads its three corners and the second of which reads
`indices[3]` past the end of its three indices. -/
theorem RenderTriangleStrip_small_mesh_wraps :
    (∀ (E : Externals) (R : Renderer) (mesh : Mesh), mesh.vertices_out.length = 2 →
      stripRounds mesh = 0 ∧ RenderTriangleStrip E R mesh = some R) ∧
    (stripRounds twoVertexStripMesh = 0 ∧
      RenderTriangleStrip sampleExternals sampleRenderer twoVertexStripMesh
        = some sampleRenderer) ∧
    (emptyStripMesh.vertices_out.length = 0 ∧ stripRounds emptyStripMesh = 2 ^ 64 - 2 ∧
      stripIndices emptyStripMesh 0 = none ∧
      RenderTriangleStrip sampleExternals sampleRenderer emptyStripMesh = none) ∧
    (oneVertexStripMesh.vertices_out.length = 1 ∧ stripRounds oneVertexStripMesh = 2 ^ 64 - 1 ∧
      (stripCorners oneVertexStripMesh 0).isSome = true ∧
      stripIndices oneVertexStripMesh 1 = none ∧
      RenderTriangleStrip sampleExternals sampleRenderer oneVertexStripMesh = none) := by
  refine ⟨?_, by decide!, by decide!, by decide!⟩
  intro E R mesh h
  have h0 : stripRounds mesh = 0 := by
    unfold stripRounds
    rw [h]
    norm_num
  refine ⟨h0, ?_⟩
  unfold RenderTriangleStrip
  rw [h0]
  rfl

/-- C32: the triangle loop of `RenderTriangleList` runs while `i < n` and reads `indices[i + 1]`
and `indices[i + 2]` without a test.  For the single index `[0]` over a vertex inside the
frustum the loop makes one round, not `1 / 3 = 0`, and that round reads `indices[1]` past the
end.  For the four indices `[0, 1, 2, 3]` it makes two rounds, not `4 / 3 = 1`: the first
returns, the second reads `indices[4]` past the end.  When the length is a multiple of 3 the
number of rounds is a third of it. -/
theorem RenderTriangleList_reads_past_end :
    (∀ n : ℕ, n % 3 = 0 → listRounds n = n / 3) ∧
    (singleIndexMesh.indices.length = 1 ∧ listRounds 1 = 1 ∧ 1 / 3 = 0 ∧
      (vertexOutAt singleIndexMesh 0).map IsInFrustum = some true ∧
      singleIndexMesh.indices[0 + 1]? = none ∧
      RenderTriangleList sampleExternals sampleRenderer singleIndexMesh = none) ∧
    (fourIndexMesh.indices.length = 4 ∧ listRounds 4 = 2 ∧ 4 / 3 = 1 ∧
      (listTriangle sampleExternals 0 (sampleRenderer, fourIndexMesh)).isSome = true ∧
      (vertexOutAt fourIndexMesh 3).map IsInFrustum = some true ∧
      fourIndexMesh.indices[3 + 1]? = none ∧
      RenderTriangleList sampleExternals sampleRenderer fourIndexMesh = none) := by
  refine ⟨?_, by decide!, by decide!⟩
  intro n h
  unfold listRounds
  omega

/-! ## Depth divisors -/

/-- A vertex that passes `IsInFrustum` has its depth in `[0, 1]`. -/
theorem IsInFrustum_depth (v : Vertex_Out) (h : IsInFrustum v = true) :
    0 ≤ v.position.z ∧ v.position.z ≤ 1 := by
  unfold IsInFrustum at h
  split_ifs at h with hx hy hz
  push_neg at hz
  exact hz

/-- The statement `NDCToRaster(mesh.vertices_out[mesh.indices[k]])` keeps the indices and the
depth of every vertex. -/
theorem rasterizeAt_depths (R : Renderer) (mesh mesh' : Mesh) (k : ℕ)
    (h : rasterizeAt R mesh k = some mesh') :
    mesh'.indices = mesh.indices ∧
      mesh'.vertices_out.map (fun v => v.position.z)
        = mesh.vertices_out.map (fun v => v.position.z) := by
  unfold rasterizeAt at h
  cases hidx : mesh.indices[k]? with
  | none => simp [hidx] at h
  | some idx =>
    simp only [hidx, Option.some_bind] at h
    cases hv : mesh.vertices_out[idx]? with
    | none => simp [hv] at h
    | some v =>
      simp only [hv, Option.some_bind, Option.some.injEq] at h
      subst h
      refine ⟨rfl, ?_⟩
      simp only [List.map_set]
      apply set_stored_eq
      rw [List.getElem?_map, hv]
      rfl

/-- Two meshes with the same indices and the same vertex depths give the same depth for the
vertex read through the index at position `k`. -/
theorem vertexOutAt_depth (mesh mesh' : Mesh) (k : ℕ) (hi : mesh'.indices = mesh.indices)
    (hz : mesh'.vertices_out.map (fun v => v.position.z)
      = mesh.vertices_out.map (fun v => v.position.z)) :
    (vertexOutAt mesh' k).map (fun v => v.position.z)
      = (vertexOutAt mesh k).map (fun v => v.position.z) := by
  unfold vertexOutAt
  rw [hi]
  cases mesh.indices[k]? with
  | none => rfl
  | some idx =>
    simp only [Option.some_bind]
    rw [← List.getElem?_map, ← List.getElem?_map, hz]

/-- C33 (as amended): frustum acceptance bounds the depth divisors, it does not keep them away
from zero.  For a triangle that passes the frustum check of `RenderTriangleList`, the divisors
`depthV0`, `depthV1`, `depthV2` are the depths of the three vertices that passed `IsInFrustum`
(the raster mapping leaves them as they are), each in `[0, 1]`; they are all non-zero when the
three depths are strictly positive. -/
theorem frustum_bounds_depth_divisors (R : Renderer) (mesh mesh' : Mesh) (i : ℕ)
    (t : TriangleSetup) (h : prepareTriangle R mesh i = some (some (mesh', t))) :
    ∃ a b c : Vertex_Out,
      (vertexOutAt mesh i = some a ∧ vertexOutAt mesh (i + 1) = some b ∧
        vertexOutAt mesh (i + 2) = some c) ∧
      (IsInFrustum a = true ∧ IsInFrustum b = true ∧ IsInFrustum c = true) ∧
      (t.depthV0 = a.position.z ∧ t.depthV1 = b.position.z ∧ t.depthV2 = c.position.z) ∧
      ((0 ≤ t.depthV0 ∧ t.depthV0 ≤ 1) ∧ (0 ≤ t.depthV1 ∧ t.depthV1 ≤ 1) ∧
        (0 ≤ t.depthV2 ∧ t.depthV2 ≤ 1)) ∧
      (0 < a.position.z → 0 < b.position.z → 0 < c.position.z →
        t.depthV0 ≠ 0 ∧ t.depthV1 ≠ 0 ∧ t.depthV2 ≠ 0) := by
  unfold prepareTriangle at h
  cases ha : vertexOutAt mesh i with
  | none => simp [ha] at h
  | some a =>
    simp only [ha, Option.some_bind] at h
    cases hfa : IsInFrustum a with
    | false => simp [hfa] at h
    | true =>
      simp only [hfa, Bool.not_true, Bool.false_eq_true, if_false] at h
      cases hb : vertexOutAt mesh (i + 1) with
      | none => simp [hb] at h
      | some b =>
        simp only [hb, Option.some_bind] at h
        cases hfb : IsInFrustum b with
        | false => simp [hfb] at h
        | true =>
          simp only [hfb, Bool.not_true, Bool.false_eq_true, if_false] at h
          cases hc : vertexOutAt mesh (i + 2) with
          | none => simp [hc] at h
          | some c =>
            simp only [hc, Option.some_bind] at h
            cases hfc : IsInFrustum c with
            | false => simp [hfc] at h
            | true =>
              simp only [hfc, Bool.not_true, Bool.false_eq_true, if_false,
                Option.bind_eq_some] at h
              obtain ⟨m1, h1, m2, h2, m3, h3, a', h4, b', h5, c', h6, h⟩ := h
              simp only [Option.some.injEq, Prod.mk.injEq] at h
              obtain ⟨-, ht⟩ := h
              obtain ⟨i1, z1⟩ := rasterizeAt_depths R mesh m1 i h1
              obtain ⟨i2, z2⟩ := rasterizeAt_depths R m1 m2 (i + 1) h2
              obtain ⟨i3, z3⟩ := rasterizeAt_depths R m2 m3 (i + 2) h3
              have hi : m3.indices = mesh.indices := by rw [i3, i2, i1]
              have hz : m3.vertices_out.map (fun v => v.position.z)
                  = mesh.vertices_out.map (fun v => v.position.z) := by rw [z3, z2, z1]
              have e0 := vertexOutAt_depth mesh m3 i hi hz
              have e1 := vertexOutAt_depth mesh m3 (i + 1) hi hz
              have e2 := vertexOutAt_depth mesh m3 (i + 2) hi hz
              rw [h4, ha] at e0
              rw [h5, hb] at e1
              rw [h6, hc] at e2
              simp only [Option.map_some', Option.some.injEq] at e0 e1 e2
              have d0 : t.depthV0 = a.position.z := by rw [← ht]; exact e0
              have d1 : t.depthV1 = b.position.z := by rw [← ht]; exact e1
              have d2 : t.depthV2 = c.position.z := by rw [← ht]; exact e2
              refine ⟨a, b, c, ⟨rfl, rfl, rfl⟩, ⟨hfa, hfb, hfc⟩, ⟨d0, d1, d2⟩, ?_, ?_⟩
              · rw [d0, d1, d2]
                exact ⟨IsInFrustum_depth a hfa, IsInFrustum_depth b hfb, IsInFrustum_depth c hfc⟩
              · intro p0 p1 p2
                rw [d0, d1, d2]
                exact ⟨ne_of_gt p0, ne_of_gt p1, ne_of_gt p2⟩

/-- The triangle of `triangleMesh` passes the frustum check on the 8 x 8 renderer and becomes
`rasterSetup`, whose three depth divisors are the depth `1/2` of its vertices. -/
theorem frustum_bounds_depth_divisors_witness :
    ∃ a b c : Vertex_Out,
      (vertexOutAt triangleMesh 0 = some a ∧ vertexOutAt triangleMesh (0 + 1) = some b ∧
        vertexOutAt triangleMesh (0 + 2) = some c) ∧
      (rasterSetup.depthV0 = a.position.z ∧ rasterSetup.depthV1 = b.position.z ∧
        rasterSetup.depthV2 = c.position.z) := by
  obtain ⟨a, b, c, h1, -, h3, -⟩ :=
    frustum_bounds_depth_divisors sampleRenderer triangleMesh
      { triangleMesh with
        vertices_out :=
          [sampleVertexOut 2 2 (1 / 2) 1, sampleVertexOut 2 6 (1 / 2) 1,
            sampleVertexOut 6 6 (1 / 2) 1] }
      0 rasterSetup (by decide!)
  exact ⟨a, b, c, h1, h3⟩

/-- C33 (as stated) fails: the three vertices of `zeroDepthMesh` pass `IsInFrustum`, the first
with the depth 0; the triangle passes the frustum check and the box test, its divisor `depthV0`
is 0, and pixel `(3, 4)` is covered, so the pixel body computes `1 / depthV0` there. -/
theorem frustum_depth_divisors_counterexample :
    zeroDepthMesh.vertices_out.map IsInFrustum = [true, true, true] ∧
    (prepareTriangle sampleRenderer zeroDepthMesh 0).map
        (fun prepared => prepared.map fun mt =>
          (mt.2.depthV0, mt.2.depthV1, mt.2.depthV2, listBoxRejects mt.2 sampleRenderer,
            decide (mt.2.edgeValueV0 ⟨3, 4⟩ ≤ 0 ∧ mt.2.edgeValueV1 ⟨3, 4⟩ ≤ 0 ∧
              mt.2.edgeValueV2 ⟨3, 4⟩ ≤ 0)))
      = some (some (0, 1 / 2, 1 / 2, false, true)) := by
  decide!


/-! ## The depth buffer as a running minimum -/

/-- A triangle with a non-zero area that covers a pixel has a negative area. -/
theorem covered_area_neg (t : TriangleSetup) (pixel : Vector2) (harea : t.areaTriangle ≠ 0)
    (h0 : t.edgeValueV0 pixel ≤ 0) (h1 : t.edgeValueV1 pixel ≤ 0)
    (h2 : t.edgeValueV2 pixel ≤ 0) : t.areaTriangle < 0 := by
  have hsum := edgeValues_sum t pixel
  have hle : t.areaTriangle ≤ 0 := by linarith
  exact lt_of_le_of_ne hle harea

/-- For strictly positive vertex depths and weights that are at least zero and add up to one,
the sum under the outer reciprocal of `interpolatedZDepthWeight` is strictly positive. -/
theorem depthDivisor_pos (t : TriangleSetup) (w0 w1 w2 : ℚ) (hd0 : 0 < t.depthV0)
    (hd1 : 0 < t.depthV1) (hd2 : 0 < t.depthV2) (hw0 : 0 ≤ w0) (hw1 : 0 ≤ w1) (hw2 : 0 ≤ w2)
    (hsum : w0 + w1 + w2 = 1) :
    0 < (1 / t.depthV0) * w0 + (1 / t.depthV1) * w1 + (1 / t.depthV2) * w2 := by
  have m0 : 0 < 1 / t.depthV0 := one_div_pos.mpr hd0
  have m1 : 0 < 1 / t.depthV1 := one_div_pos.mpr hd1
  have m2 : 0 < 1 / t.depthV2 := one_div_pos.mpr hd2
  have t0 : 0 ≤ (1 / t.depthV0) * w0 := mul_nonneg m0.le hw0
  have t1 : 0 ≤ (1 / t.depthV1) * w1 := mul_nonneg m1.le hw1
  have t2 : 0 ≤ (1 / t.depthV2) * w2 := mul_nonneg m2.le hw2
  by_cases p0 : 0 < w0
  · have := mul_pos m0 p0
    linarith
  by_cases p1 : 0 < w1
  · have := mul_pos m1 p1
    linarith
  have p2 : 0 < w2 := by
    push_neg at p0 p1
    linarith
  have := mul_pos m2 p2
  linarith

/-- C15 (as amended): for a triangle whose signed area is non-zero and whose three vertex
depths are strictly positive, the depth buffer holds the minimum depth seen so far.  At every
pixel that passes the inside test the three divided weights are at least zero and add up to one
and the sum under the outer reciprocal of the interpolated depth is strictly positive, so no
division of the depth computation has a zero divisor; the pixel loops of `RenderTriangleList`
for the triangle, and the round of the triangle loop that draws it, never raise a depth entry;
and a covered pixel whose buffer position is valid leaves at that position the minimum of the
stored depth and the interpolated depth `z` when `z` lies in `[0, 1]`, and the stored depth
otherwise. -/
theorem depthBuffer_holds_minimum (E : Externals) (t : TriangleSetup)
    (harea : t.areaTriangle ≠ 0) (hd0 : 0 < t.depthV0) (hd1 : 0 < t.depthV1)
    (hd2 : 0 < t.depthV2) :
    (∀ px py : ℤ,
      t.edgeValueV0 ⟨(px : ℚ), (py : ℚ)⟩ ≤ 0 → t.edgeValueV1 ⟨(px : ℚ), (py : ℚ)⟩ ≤ 0 →
      t.edgeValueV2 ⟨(px : ℚ), (py : ℚ)⟩ ≤ 0 →
      0 ≤ t.edgeValueV0 ⟨(px : ℚ), (py : ℚ)⟩ / t.areaTriangle ∧
      0 ≤ t.edgeValueV1 ⟨(px : ℚ), (py : ℚ)⟩ / t.areaTriangle ∧
      0 ≤ t.edgeValueV2 ⟨(px : ℚ), (py : ℚ)⟩ / t.areaTriangle ∧
      t.edgeValueV0 ⟨(px : ℚ), (py : ℚ)⟩ / t.areaTriangle
        + t.edgeValueV1 ⟨(px : ℚ), (py : ℚ)⟩ / t.areaTriangle
        + t.edgeValueV2 ⟨(px : ℚ), (py : ℚ)⟩ / t.areaTriangle = 1 ∧
      0 < (1 / t.depthV0) * (t.edgeValueV0 ⟨(px : ℚ), (py : ℚ)⟩ / t.areaTriangle)
        + (1 / t.depthV1) * (t.edgeValueV1 ⟨(px : ℚ), (py : ℚ)⟩ / t.areaTriangle)
        + (1 / t.depthV2) * (t.edgeValueV2 ⟨(px : ℚ), (py : ℚ)⟩ / t.areaTriangle)) ∧
    (∀ R R' : Renderer, listRasterize E t R = some R' → DepthNotAbove R' R) ∧
    (∀ (i : ℕ) (s s' : Renderer × Mesh),
      (prepareTriangle s.1 s.2 i).map (Option.map Prod.snd) = some (some t) →
      listTriangle E i s = some s' → DepthNotAbove s'.1 s.1) ∧
    (∀ (px py : ℤ) (R : Renderer) (z stored : ℚ),
      t.edgeValueV0 ⟨(px : ℚ), (py : ℚ)⟩ ≤ 0 → t.edgeValueV1 ⟨(px : ℚ), (py : ℚ)⟩ ≤ 0 →
      t.edgeValueV2 ⟨(px : ℚ), (py : ℚ)⟩ ≤ 0 →
      z = interpolatedZDepthWeight t (t.edgeValueV0 ⟨(px : ℚ), (py : ℚ)⟩ / t.areaTriangle)
        (t.edgeValueV1 ⟨(px : ℚ), (py : ℚ)⟩ / t.areaTriangle)
        (t.edgeValueV2 ⟨(px : ℚ), (py : ℚ)⟩ / t.areaTriangle) →
      0 ≤ px + py * R.m_Width →
      R.m_pDepthBufferPixels[(px + py * R.m_Width).toNat]? = some stored →
      (px + py * R.m_Width).toNat < R.m_pBackBufferPixels.length →
      0 < z ∧
      ∃ R' : Renderer, listPixel E t px py R = some R' ∧
        R'.m_pDepthBufferPixels[(px + py * R.m_Width).toNat]?
          = some (if 0 ≤ z ∧ z ≤ 1 then min stored z else stored)) := by
  have hweights : ∀ px py : ℤ,
      t.edgeValueV0 ⟨(px : ℚ), (py : ℚ)⟩ ≤ 0 → t.edgeValueV1 ⟨(px : ℚ), (py : ℚ)⟩ ≤ 0 →
      t.edgeValueV2 ⟨(px : ℚ), (py : ℚ)⟩ ≤ 0 →
      0 ≤ t.edgeValueV0 ⟨(px : ℚ), (py : ℚ)⟩ / t.areaTriangle ∧
      0 ≤ t.edgeValueV1 ⟨(px : ℚ), (py : ℚ)⟩ / t.areaTriangle ∧
      0 ≤ t.edgeValueV2 ⟨(px : ℚ), (py : ℚ)⟩ / t.areaTriangle ∧
      t.edgeValueV0 ⟨(px : ℚ), (py : ℚ)⟩ / t.areaTriangle
        + t.edgeValueV1 ⟨(px : ℚ), (py : ℚ)⟩ / t.areaTriangle
        + t.edgeValueV2 ⟨(px : ℚ), (py : ℚ)⟩ / t.areaTriangle = 1 ∧
      0 < (1 / t.depthV0) * (t.edgeValueV0 ⟨(px : ℚ), (py : ℚ)⟩ / t.areaTriangle)
        + (1 / t.depthV1) * (t.edgeValueV1 ⟨(px : ℚ), (py : ℚ)⟩ / t.areaTriangle)
        + (1 / t.depthV2) * (t.edgeValueV2 ⟨(px : ℚ), (py : ℚ)⟩ / t.areaTriangle) := by
    intro px py h0 h1 h2
    have hneg := covered_area_neg t ⟨(px : ℚ), (py : ℚ)⟩ harea h0 h1 h2
    have w0 := div_nonneg_of_nonpos h0 hneg.le
    have w1 := div_nonneg_of_nonpos h1 hneg.le
    have w2 := div_nonneg_of_nonpos h2 hneg.le
    have hsum : t.edgeValueV0 ⟨(px : ℚ), (py : ℚ)⟩ / t.areaTriangle
        + t.edgeValueV1 ⟨(px : ℚ), (py : ℚ)⟩ / t.areaTriangle
        + t.edgeValueV2 ⟨(px : ℚ), (py : ℚ)⟩ / t.areaTriangle = 1 := by
      rw [← add_div, ← add_div, edgeValues_sum]
      exact div_self harea
    exact ⟨w0, w1, w2, hsum, depthDivisor_pos t _ _ _ hd0 hd1 hd2 w0 w1 w2 hsum⟩
  refine ⟨hweights, fun R R' h => listRasterize_notAbove E t R R' h, ?_, ?_⟩
  · intro i s s' hprep h
    rw [listTriangle_eq] at h
    cases hp : prepareTriangle s.1 s.2 i with
    | none => simp [hp] at hprep
    | some prepared =>
      cases prepared with
      | none => simp [hp] at hprep
      | some mt =>
        obtain ⟨mesh, t'⟩ := mt
        simp only [hp, Option.map_some', Option.some.injEq] at hprep
        subst hprep
        simp only [hp, Option.some_bind, Option.bind_eq_some] at h
        obtain ⟨R', hR, h⟩ := h
        cases h
        exact listRasterize_notAbove E _ _ _ hR
  · intro px py R z stored h0 h1 h2 hz hidx hstored hback
    have hpos : 0 < z := by
      rw [hz]
      unfold interpolatedZDepthWeight
      exact one_div_pos.mpr (hweights px py h0 h1 h2).2.2.2.2
    refine ⟨hpos, ?_⟩
    have hlist := listPixel_covered E t px py R h0 h1 h2
    rw [shadePixel_eq, ← hz] at hlist
    have hlt : (px + py * R.m_Width).toNat < R.m_pDepthBufferPixels.length :=
      (List.getElem?_eq_some.mp hstored).1
    by_cases hr : 0 ≤ z ∧ z ≤ 1
    · by_cases hzs : z ≤ stored
      · refine ⟨_, hlist.trans
          (depthTestAndWrite_front E px py z stored _ R hidx hstored hback hr.1 hr.2 hzs), ?_⟩
        simp only [writeFragment, hr, and_self, if_true, min_eq_right hzs]
        exact List.getElem?_set_self hlt
      · push_neg at hzs
        refine ⟨R, hlist.trans (depthTestAndWrite_behind E px py z stored _ R hidx hstored hzs), ?_⟩
        simp only [hr, and_self, if_true, min_eq_left (le_of_lt hzs)]
        exact hstored
    · refine ⟨R, hlist.trans (depthTestAndWrite_outside E px py z _ R ?_), ?_⟩
      · by_contra hcon
        push_neg at hcon
        exact hr hcon
      · simp only [hr, if_false]
        exact hstored

/-- The triangle `rasterSetup`, the one of `triangleMesh` on the 8 x 8 renderer, has the area
`-16` and the depth `1/2` at its three corners; the round that draws it raises no depth entry,
and pixel `(3, 4)`, at depth `1/2` against the stored 1, is left at `min 1 (1/2)`. -/
theorem depthBuffer_holds_minimum_witness :
    (rasterSetup.areaTriangle = -16 ∧ rasterSetup.depthV0 = 1 / 2 ∧
      rasterSetup.depthV1 = 1 / 2 ∧ rasterSetup.depthV2 = 1 / 2) ∧
    (∃ s' : Renderer × Mesh,
      listTriangle sampleExternals 0 (sampleRenderer, triangleMesh) = some s' ∧
        DepthNotAbove s'.1 sampleRenderer) ∧
    (∃ R' : Renderer, listPixel sampleExternals rasterSetup 3 4 sampleRenderer = some R' ∧
      R'.m_pDepthBufferPixels[35]? = some (min 1 (1 / 2))) := by
  have key := depthBuffer_holds_minimum sampleExternals rasterSetup (by decide!) (by decide!)
    (by decide!) (by decide!)
  refine ⟨by decide!, ?_, ?_⟩
  · cases h : listTriangle sampleExternals 0 (sampleRenderer, triangleMesh) with
    | none => exact absurd h (by decide!)
    | some s' => exact ⟨s', rfl, key.2.2.1 0 (sampleRenderer, triangleMesh) s' (by decide!) h⟩
  · obtain ⟨-, R', h1, h2⟩ :=
      key.2.2.2 3 4 sampleRenderer (1 / 2) 1
        (by decide!) (by decide!) (by decide!) (by decide!) (by decide!) (by decide!)
        (by decide!)
    refine ⟨R', h1, ?_⟩
    rw [if_pos (by norm_num)] at h2
    exact h2

/-- C15 (as stated) fails for a triangle of zero area: the corners of `collinearMesh` land on
the collinear `(2, 2)`, `(4, 4)`, `(6, 6)`, the area is zero, and pixel `(3, 3)`, whose three
edge values are zero, passes the inside test.  Its weights are quotients by the zero area, so
the pixel has no interpolated depth in `[0, 1]` (in IEEE arithmetic `0 / 0` is NaN, for which
`z < 0 || z > 1` and `z > stored` are both false); the depth entry of the pixel, which held
`1/4`, is overwritten all the same. -/
theorem depthBuffer_minimum_counterexample :
    (prepareTriangle staleRenderer collinearMesh 0).map (Option.map Prod.snd)
      = some (some collinearSetup) ∧
    collinearSetup.areaTriangle = 0 ∧
    (collinearSetup.edgeValueV0 ⟨3, 3⟩, collinearSetup.edgeValueV1 ⟨3, 3⟩,
      collinearSetup.edgeValueV2 ⟨3, 3⟩) = (0, 0, 0) ∧
    staleRenderer.m_pDepthBufferPixels[3 + 3 * 8]? = some (1 / 4) ∧
    (listTriangle sampleExternals 0 (staleRenderer, collinearMesh)).isSome = true ∧
    (listTriangle sampleExternals 0 (staleRenderer, collinearMesh)).map
        (fun s => s.1.m_pDepthBufferPixels[3 + 3 * 8]?) ≠ some (some (1 / 4)) := by
  decide!

end dae
